import Mathlib

/-!
# LearnHub: enrollment, progress and payment routes

A shallow embedding of `models/Enrollment.js`, `models/Course.js`,
`routes/enrollments.js`, `routes/payments.js` and the middleware of `index.js`.

Modelling conventions
* A MongoDB collection is a list of documents in insertion order; `findById`
  and `findOne` return the first match, `save` of a loaded document rewrites
  the first document with that `_id`, `save` of a new document appends it
  when the unique index on `(student, course)` allows it.
* An `ObjectId` is a natural number; a request field that carries an
  identifier is `none` when the field is empty. The fields `courseId` of
  `POST /api/enrollments` and `moduleId` of the progress route hold the value as
  the client sent it (`RawId`). The route parameter `:id` and the identifiers of
  the payment routes, which the handlers only hand to Mongoose, hold the
  ObjectId the value casts to; a value that does not cast makes the query throw,
  and the `catch` answers 500 before any write.
* A JavaScript `Number` is the rational it denotes (`NaN` and the infinities
  are left out); `/` and `*` round the exact result to binary64, to nearest
  with ties to even; `Math.round` is `fun x => ⌊x + 1/2⌋`. An array length is a
  number without rounding. A `Date` is a natural number supplied by the caller.
* A `try { ... } catch` block answers `500 Server error` and keeps every
  write that was awaited before the exception.
* `req.user` is the document attached by the `auth` middleware.
* The Stripe client is a record of functions; `none` stands for a rejected
  promise. Each handler reports the Stripe calls it made.
-/

namespace LearnHub

abbrev ObjectId := Nat

abbrev Date := Nat

/-- A non-empty value that a request carries where a handler expects an
identifier, as the client sent it. Mongoose casts it to an ObjectId when a query
or a document uses it; the `===` of a handler compares it, as it is, with the 24
lower-case hexadecimal digits that `toString()` prints. `canonical id` is those
digits, `respelled id` is another value that casts to `id`, such as the same
digits in upper case, and `malformed text` casts to no ObjectId. -/
inductive RawId where
  | canonical (id : ObjectId)
  | respelled (id : ObjectId)
  | malformed (text : String)
deriving DecidableEq, Repr

/-- The ObjectId that Mongoose casts the value to; `none` is a `CastError`. -/
def RawId.cast : RawId → Option ObjectId
  | RawId.canonical id => some id
  | RawId.respelled id => some id
  | RawId.malformed _ => none

/-- The test `id.toString() === raw`. -/
def RawId.isStringOf (raw : RawId) (id : ObjectId) : Bool :=
  match raw with
  | RawId.canonical j => j = id
  | _ => false

/-! ## JavaScript numbers -/

/-- Round to the nearest integer, ties to the even one. -/
def roundHalfEven (x : ℚ) : ℤ :=
  if x - ⌊x⌋ < 1 / 2 then ⌊x⌋
  else if 1 / 2 < x - ⌊x⌋ then ⌊x⌋ + 1
  else if ⌊x⌋ % 2 = 0 then ⌊x⌋ else ⌊x⌋ + 1

/-- Halve `n` until it is below 2, at most `fuel` times, and count the halvings. -/
def log2Fuel : ℕ → ℕ → ℕ
  | 0, _ => 0
  | fuel + 1, n => if n < 2 then 0 else log2Fuel fuel (n / 2) + 1

/-- The position of the leading bit of `n`. -/
def log2 (n : ℕ) : ℕ := log2Fuel n n

/-- For `x > 0`, the exponent `e` with `2 ^ e ≤ x < 2 ^ (e + 1)`. -/
def binade (x : ℚ) : ℤ :=
  if (2 : ℚ) ^ ((log2 x.num.natAbs : ℤ) - (log2 x.den : ℤ)) ≤ x then
    (log2 x.num.natAbs : ℤ) - (log2 x.den : ℤ)
  else (log2 x.num.natAbs : ℤ) - (log2 x.den : ℤ) - 1

/-- For `x > 0`, the multiple of `2 ^ (binade x - 52)` nearest to `x`, ties to the
even multiple: the number with a 53-bit significand nearest to `x`. -/
def nearest53 (x : ℚ) : ℚ :=
  (roundHalfEven (x / (2 : ℚ) ^ (binade x - 52)) : ℚ) * (2 : ℚ) ^ (binade x - 52)

/-- The IEEE 754 binary64 value of the real `x` under round-to-nearest, ties to
even, the exponent range being taken unbounded (no overflow, no subnormals). -/
def toDouble (x : ℚ) : ℚ :=
  if x = 0 then 0 else if 0 < x then nearest53 x else -nearest53 (-x)

/-- JavaScript `a / b` on numbers, for `b ≠ 0`. -/
def Number.div (a b : ℚ) : ℚ := toDouble (a / b)

/-- JavaScript `a * b` on numbers. -/
def Number.mul (a b : ℚ) : ℚ := toDouble (a * b)

/-- JavaScript `a - b` on numbers. -/
def Number.sub (a b : ℚ) : ℚ := toDouble (a - b)

/-- JavaScript `Math.round`: the nearest integer, halves towards plus infinity. -/
def Math.round (x : ℚ) : ℤ := ⌊x + 1 / 2⌋

/-! ## models/Course.js -/

structure Module where
  id : ObjectId
  duration : ℚ := 0
  order : ℚ := 0
deriving DecidableEq, Repr

structure EnrolledStudent where
  student : ObjectId
  enrolledAt : Date
  progress : ℚ := 0
  completed : Bool := false
deriving DecidableEq, Repr

structure Course where
  id : ObjectId
  title : String := ""
  price : ℚ := 0
  discount : ℚ := 0
  modules : List Module := []
  enrolledStudents : List EnrolledStudent := []
  isPublished : Bool := false
  certificate : Bool := true
deriving DecidableEq, Repr

/-- The virtual `currentPrice` of the schema: the price after discount. -/
def Course.currentPrice (self : Course) : ℚ :=
  if self.discount > 0 then
    Number.mul self.price (Number.sub 1 (Number.div self.discount 100))
  else self.price

/-! ## models/User.js (only the fields the routes touch) -/

structure EnrolledCourse where
  course : ObjectId
  enrolledAt : Date
deriving DecidableEq, Repr

/-- Modelled from the spec: `models/User.js` is not part of the sources; a user
document carries its identifier, its role and the enrolled set that
`$push: { enrolledCourses: ... }` appends to. -/
structure User where
  id : ObjectId
  role : String := "student"
  enrolledCourses : List EnrolledCourse := []
deriving DecidableEq, Repr

/-! ## models/Enrollment.js -/

inductive EnrollmentStatus where
  | active
  | completed
  | dropped
deriving DecidableEq, Repr

inductive PaymentStatus where
  | pending
  | completed
  | failed
  | refunded
deriving DecidableEq, Repr

structure CompletedModule where
  moduleId : ObjectId
  completedAt : Date
  quizScore : ℚ := 0
deriving DecidableEq, Repr

structure Progress where
  completedModules : List CompletedModule := []
  overallProgress : ℤ := 0
  lastAccessed : Date
deriving DecidableEq, Repr

structure Certificate where
  issued : Bool := false
  issuedAt : Option Date := none
  certificateUrl : String := ""
deriving DecidableEq, Repr

structure Payment where
  amount : ℚ
  currency : String := "USD"
  paymentMethod : String := "stripe"
  paymentStatus : PaymentStatus := PaymentStatus.pending
  transactionId : Option String := none
deriving DecidableEq, Repr

structure Enrollment where
  id : ObjectId
  student : ObjectId
  course : ObjectId
  enrolledAt : Date
  progress : Progress
  status : EnrollmentStatus := EnrollmentStatus.active
  certificate : Certificate := {}
  payment : Payment
  notes : String := ""
deriving DecidableEq, Repr

/-- The method `calculateProgress` of the schema, run on a document whose
`course` path is populated with `course`. -/
def Enrollment.calculateProgress (self : Enrollment) (course : Course) (now : Date) :
    Enrollment :=
  let totalModules := course.modules.length
  let completedModules := self.progress.completedModules.length
  let e1 : Enrollment :=
    if totalModules = 0 then
      { self with progress := { self.progress with overallProgress := 0 } }
    else
      { self with progress := { self.progress with
          overallProgress :=
            Math.round (Number.mul (Number.div completedModules totalModules) 100) } }
  if e1.progress.overallProgress = 100 then
    { e1 with
        status := EnrollmentStatus.completed
        certificate := { e1.certificate with issued := true, issuedAt := some now } }
  else e1

/-- The virtual `isCertificateEligible` of the schema. -/
def Enrollment.isCertificateEligible (self : Enrollment) (course : Course) : Bool :=
  self.progress.overallProgress = 100 && course.certificate

/-! ## The database -/

structure Store where
  courses : List Course := []
  users : List User := []
  enrollments : List Enrollment := []
  nextId : ObjectId := 0
deriving DecidableEq, Repr

def Course.findById (s : Store) (id : ObjectId) : Option Course :=
  s.courses.find? (fun c => c.id = id)

def Enrollment.findById (s : Store) (id : ObjectId) : Option Enrollment :=
  s.enrollments.find? (fun e => e.id = id)

/-- The query `Enrollment.findOne({ student, course })`. -/
def Enrollment.findOne (s : Store) (student course : ObjectId) : Option Enrollment :=
  s.enrollments.find? (fun e => e.student = student ∧ e.course = course)

/-- Rewrite the first element that satisfies `p`. -/
def updateFirst {α : Type} (p : α → Bool) (f : α → α) : List α → List α
  | [] => []
  | x :: xs => if p x then f x :: xs else x :: updateFirst p f xs

/-- The call `save()` on a new document: the unique index on
`{ student: 1, course: 1 }` rejects a second document for the pair. -/
def Enrollment.insert (s : Store) (e : Enrollment) : Option Store :=
  if s.enrollments.any (fun x => x.student = e.student ∧ x.course = e.course) then none
  else some { s with enrollments := s.enrollments ++ [e], nextId := s.nextId + 1 }

/-- The call `save()` on a document loaded with `findById`. -/
def Enrollment.save (s : Store) (e : Enrollment) : Store :=
  { s with enrollments := updateFirst (fun x => x.id = e.id) (fun _ => e) s.enrollments }

/-- The update `User.findByIdAndUpdate(id, { $push: { enrolledCourses: entry } })`. -/
def User.pushEnrolledCourse (s : Store) (id : ObjectId) (entry : EnrolledCourse) : Store :=
  { s with
      users := updateFirst (fun u => u.id = id)
        (fun u => { u with enrolledCourses := u.enrolledCourses ++ [entry] }) s.users }

/-- The update `Course.findByIdAndUpdate(id, { $push: { enrolledStudents: entry } })`. -/
def Course.pushEnrolledStudent (s : Store) (id : ObjectId) (entry : EnrolledStudent) : Store :=
  { s with
      courses := updateFirst (fun c => c.id = id)
        (fun c => { c with enrolledStudents := c.enrolledStudents ++ [entry] }) s.courses }

/-! ## HTTP and the Stripe client -/

/-- The document `req.user` set by the `auth` middleware. -/
structure AuthUser where
  id : ObjectId
  role : String := "student"
deriving DecidableEq, Repr

inductive Body where
  | message (text : String)
  | errors (messages : List String)
  | withEnrollment (text : String) (enrollment : Option Enrollment)
  | withRefund (text : String) (id : String) (amount : ℚ) (status : String)
  | withClientSecret (clientSecret : String) (amount : ℤ) (courseId : ObjectId)
      (title : String) (price : ℚ)
  | received
  | text (text : String)
deriving DecidableEq, Repr

structure Response where
  status : Nat
  body : Body
deriving DecidableEq, Repr

structure PaymentIntent where
  id : String
  status : String
  amount : ℚ
  currency : String
  clientSecret : String := ""
  metadataCourseId : Option ObjectId := none
  metadataStudentId : Option ObjectId := none
deriving DecidableEq, Repr

/-- The event that `stripe.webhooks.constructEvent` returns: its `type` and its
`data.object`. -/
structure StripeEvent where
  type : String
  object : PaymentIntent
deriving DecidableEq, Repr

structure Refund where
  id : String
  amount : ℚ
  status : String
deriving DecidableEq, Repr

/-- What the middleware that ran before a handler left in `req.body`: the bytes
of the request in a Buffer, or a parsed JavaScript object. -/
inductive ReqBody where
  | buffer (bytes : String)
  | parsed
deriving DecidableEq, Repr

inductive StripeCall where
  | paymentIntentsRetrieve (id : String)
  | refundsCreate (paymentIntent : String) (enrollmentId : ObjectId) (reason : String)
  | paymentIntentsCreate (amount : ℤ) (currency : String) (courseId studentId : ObjectId)
      (courseTitle : String)
  | webhooksConstructEvent (payload : ReqBody) (signature secret : String)
deriving DecidableEq, Repr

structure Stripe where
  paymentIntentsRetrieve : String → Option PaymentIntent
  refundsCreate : String → ObjectId → String → Option Refund
  paymentIntentsCreate : ℤ → String → ObjectId → ObjectId → String → Option PaymentIntent :=
    fun _ _ _ _ _ => none
  webhooksConstructEvent : String → String → String → Except String StripeEvent :=
    fun _ _ _ => Except.error "No signatures found matching the expected signature"

/-- The call `stripe.webhooks.constructEvent(payload, sig, secret)`: the library
checks the signature against the bytes of the request and throws when the
payload is a parsed object instead of a string or a Buffer. -/
def Stripe.constructEvent (stripe : Stripe) (payload : ReqBody) (sig secret : String) :
    Except String StripeEvent :=
  match payload with
  | ReqBody.buffer bytes => stripe.webhooksConstructEvent bytes sig secret
  | ReqBody.parsed =>
    Except.error "Webhook payload must be provided as a string or a Buffer"

structure Outcome where
  response : Response
  store : Store
  calls : List StripeCall := []
deriving DecidableEq, Repr

def serverError : Response := ⟨500, Body.message "Server error"⟩

/-! ## routes/enrollments.js -/

namespace Enrollments

/-- Whether `User` is bound in the module: line 5 requires `../models/User`. -/
def userBound : Bool := true

structure EnrollBody where
  courseId : Option RawId
  amount : Option ℚ
deriving DecidableEq, Repr

def EnrollBody.validationErrors (b : EnrollBody) : List String :=
  (if b.courseId.isNone then ["Course ID is required"] else []) ++
  (if b.amount.isNone then ["Amount must be a number"] else [])

/-- Lines 101 to 119 of `routes/enrollments.js` and 127 to 145 of
`routes/payments.js`: the two `$push` updates that follow `enrollment.save()`.
With `User` unbound the first statement throws a `ReferenceError`. -/
def pushBoth (bound : Bool) (s : Store) (student course : ObjectId) (now : Date) :
    Option Store :=
  if bound then
    let s1 := User.pushEnrolledCourse s student ⟨course, now⟩
    some (Course.pushEnrolledStudent s1 course { student := student, enrolledAt := now })
  else none

/-- The handler `router.post('/')`: create an enrollment. A `courseId` that does
not cast makes `Course.findById(courseId)` at line 69 throw a `CastError`, which
the `catch` answers. -/
def post (s : Store) (user : AuthUser) (body : EnrollBody) (now : Date) : Outcome :=
  match body.courseId, body.amount with
  | some courseId, some amount =>
    match courseId.cast with
    | none => ⟨serverError, s, []⟩
    | some courseId =>
      match Course.findById s courseId with
      | none => ⟨⟨404, Body.message "Course not found"⟩, s, []⟩
      | some course =>
        if ¬ course.isPublished then
          ⟨⟨400, Body.message "Course is not published"⟩, s, []⟩
        else
          match Enrollment.findOne s user.id courseId with
          | some _ => ⟨⟨400, Body.message "Already enrolled in this course"⟩, s, []⟩
          | none =>
            let enrollment : Enrollment :=
              { id := s.nextId
                student := user.id
                course := courseId
                enrolledAt := now
                progress := { lastAccessed := now }
                payment := { amount := amount, currency := "USD",
                             paymentStatus := PaymentStatus.completed } }
            match Enrollment.insert s enrollment with
            | none => ⟨serverError, s, []⟩
            | some s1 =>
              match pushBoth userBound s1 user.id courseId now with
              | none => ⟨serverError, s1, []⟩
              | some s2 =>
                ⟨⟨201, Body.withEnrollment "Successfully enrolled in course"
                    (Enrollment.findById s2 enrollment.id)⟩, s2, []⟩
  | _, _ => ⟨⟨400, Body.errors body.validationErrors⟩, s, []⟩

/-- Lines 88 to 128 of the handler `router.post('/')`: what runs after the
pre-check has found no enrollment, on the database as it is when `save()` is
reached. -/
def postCreate (s : Store) (user : AuthUser) (courseId : ObjectId) (amount : ℚ)
    (now : Date) : Outcome :=
  let enrollment : Enrollment :=
    { id := s.nextId
      student := user.id
      course := courseId
      enrolledAt := now
      progress := { lastAccessed := now }
      payment := { amount := amount, currency := "USD",
                   paymentStatus := PaymentStatus.completed } }
  match Enrollment.insert s enrollment with
  | none => ⟨serverError, s, []⟩
  | some s1 =>
    match pushBoth userBound s1 user.id courseId now with
    | none => ⟨serverError, s1, []⟩
    | some s2 =>
      ⟨⟨201, Body.withEnrollment "Successfully enrolled in course"
          (Enrollment.findById s2 enrollment.id)⟩, s2, []⟩

/-- Lines 61 to 86 of the handler `router.post('/')`: validation, course checks
and the pre-check; `none` when the handler goes on to create the enrollment. -/
def postCheck (s : Store) (user : AuthUser) (body : EnrollBody) : Option Response :=
  match body.courseId, body.amount with
  | some courseId, some _ =>
    match courseId.cast with
    | none => some serverError
    | some courseId =>
      match Course.findById s courseId with
      | none => some ⟨404, Body.message "Course not found"⟩
      | some course =>
        if ¬ course.isPublished then some ⟨400, Body.message "Course is not published"⟩
        else
          match Enrollment.findOne s user.id courseId with
          | some _ => some ⟨400, Body.message "Already enrolled in this course"⟩
          | none => none
  | _, _ => some ⟨400, Body.errors body.validationErrors⟩

/-- The handler `router.post('/')` when another request is handled between its
pre-check and its `save()`: the checks of lines 61 to 86 read the database
`before`, lines 88 to 128 run on the database `atSave`. -/
def postRaced (before atSave : Store) (user : AuthUser) (body : EnrollBody) (now : Date) :
    Outcome :=
  match postCheck before user body, body.courseId.bind RawId.cast, body.amount with
  | none, some courseId, some amount => postCreate atSave user courseId amount now
  | some response, _, _ => ⟨response, atSave, []⟩
  | none, _, _ => ⟨⟨400, Body.errors body.validationErrors⟩, atSave, []⟩

structure ProgressBody where
  moduleId : Option RawId
  completed : Option Bool
  quizScore : Option (Option ℚ) := some none
deriving DecidableEq, Repr

def ProgressBody.validationErrors (b : ProgressBody) : List String :=
  (if b.moduleId.isNone then ["Module ID is required"] else []) ++
  (if b.completed.isNone then ["Completed must be a boolean"] else []) ++
  (if b.quizScore.isNone then ["Quiz score must be a number"] else [])

/-- Lines 162 to 180: the change of the completed-module list. The tests of
lines 165 and 178 compare the string `module.moduleId.toString()` with the
`moduleId` of the body as the client sent it; `push` stores the ObjectId the
value casts to. The result is `none` when the pushed value does not cast: the
document is then invalid and `save()` at line 203 rejects. -/
def updateCompletedModules (completedModules : List CompletedModule) (moduleId : RawId)
    (completed : Bool) (quizScore : Option ℚ) (now : Date) : Option (List CompletedModule) :=
  if completed then
    let moduleExists := completedModules.any (fun m => moduleId.isStringOf m.moduleId)
    if ¬ moduleExists then
      match moduleId.cast with
      | some id =>
        some (completedModules ++ [{ moduleId := id, completedAt := now,
                                     quizScore := quizScore.getD 0 }])
      | none => none
    else some completedModules
  else
    some (completedModules.filter (fun m => ¬ moduleId.isStringOf m.moduleId))

/-- Lines 185 to 201: the overall progress and the completion of the loaded
document; `course` is the result of `Course.findById(enrollment.course)`. -/
def recalculateProgress (enrollment : Enrollment) (course : Option Course) (now : Date) :
    Enrollment :=
  match course with
  | none => enrollment
  | some course =>
    let totalModules := course.modules.length
    let completedModules := enrollment.progress.completedModules.length
    let e2 : Enrollment :=
      if totalModules > 0 then
        { enrollment with progress := { enrollment.progress with
            overallProgress :=
              Math.round (Number.mul (Number.div completedModules totalModules) 100) } }
      else enrollment
    if e2.progress.overallProgress = 100 then
      { e2 with
          status := EnrollmentStatus.completed
          certificate := { e2.certificate with issued := true, issuedAt := some now } }
    else e2

/-- Lines 162 to 201: what the handler does to the loaded document before
`save()`; `none` when the document it leaves is invalid. -/
def applyProgress (enrollment : Enrollment) (course : Option Course) (moduleId : RawId)
    (completed : Bool) (quizScore : Option ℚ) (now : Date) : Option Enrollment :=
  match updateCompletedModules enrollment.progress.completedModules moduleId completed
      quizScore now with
  | none => none
  | some completedModules =>
    some (recalculateProgress
      { enrollment with progress := { enrollment.progress with
          completedModules := completedModules
          lastAccessed := now } } course now)

/-- The handler `router.put('/:id/progress')`. -/
def putProgress (s : Store) (user : AuthUser) (id : ObjectId) (body : ProgressBody)
    (now : Date) : Outcome :=
  match body.moduleId, body.completed, body.quizScore with
  | some moduleId, some completed, some quizScore =>
    match Enrollment.findById s id with
    | none => ⟨⟨404, Body.message "Enrollment not found"⟩, s, []⟩
    | some enrollment =>
      if enrollment.student ≠ user.id then
        ⟨⟨403, Body.message "Not authorized"⟩, s, []⟩
      else
        match applyProgress enrollment (Course.findById s enrollment.course)
            moduleId completed quizScore now with
        | none => ⟨serverError, s, []⟩
        | some updated =>
          ⟨⟨200, Body.withEnrollment "Progress updated successfully" (some updated)⟩,
            Enrollment.save s updated, []⟩
  | _, _, _ => ⟨⟨400, Body.errors body.validationErrors⟩, s, []⟩

/-- The handler `router.delete('/:id')`: drop an enrollment. -/
def delete (s : Store) (user : AuthUser) (id : ObjectId) : Outcome :=
  match Enrollment.findById s id with
  | none => ⟨⟨404, Body.message "Enrollment not found"⟩, s, []⟩
  | some enrollment =>
    if enrollment.student ≠ user.id ∧ user.role ≠ "admin" then
      ⟨⟨403, Body.message "Not authorized"⟩, s, []⟩
    else
      let dropped := { enrollment with status := EnrollmentStatus.dropped }
      ⟨⟨200, Body.message "Enrollment dropped successfully"⟩, Enrollment.save s dropped, []⟩

end Enrollments

/-! ## routes/payments.js -/

namespace Payments

/-- Whether `User` is bound in the module: lines 1 to 8 require `express`,
`stripe`, `express-validator`, `../models/Course`, `../models/Enrollment` and
`../middleware/auth`, and nothing else; `User` is never declared. -/
def userBound : Bool := false

structure ConfirmBody where
  paymentIntentId : String
  courseId : Option ObjectId
  amount : Option ℚ := none
deriving DecidableEq, Repr

def ConfirmBody.validationErrors (b : ConfirmBody) : List String :=
  (if b.paymentIntentId = "" then ["Payment intent ID is required"] else []) ++
  (if b.courseId.isNone then ["Course ID is required"] else [])

/-- The handler `router.post('/confirm')`: confirm payment and create enrollment. -/
def confirm (stripe : Stripe) (s : Store) (user : AuthUser) (body : ConfirmBody)
    (now : Date) : Outcome :=
  match body.courseId with
  | none => ⟨⟨400, Body.errors body.validationErrors⟩, s, []⟩
  | some courseId =>
    if body.paymentIntentId = "" then ⟨⟨400, Body.errors body.validationErrors⟩, s, []⟩
    else
      let calls := [StripeCall.paymentIntentsRetrieve body.paymentIntentId]
      match stripe.paymentIntentsRetrieve body.paymentIntentId with
      | none => ⟨serverError, s, calls⟩
      | some paymentIntent =>
        if paymentIntent.status ≠ "succeeded" then
          ⟨⟨400, Body.message "Payment not completed"⟩, s, calls⟩
        else
          match Course.findById s courseId with
          | none => ⟨⟨404, Body.message "Course not found"⟩, s, calls⟩
          | some _ =>
            match Enrollment.findOne s user.id courseId with
            | some _ => ⟨⟨400, Body.message "Already enrolled in this course"⟩, s, calls⟩
            | none =>
              let enrollment : Enrollment :=
                { id := s.nextId
                  student := user.id
                  course := courseId
                  enrolledAt := now
                  progress := { lastAccessed := now }
                  payment := { amount := Number.div paymentIntent.amount 100
                               currency := paymentIntent.currency
                               paymentMethod := "stripe"
                               paymentStatus := PaymentStatus.completed
                               transactionId := some paymentIntent.id } }
              match Enrollment.insert s enrollment with
              | none => ⟨serverError, s, calls⟩
              | some s1 =>
                match Enrollments.pushBoth userBound s1 user.id courseId now with
                | none => ⟨serverError, s1, calls⟩
                | some s2 =>
                  ⟨⟨200, Body.withEnrollment
                      "Payment confirmed and enrollment created successfully"
                      (Enrollment.findById s2 enrollment.id)⟩, s2, calls⟩

structure RefundBody where
  enrollmentId : Option ObjectId
  reason : String
deriving DecidableEq, Repr

def RefundBody.validationErrors (b : RefundBody) : List String :=
  (if b.enrollmentId.isNone then ["Enrollment ID is required"] else []) ++
  (if b.reason = "" then ["Refund reason is required"] else [])

/-- JavaScript truthiness of the optional string `payment.transactionId`. -/
def truthy : Option String → Bool
  | none => false
  | some t => t ≠ ""

/-- The handler `router.post('/refund')`: request refund for enrollment. -/
def refund (stripe : Stripe) (s : Store) (user : AuthUser) (body : RefundBody) : Outcome :=
  match body.enrollmentId with
  | none => ⟨⟨400, Body.errors body.validationErrors⟩, s, []⟩
  | some enrollmentId =>
    if body.reason = "" then ⟨⟨400, Body.errors body.validationErrors⟩, s, []⟩
    else
      match Enrollment.findById s enrollmentId with
      | none => ⟨⟨404, Body.message "Enrollment not found"⟩, s, []⟩
      | some enrollment =>
        if enrollment.student ≠ user.id then
          ⟨⟨403, Body.message "Not authorized"⟩, s, []⟩
        else if enrollment.payment.paymentMethod ≠ "stripe"
            ∨ ¬ truthy enrollment.payment.transactionId then
          ⟨⟨400, Body.message "Refund not available for this payment method"⟩, s, []⟩
        else if enrollment.payment.paymentStatus = PaymentStatus.refunded then
          ⟨⟨400, Body.message "Payment already refunded"⟩, s, []⟩
        else
          let transactionId := enrollment.payment.transactionId.getD ""
          let calls := [StripeCall.refundsCreate transactionId enrollment.id body.reason]
          match stripe.refundsCreate transactionId enrollment.id body.reason with
          | none => ⟨serverError, s, calls⟩
          | some r =>
            let refunded : Enrollment :=
              { enrollment with
                  payment := { enrollment.payment with
                    paymentStatus := PaymentStatus.refunded }
                  status := EnrollmentStatus.dropped }
            ⟨⟨200, Body.withRefund "Refund processed successfully" r.id
                (Number.div r.amount 100) r.status⟩, Enrollment.save s refunded, calls⟩

structure IntentBody where
  courseId : Option ObjectId
deriving DecidableEq, Repr

def IntentBody.validationErrors (b : IntentBody) : List String :=
  if b.courseId.isNone then ["Course ID is required"] else []

/-- The handler `router.post('/create-payment-intent')`. -/
def createPaymentIntent (stripe : Stripe) (s : Store) (user : AuthUser) (body : IntentBody) :
    Outcome :=
  match body.courseId with
  | none => ⟨⟨400, Body.errors body.validationErrors⟩, s, []⟩
  | some courseId =>
    match Course.findById s courseId with
    | none => ⟨⟨404, Body.message "Course not found"⟩, s, []⟩
    | some course =>
      if ¬ course.isPublished then
        ⟨⟨400, Body.message "Course is not published"⟩, s, []⟩
      else
        match Enrollment.findOne s user.id courseId with
        | some _ => ⟨⟨400, Body.message "Already enrolled in this course"⟩, s, []⟩
        | none =>
          let amount := Math.round (Number.mul course.currentPrice 100)
          let calls := [StripeCall.paymentIntentsCreate amount "usd" courseId user.id
            course.title]
          match stripe.paymentIntentsCreate amount "usd" courseId user.id course.title with
          | none => ⟨serverError, s, calls⟩
          | some paymentIntent =>
            ⟨⟨200, Body.withClientSecret paymentIntent.clientSecret amount course.id
                course.title course.currentPrice⟩, s, calls⟩

/-- The middleware `express.raw({ type: 'application/json' })` of line 164:
it reads the bytes of the request into a Buffer unless an earlier middleware has
parsed the body already, which it then leaves alone. -/
def expressRaw (body : Option ReqBody) (bytes : String) : ReqBody :=
  match body with
  | some earlier => earlier
  | none => ReqBody.buffer bytes

/-- The route `router.post('/webhook', express.raw(...), ...)` for a request
with the JSON body `bytes`; `body` is what the middleware mounted before the
router left in `req.body` (`none` when there is none) and `endpointSecret` is
`process.env.STRIPE_WEBHOOK_SECRET`. Each branch of the `switch` only writes to
the console. -/
def webhook (stripe : Stripe) (s : Store) (body : Option ReqBody)
    (bytes sig endpointSecret : String) : Outcome :=
  let payload := expressRaw body bytes
  let calls := [StripeCall.webhooksConstructEvent payload sig endpointSecret]
  match stripe.constructEvent payload sig endpointSecret with
  | Except.error message => ⟨⟨400, Body.text ("Webhook Error: " ++ message)⟩, s, calls⟩
  | Except.ok event =>
    if event.type = "payment_intent.succeeded" then
      ⟨⟨200, Body.received⟩, s, calls⟩
    else if event.type = "payment_intent.payment_failed" then
      ⟨⟨200, Body.received⟩, s, calls⟩
    else
      ⟨⟨200, Body.received⟩, s, calls⟩

end Payments

/-! ## index.js -/

namespace App

/-- Line 14, `app.use(express.json())`, runs on every request before the
routers of lines 36 to 40: a JSON body reaches its route as the parsed object. -/
def expressJson (_bytes : String) : ReqBody := ReqBody.parsed

/-- The request `POST /api/payments/webhook` with the JSON body `bytes`, as the
application serves it: line 14, then the route of `routes/payments.js`. -/
def postPaymentsWebhook (stripe : Stripe) (s : Store) (bytes sig endpointSecret : String) :
    Outcome :=
  Payments.webhook stripe s (some (expressJson bytes)) bytes sig endpointSecret

end App

/-! ## Sequences of requests -/

/-- One request to the enrollment engine, with everything the handler reads
from outside the database: the authenticated user, the body, the clock and
the answers of the Stripe client. -/
inductive Op where
  | requestEnrollment (user : AuthUser) (body : Enrollments.EnrollBody) (now : Date)
  | confirmEnrollment (stripe : Stripe) (user : AuthUser) (body : Payments.ConfirmBody)
      (now : Date)
  | updateModuleProgress (user : AuthUser) (id : ObjectId) (body : Enrollments.ProgressBody)
      (now : Date)
  | dropEnrollment (user : AuthUser) (id : ObjectId)
  | refundEnrollment (stripe : Stripe) (user : AuthUser) (body : Payments.RefundBody)

def Op.run (s : Store) : Op → Outcome
  | Op.requestEnrollment user body now => Enrollments.post s user body now
  | Op.confirmEnrollment stripe user body now => Payments.confirm stripe s user body now
  | Op.updateModuleProgress user id body now => Enrollments.putProgress s user id body now
  | Op.dropEnrollment user id => Enrollments.delete s user id
  | Op.refundEnrollment stripe user body => Payments.refund stripe s user body

/-- The database after the requests `ops`, handled one after the other. -/
def runOps (s : Store) (ops : List Op) : Store :=
  ops.foldl (fun st op => (op.run st).store) s

/-- A database with the given courses and users and no enrollment yet. -/
def emptyStore (courses : List Course) (users : List User) : Store :=
  { courses := courses, users := users, enrollments := [], nextId := 0 }

/-- The enrollments of `student` in `course` whose status is `active` or `completed`. -/
def liveEnrollments (s : Store) (student course : ObjectId) : List Enrollment :=
  s.enrollments.filter (fun e => e.student = student ∧ e.course = course ∧
    (e.status = EnrollmentStatus.active ∨ e.status = EnrollmentStatus.completed))

/-- All enrollments of `student` in `course`, whatever their status. -/
def enrollmentsFor (s : Store) (student course : ObjectId) : List Enrollment :=
  s.enrollments.filter (fun e => e.student = student ∧ e.course = course)

/-! ## The specification's formulas and sample data -/

/-- The overall-progress percentage in the words of the specification:
`round(100 × |completed modules ∩ course modules| / |course modules|)`, the
cardinalities being those of the sets of module identifiers and the arithmetic
exact. -/
def specOverallProgress (completed : List CompletedModule) (modules : List Module) : ℤ :=
  Math.round (100 *
    ((((completed.map (fun m => m.moduleId)).toFinset ∩
        (modules.map (fun m => m.id)).toFinset).card : ℕ) : ℚ) /
    (((modules.map (fun m => m.id)).toFinset.card : ℕ) : ℚ))

/-- The document that `router.post('/confirm')` builds at lines 113 to 123 for
the intent `pi`. -/
def confirmedEnrollment (s : Store) (user : AuthUser) (courseId : ObjectId)
    (pi : PaymentIntent) (now : Date) : Enrollment :=
  { id := s.nextId
    student := user.id
    course := courseId
    enrolledAt := now
    progress := { lastAccessed := now }
    payment := { amount := Number.div pi.amount 100
                 currency := pi.currency
                 paymentMethod := "stripe"
                 paymentStatus := PaymentStatus.completed
                 transactionId := some pi.id } }

/-- The expression `Math.round((completedModules / totalModules) * 100)` of
`calculateProgress` and of the progress route, in double arithmetic. -/
def percentage (completedModules totalModules : ℕ) : ℤ :=
  Math.round (Number.mul (Number.div completedModules totalModules) 100)

/-- One UpdateModuleProgress request. -/
structure ProgressCall where
  user : AuthUser
  id : ObjectId
  body : Enrollments.ProgressBody
  now : Date
deriving DecidableEq, Repr

/-- The database after the progress requests `calls`, handled one after the other. -/
def runProgress (s : Store) (calls : List ProgressCall) : Store :=
  calls.foldl (fun st c => (Enrollments.putProgress st c.user c.id c.body c.now).store) s

namespace Sample

/-- A published course with two modules; certificates are enabled. -/
def course1 : Course :=
  { id := 1, price := 20, modules := [{ id := 10 }, { id := 20 }], isPublished := true }

/-- A published course with one module; certificates are enabled. -/
def course2 : Course :=
  { id := 2, price := 20, modules := [{ id := 10 }], isPublished := true }

/-- A published course with one module whose certificate flag is off. -/
def course3 : Course :=
  { id := 3, price := 20, modules := [{ id := 10 }], isPublished := true,
    certificate := false }

/-- A course that is not published. -/
def course4 : Course := { id := 4, price := 20, modules := [{ id := 10 }] }

def student7 : AuthUser := { id := 7 }

/-- An active enrollment of student 7 in `course`, paid through Stripe. -/
def enrollmentIn (course : ObjectId) : Enrollment :=
  { id := 0, student := 7, course := course, enrolledAt := 5
    progress := { lastAccessed := 5 }
    payment := { amount := 20, currency := "usd",
                 paymentStatus := PaymentStatus.completed, transactionId := some "pi_1" } }

def courses : List Course := [course1, course2, course3, course4]

/-- The four courses and student 7, nobody enrolled. -/
def fresh : Store := emptyStore courses [{ id := 7 }]

/-- The four courses and student 7, enrolled in `course`. -/
def enrolledIn (course : ObjectId) : Store :=
  { courses := courses, users := [{ id := 7 }], enrollments := [enrollmentIn course],
    nextId := 1 }

/-- Student 7 has dropped the only enrollment in course 1. -/
def droppedFrom1 : Store :=
  { courses := courses, users := [{ id := 7 }],
    enrollments := [{ enrollmentIn 1 with status := EnrollmentStatus.dropped }],
    nextId := 1 }

/-- A published course with forty modules, numbered 100 to 139. -/
def course40 : Course :=
  { id := 40, price := 20, modules := (List.range 40).map (fun i => { id := 100 + i }),
    isPublished := true }

/-- Course 40 and student 7, who has completed its first 22 modules. -/
def enrolledIn40 : Store :=
  { courses := [course40], users := [{ id := 7 }],
    enrollments := [{ enrollmentIn 40 with
      progress := { completedModules :=
                      (List.range 22).map (fun i => { moduleId := 100 + i, completedAt := 5 })
                    overallProgress := 55, lastAccessed := 5 } }],
    nextId := 1 }

/-- Student 7 has completed the one-module course 2 and holds its certificate. -/
def certifiedIn2 : Store :=
  { courses := courses, users := [{ id := 7 }],
    enrollments := [{ enrollmentIn 2 with
      progress := { completedModules := [{ moduleId := 10, completedAt := 6 }]
                    overallProgress := 100, lastAccessed := 6 }
      status := EnrollmentStatus.completed
      certificate := { issued := true, issuedAt := some 6 } }],
    nextId := 1 }

/-- A published course without modules. -/
def course5 : Course := { id := 5, price := 20, isPublished := true }

/-- Course 5 and student 7, whose enrollment still carries one completed module
and the percentage 50 from the time the course had two modules. -/
def enrolledIn5 : Store :=
  { courses := [course5], users := [{ id := 7 }],
    enrollments := [{ enrollmentIn 5 with
      progress := { completedModules := [{ moduleId := 10, completedAt := 5 }]
                    overallProgress := 50, lastAccessed := 5 } }],
    nextId := 1 }

/-- A published course with the four modules 1, 2, 3 and 4; certificates are
enabled. -/
def course6 : Course :=
  { id := 6, price := 20, modules := [{ id := 1 }, { id := 2 }, { id := 3 }, { id := 4 }],
    isPublished := true }

/-- Course 6 and student 7, freshly enrolled. -/
def enrolledIn6 : Store :=
  { courses := [course6], users := [{ id := 7 }], enrollments := [enrollmentIn 6],
    nextId := 1 }

/-- A published course that costs nothing. -/
def course8 : Course := { id := 8, title := "Free course", price := 0, isPublished := true }

/-- A published course discounted by 100 percent. -/
def course9 : Course :=
  { id := 9, title := "Given away", price := 20, discount := 100, isPublished := true }

/-- Courses 8 and 9 and student 7, nobody enrolled. -/
def priced : Store := emptyStore [course8, course9] [{ id := 7 }]

def succeededIntent : PaymentIntent :=
  { id := "pi_1", status := "succeeded", amount := 1999, currency := "usd" }

/-- A Stripe client whose intents have all succeeded and whose refunds go through. -/
def stripeOk : Stripe :=
  { paymentIntentsRetrieve := fun id => some { succeededIntent with id := id }
    refundsCreate := fun _ _ _ => some { id := "re_1", amount := 1999, status := "succeeded" } }

/-- A Stripe client whose intents still require an action. -/
def stripePending : Stripe :=
  { paymentIntentsRetrieve := fun id =>
      some { id := id, status := "requires_action", amount := 1999, currency := "usd" }
    refundsCreate := fun _ _ _ => none }

/-- A Stripe client that creates the intents it is asked for and accepts every
webhook signature, the event being the success of an intent of student 7 for
course 1. -/
def stripeLive : Stripe :=
  { stripeOk with
      paymentIntentsCreate := fun amount currency courseId studentId _ =>
        some { id := "pi_2", status := "requires_action", amount := amount,
               currency := currency, clientSecret := "pi_2_secret",
               metadataCourseId := some courseId, metadataStudentId := some studentId }
      webhooksConstructEvent := fun _ _ _ =>
        Except.ok { type := "payment_intent.succeeded"
                    object := { succeededIntent with
                      metadataCourseId := some 1, metadataStudentId := some 7 } } }

/-- Stands for the JSON text of the event `payment_intent.succeeded` of student 7
for course 1, as Stripe posts it. -/
def successEvent : String := "evt_1: payment_intent.succeeded, pi_1, course 1, student 7"

/-- Student 7 reports the module complete, its identifier spelled as
`toString()` prints it. -/
def complete (moduleId : ObjectId) (now : Date) : ProgressCall :=
  { user := student7, id := 0
    body := { moduleId := some (RawId.canonical moduleId), completed := some true }
    now := now }

/-- Student 7 reports the module incomplete, its identifier spelled as
`toString()` prints it. -/
def uncomplete (moduleId : ObjectId) (now : Date) : ProgressCall :=
  { user := student7, id := 0
    body := { moduleId := some (RawId.canonical moduleId), completed := some false }
    now := now }

/-- Student 7 reports the module complete, the hexadecimal digits of its
identifier in upper case. -/
def completeUpper (moduleId : ObjectId) (now : Date) : ProgressCall :=
  { user := student7, id := 0
    body := { moduleId := some (RawId.respelled moduleId), completed := some true }
    now := now }

/-- Student 7 reports the module incomplete, the hexadecimal digits of its
identifier in upper case. -/
def uncompleteUpper (moduleId : ObjectId) (now : Date) : ProgressCall :=
  { user := student7, id := 0
    body := { moduleId := some (RawId.respelled moduleId), completed := some false }
    now := now }

/-- Student 7 enrolls in course 1, completes module 10 and drops the course. -/
def enrollThenDrop : List Op :=
  [Op.requestEnrollment student7 { courseId := some (RawId.canonical 1), amount := some 20 } 5,
   Op.updateModuleProgress student7 0
     { moduleId := some (RawId.canonical 10), completed := some true } 6,
   Op.dropEnrollment student7 0]

end Sample

/-- The `(student, course)` keys of the stored enrollments, in order. -/
def Store.pairs (s : Store) : List (ObjectId × ObjectId) :=
  s.enrollments.map (fun e => (e.student, e.course))

/-- Whether the request is a ConfirmEnrollment. -/
def Op.isConfirm : Op → Bool
  | Op.confirmEnrollment _ _ _ _ => true
  | _ => false

/-- The students of the roster of a course, in order. -/
def Course.rosterStudents (c : Course) : List ObjectId :=
  c.enrolledStudents.map (fun r => r.student)

/-- The courses of the enrolled set of a user, in order. -/
def User.enrolledCourseIds (u : User) : List ObjectId :=
  u.enrolledCourses.map (fun r => r.course)

/-- Rosters and enrolled sets agree with the enrollments: a student is once in the
roster of a course when an enrollment exists for the pair and is not in it
otherwise, and likewise a course in the enrolled set of a user. -/
def Store.rostersAgree (s : Store) : Prop :=
  (∀ c ∈ s.courses, ∀ student : ObjectId,
    ((student, c.id) ∈ s.pairs → c.rosterStudents.count student = 1) ∧
    ((student, c.id) ∉ s.pairs → c.rosterStudents.count student = 0)) ∧
  (∀ u ∈ s.users, ∀ course : ObjectId,
    ((u.id, course) ∈ s.pairs → u.enrolledCourseIds.count course = 1) ∧
    ((u.id, course) ∉ s.pairs → u.enrolledCourseIds.count course = 0))

/-! ## Theorems -/

/-! ### Double arithmetic -/

theorem log2Fuel_spec : ∀ (fuel n : ℕ), n ≤ fuel → n ≠ 0 →
    2 ^ log2Fuel fuel n ≤ n ∧ n < 2 ^ (log2Fuel fuel n + 1) := by
  intro fuel
  induction fuel with
  | zero => intro n h h0; omega
  | succ k ih =>
    intro n h h0
    unfold log2Fuel
    by_cases h2 : n < 2
    · simp only [h2, if_true]
      omega
    · simp only [h2, if_false]
      have hk : n / 2 ≤ k := by omega
      have hne : n / 2 ≠ 0 := by omega
      obtain ⟨h1, h3⟩ := ih (n / 2) hk hne
      constructor
      · rw [pow_succ]; omega
      · rw [pow_succ]; omega

theorem log2_spec (n : ℕ) (h0 : n ≠ 0) : 2 ^ log2 n ≤ n ∧ n < 2 ^ (log2 n + 1) :=
  log2Fuel_spec n n le_rfl h0

theorem ratio_between_powers (x N D : ℚ) (a b : ℤ) (hN : 0 < N) (hD : 0 < D)
    (hx : x = N / D) (A1 : (2 : ℚ) ^ a ≤ N) (A2 : N < (2 : ℚ) ^ (a + 1))
    (B1 : (2 : ℚ) ^ b ≤ D) (B2 : D < (2 : ℚ) ^ (b + 1)) :
    (2 : ℚ) ^ (a - b - 1) < x ∧ x < (2 : ℚ) ^ (a - b + 1) := by
  have two_pos : (0 : ℚ) < 2 := by norm_num
  have two_ne : (2 : ℚ) ≠ 0 := by norm_num
  have hBpos : (0 : ℚ) < (2 : ℚ) ^ b := zpow_pos two_pos _
  have hB2pos : (0 : ℚ) < (2 : ℚ) ^ (b + 1) := zpow_pos two_pos _
  constructor
  · have e : a - b - 1 = a - (b + 1) := by ring
    rw [e, zpow_sub₀ two_ne, hx, div_lt_div_iff₀ hB2pos hD]
    calc (2 : ℚ) ^ a * D ≤ N * D := mul_le_mul_of_nonneg_right A1 hD.le
      _ < N * (2 : ℚ) ^ (b + 1) := mul_lt_mul_of_pos_left B2 hN
  · have e : a - b + 1 = (a + 1) - b := by ring
    rw [e, zpow_sub₀ two_ne, hx, div_lt_div_iff₀ hD hBpos]
    calc N * (2 : ℚ) ^ b ≤ N * D := mul_le_mul_of_nonneg_left B1 hN.le
      _ < (2 : ℚ) ^ (a + 1) * D := mul_lt_mul_of_pos_right A2 hD

theorem binade_spec (x : ℚ) (hx : 0 < x) :
    (2 : ℚ) ^ binade x ≤ x ∧ x < (2 : ℚ) ^ (binade x + 1) := by
  have hnum : 0 < x.num := Rat.num_pos.mpr hx
  have hden : x.den ≠ 0 := x.den_nz
  have hn0 : x.num.natAbs ≠ 0 := by omega
  obtain ⟨ha1, ha2⟩ := log2_spec x.num.natAbs hn0
  obtain ⟨hb1, hb2⟩ := log2_spec x.den hden
  have hcast : ((x.num.natAbs : ℕ) : ℚ) = (x.num : ℚ) := by
    rw [Nat.cast_natAbs, abs_of_pos hnum]
  have hxeq : x = ((x.num.natAbs : ℕ) : ℚ) / (x.den : ℚ) := by
    rw [hcast]
    exact (Rat.num_div_den x).symm
  have hdpos : (0 : ℚ) < (x.den : ℚ) := by exact_mod_cast Nat.pos_of_ne_zero hden
  have hnpos : (0 : ℚ) < ((x.num.natAbs : ℕ) : ℚ) := by
    exact_mod_cast Nat.pos_of_ne_zero hn0
  have A1 : (2 : ℚ) ^ (log2 x.num.natAbs : ℤ) ≤ ((x.num.natAbs : ℕ) : ℚ) := by
    rw [zpow_natCast]; exact_mod_cast ha1
  have A2 : ((x.num.natAbs : ℕ) : ℚ) < (2 : ℚ) ^ ((log2 x.num.natAbs : ℤ) + 1) := by
    have : ((log2 x.num.natAbs : ℤ) + 1) = ((log2 x.num.natAbs + 1 : ℕ) : ℤ) := by simp
    rw [this, zpow_natCast]; exact_mod_cast ha2
  have B1 : (2 : ℚ) ^ (log2 x.den : ℤ) ≤ (x.den : ℚ) := by
    rw [zpow_natCast]; exact_mod_cast hb1
  have B2 : (x.den : ℚ) < (2 : ℚ) ^ ((log2 x.den : ℤ) + 1) := by
    have : ((log2 x.den : ℤ) + 1) = ((log2 x.den + 1 : ℕ) : ℤ) := by simp
    rw [this, zpow_natCast]; exact_mod_cast hb2
  obtain ⟨low, up⟩ := ratio_between_powers x _ _ _ _ hnpos hdpos hxeq A1 A2 B1 B2
  unfold binade
  split
  · rename_i h
    exact ⟨h, up⟩
  · rename_i h
    refine ⟨low.le, ?_⟩
    have : (log2 x.num.natAbs : ℤ) - (log2 x.den : ℤ) - 1 + 1 =
        (log2 x.num.natAbs : ℤ) - (log2 x.den : ℤ) := by ring
    rw [this]
    exact lt_of_not_le h

theorem roundHalfEven_mem (x : ℚ) : roundHalfEven x = ⌊x⌋ ∨ roundHalfEven x = ⌊x⌋ + 1 := by
  unfold roundHalfEven
  split
  · exact Or.inl rfl
  · split
    · exact Or.inr rfl
    · split
      · exact Or.inl rfl
      · exact Or.inr rfl

theorem le_roundHalfEven (x : ℚ) (m : ℤ) (h : (m : ℚ) ≤ x) : m ≤ roundHalfEven x := by
  have hm : m ≤ ⌊x⌋ := Int.le_floor.mpr h
  rcases roundHalfEven_mem x with h1 | h1 <;> rw [h1] <;> omega

theorem roundHalfEven_le (x : ℚ) (m : ℤ) (h : x ≤ (m : ℚ)) : roundHalfEven x ≤ m := by
  by_cases hx : x = (⌊x⌋ : ℚ)
  · have h0 : x - (⌊x⌋ : ℚ) < 1 / 2 := by rw [← hx]; norm_num
    have : roundHalfEven x = ⌊x⌋ := by
      unfold roundHalfEven
      rw [if_pos h0]
    rw [this]
    exact Int.floor_le_iff.mpr (lt_of_le_of_lt h (by linarith))
  · have hlt : (⌊x⌋ : ℚ) < x := lt_of_le_of_ne (Int.floor_le x) (fun h => hx h.symm)
    have : ⌊x⌋ < m := by
      have : (⌊x⌋ : ℚ) < (m : ℚ) := lt_of_lt_of_le hlt h
      exact_mod_cast this
    rcases roundHalfEven_mem x with h1 | h1 <;> rw [h1] <;> omega

theorem abs_roundHalfEven_sub_le (x : ℚ) : |(roundHalfEven x : ℚ) - x| ≤ 1 / 2 := by
  have h1 := Int.floor_le x
  have h2 := Int.lt_floor_add_one x
  rw [abs_le]
  unfold roundHalfEven
  split
  · rename_i h; constructor <;> linarith
  · rename_i h
    split
    · rename_i h3; push_cast; constructor <;> linarith
    · rename_i h3
      have heq : x - (⌊x⌋ : ℚ) = 1 / 2 := le_antisymm (not_lt.mp h3) (not_lt.mp h)
      split
      · constructor <;> linarith
      · push_cast; constructor <;> linarith

theorem nearest53_error (x : ℚ) : |nearest53 x - x| ≤ (2 : ℚ) ^ (binade x - 53) := by
  have two_pos : (0 : ℚ) < 2 := by norm_num
  have hu : (0 : ℚ) < (2 : ℚ) ^ (binade x - 52) := zpow_pos two_pos _
  have h := abs_roundHalfEven_sub_le (x / (2 : ℚ) ^ (binade x - 52))
  have e1 : nearest53 x - x =
      ((roundHalfEven (x / (2 : ℚ) ^ (binade x - 52)) : ℚ) - x / (2 : ℚ) ^ (binade x - 52)) *
        (2 : ℚ) ^ (binade x - 52) := by
    unfold nearest53
    field_simp
  have e2 : (2 : ℚ) ^ (binade x - 53) = 1 / 2 * (2 : ℚ) ^ (binade x - 52) := by
    have : binade x - 53 = (binade x - 52) - 1 := by ring
    rw [this, zpow_sub₀ (by norm_num : (2 : ℚ) ≠ 0), zpow_one]
    ring
  rw [e1, e2, abs_mul, abs_of_pos hu]
  exact mul_le_mul_of_nonneg_right h hu.le

theorem nearest53_rel_error (x : ℚ) (hx : 0 < x) :
    |nearest53 x - x| ≤ x * (2 : ℚ) ^ (-53 : ℤ) := by
  refine le_trans (nearest53_error x) ?_
  have : binade x - 53 = binade x + (-53) := by ring
  rw [this, zpow_add₀ (by norm_num : (2 : ℚ) ≠ 0)]
  exact mul_le_mul_of_nonneg_right (binade_spec x hx).1 (zpow_pos (by norm_num) _).le

/-- A multiple of a power of two that is on the grid of `x` bounds the rounded
value as it bounds `x`. -/
theorem grid_split (x : ℚ) (k j : ℤ) (hj : binade x - 52 ≤ j) :
    (k : ℚ) * (2 : ℚ) ^ j =
      ((k * 2 ^ (j - (binade x - 52)).toNat : ℤ) : ℚ) * (2 : ℚ) ^ (binade x - 52) := by
  have hd : 0 ≤ j - (binade x - 52) := by omega
  have e : j = ((j - (binade x - 52)).toNat : ℤ) + (binade x - 52) := by
    rw [Int.toNat_of_nonneg hd]; ring
  conv_lhs => rw [e, zpow_add₀ (by norm_num : (2 : ℚ) ≠ 0), zpow_natCast]
  push_cast
  ring

theorem nearest53_le_grid (x : ℚ) (k j : ℤ) (hj : binade x - 52 ≤ j)
    (h : x ≤ (k : ℚ) * (2 : ℚ) ^ j) : nearest53 x ≤ (k : ℚ) * (2 : ℚ) ^ j := by
  have hu : (0 : ℚ) < (2 : ℚ) ^ (binade x - 52) := zpow_pos (by norm_num) _
  rw [grid_split x k j hj] at h ⊢
  unfold nearest53
  apply mul_le_mul_of_nonneg_right _ hu.le
  have : x / (2 : ℚ) ^ (binade x - 52) ≤ ((k * 2 ^ (j - (binade x - 52)).toNat : ℤ) : ℚ) :=
    (div_le_iff₀ hu).mpr h
  exact_mod_cast roundHalfEven_le _ _ this

theorem grid_le_nearest53 (x : ℚ) (k j : ℤ) (hj : binade x - 52 ≤ j)
    (h : (k : ℚ) * (2 : ℚ) ^ j ≤ x) : (k : ℚ) * (2 : ℚ) ^ j ≤ nearest53 x := by
  have hu : (0 : ℚ) < (2 : ℚ) ^ (binade x - 52) := zpow_pos (by norm_num) _
  rw [grid_split x k j hj] at h ⊢
  unfold nearest53
  apply mul_le_mul_of_nonneg_right _ hu.le
  have : ((k * 2 ^ (j - (binade x - 52)).toNat : ℤ) : ℚ) ≤ x / (2 : ℚ) ^ (binade x - 52) :=
    (le_div_iff₀ hu).mpr h
  exact_mod_cast le_roundHalfEven _ _ this

theorem binade_lt_of_lt (x : ℚ) (hx : 0 < x) (n : ℤ) (h : x < (2 : ℚ) ^ n) : binade x < n := by
  have := lt_of_le_of_lt (binade_spec x hx).1 h
  exact (zpow_lt_zpow_iff_right₀ (by norm_num : (1 : ℚ) < 2)).mp this

theorem toDouble_of_pos (x : ℚ) (hx : 0 < x) : toDouble x = nearest53 x := by
  unfold toDouble
  rw [if_neg hx.ne', if_pos hx]

theorem toDouble_nonneg (x : ℚ) (hx : 0 ≤ x) : 0 ≤ toDouble x := by
  rcases hx.eq_or_lt with h | h
  · rw [← h]; simp [toDouble]
  · rw [toDouble_of_pos x h]
    have := grid_le_nearest53 x 0 (binade x - 52) le_rfl (by simpa using h.le)
    simpa using this

/-- Rounding a non-negative number to double does not cross an integer up to
`2 ^ 53` from below. -/
theorem toDouble_le_int (x : ℚ) (hx0 : 0 ≤ x) (b : ℤ) (hb : (b : ℚ) ≤ (2 : ℚ) ^ (53 : ℤ))
    (h : x ≤ (b : ℚ)) : toDouble x ≤ (b : ℚ) := by
  rcases hx0.eq_or_lt with hx | hx
  · rw [← hx] at h ⊢
    simpa [toDouble] using h
  · rw [toDouble_of_pos x hx]
    have hlt : x < (2 : ℚ) ^ (54 : ℤ) := by
      have : (2 : ℚ) ^ (53 : ℤ) < (2 : ℚ) ^ (54 : ℤ) := by norm_num
      linarith
    have hbin := binade_lt_of_lt x hx 54 hlt
    by_cases hb53 : binade x ≤ 52
    · have := nearest53_le_grid x b 0 (by omega) (by simpa using h)
      simpa using this
    · have hb53 : binade x = 53 := by omega
      have h2 : x ≤ ((1 : ℤ) : ℚ) * (2 : ℚ) ^ (53 : ℤ) := by
        simp only [Int.cast_one, one_mul]; linarith
      have := nearest53_le_grid x 1 53 (by omega) h2
      have h3 : (2 : ℚ) ^ (53 : ℤ) ≤ x := by rw [← hb53]; exact (binade_spec x hx).1
      simp only [Int.cast_one, one_mul] at this
      linarith

/-- Rounding to double does not cross an integer between 0 and `2 ^ 53` from
above. -/
theorem int_le_toDouble (x : ℚ) (b : ℤ) (hb0 : 0 ≤ b) (hb : (b : ℚ) ≤ (2 : ℚ) ^ (53 : ℤ))
    (h : (b : ℚ) ≤ x) : (b : ℚ) ≤ toDouble x := by
  have hx0 : 0 ≤ x := le_trans (by exact_mod_cast hb0) h
  rcases hx0.eq_or_lt with hx | hx
  · rw [← hx] at h ⊢
    simpa [toDouble] using h
  · rw [toDouble_of_pos x hx]
    by_cases hb53 : binade x ≤ 52
    · have := grid_le_nearest53 x b 0 (by omega) (by simpa using h)
      simpa using this
    · have hb53 : (53 : ℤ) ≤ binade x := by omega
      have h2 : ((1 : ℤ) : ℚ) * (2 : ℚ) ^ (binade x) ≤ x := by
        simp only [Int.cast_one, one_mul]; exact (binade_spec x hx).1
      have := grid_le_nearest53 x 1 (binade x) (by omega) h2
      simp only [Int.cast_one, one_mul] at this
      have h3 : (2 : ℚ) ^ (53 : ℤ) ≤ (2 : ℚ) ^ (binade x) :=
        zpow_le_zpow_right₀ (by norm_num) hb53
      linarith

/-- An integer between 0 and `2 ^ 53` is a double. -/
theorem toDouble_int (b : ℤ) (hb0 : 0 ≤ b) (hb : (b : ℚ) ≤ (2 : ℚ) ^ (53 : ℤ)) :
    toDouble (b : ℚ) = (b : ℚ) :=
  le_antisymm (toDouble_le_int _ (by exact_mod_cast hb0) b hb le_rfl)
    (int_le_toDouble _ b hb0 hb le_rfl)

theorem toDouble_rel_error (x : ℚ) (hx : 0 ≤ x) :
    |toDouble x - x| ≤ x * (2 : ℚ) ^ (-53 : ℤ) := by
  rcases hx.eq_or_lt with h | h
  · rw [← h]; simp [toDouble]
  · rw [toDouble_of_pos x h]
    exact nearest53_rel_error x h

/-! ### The percentage -/

theorem percentage_self (t : ℕ) (ht : 0 < t) : percentage t t = 100 := by
  unfold percentage Number.div Number.mul
  have ht0 : (t : ℚ) ≠ 0 := by exact_mod_cast ht.ne'
  rw [div_self ht0]
  have h1 : toDouble 1 = 1 := by
    have := toDouble_int 1 (by norm_num) (by norm_num)
    simpa using this
  have h100 : toDouble 100 = 100 := by
    have := toDouble_int 100 (by norm_num) (by norm_num)
    simpa using this
  rw [h1, one_mul, h100]
  unfold Math.round
  norm_num

theorem percentage_nonneg (c t : ℕ) : 0 ≤ percentage c t := by
  unfold percentage Number.div Number.mul Math.round
  have h1 : (0 : ℚ) ≤ toDouble ((c : ℚ) / (t : ℚ)) := toDouble_nonneg _ (by positivity)
  have h2 : (0 : ℚ) ≤ toDouble (toDouble ((c : ℚ) / (t : ℚ)) * 100) :=
    toDouble_nonneg _ (by positivity)
  exact Int.floor_nonneg.mpr (by linarith)

theorem percentage_le_hundred (c t : ℕ) (h : c ≤ t) (ht : 0 < t) : percentage c t ≤ 100 := by
  unfold percentage Number.div Number.mul Math.round
  have htq : (0 : ℚ) < (t : ℚ) := by exact_mod_cast ht
  have hq : (c : ℚ) / (t : ℚ) ≤ ((1 : ℤ) : ℚ) := by
    rw [Int.cast_one, div_le_one htq]
    exact_mod_cast h
  have h0 : (0 : ℚ) ≤ (c : ℚ) / (t : ℚ) := by positivity
  have h1 : toDouble ((c : ℚ) / (t : ℚ)) ≤ 1 := by
    have := toDouble_le_int _ h0 1 (by norm_num) hq
    simpa using this
  have h1n : (0 : ℚ) ≤ toDouble ((c : ℚ) / (t : ℚ)) := toDouble_nonneg _ h0
  have h2 : toDouble (toDouble ((c : ℚ) / (t : ℚ)) * 100) ≤ 100 := by
    have := toDouble_le_int (toDouble ((c : ℚ) / (t : ℚ)) * 100) (by positivity) 100
      (by norm_num) (by push_cast; linarith)
    simpa using this
  have : ⌊toDouble (toDouble ((c : ℚ) / (t : ℚ)) * 100) + 1 / 2⌋ < 101 := by
    rw [Int.floor_lt]
    push_cast
    linarith
  omega

/-- The two roundings to double move `(c / t) * 100` by less than `300 * 2 ^ (-53)`
times `c / t`. -/
theorem percentage_argument_error (c t : ℕ) :
    |Number.mul (Number.div c t) 100 - 100 * ((c : ℚ) / (t : ℚ))| ≤
      300 * ((c : ℚ) / (t : ℚ)) * (2 : ℚ) ^ (-53 : ℤ) := by
  unfold Number.div Number.mul
  have hq0 : (0 : ℚ) ≤ (c : ℚ) / (t : ℚ) := by positivity
  have e1 := toDouble_rel_error _ hq0
  have hx1 : (0 : ℚ) ≤ toDouble ((c : ℚ) / (t : ℚ)) := toDouble_nonneg _ hq0
  have e2 := toDouble_rel_error (toDouble ((c : ℚ) / (t : ℚ)) * 100) (by positivity)
  have heps : (2 : ℚ) ^ (-53 : ℤ) = 1 / 9007199254740992 := by norm_num
  rw [heps] at e1 e2 ⊢
  rw [abs_le] at e1 e2 ⊢
  constructor <;> linarith [e1.1, e1.2, e2.1, e2.2]

/-- Away from an exact half, the percentage in double arithmetic is the exact
rounded percentage. -/
theorem percentage_eq_round (c t : ℕ) (ht : 0 < t) (hc : c ≤ 2 ^ 40)
    (htie : (200 * c + t) % (2 * t) ≠ 0) :
    percentage c t = Math.round (100 * (c : ℚ) / (t : ℚ)) := by
  have htq : (0 : ℚ) < (t : ℚ) := by exact_mod_cast ht
  have herr := percentage_argument_error c t
  have heps : (2 : ℚ) ^ (-53 : ℤ) = 1 / 9007199254740992 := by norm_num
  rw [heps, abs_le] at herr
  -- the exact value and its floor
  have hk1 : ((Math.round (100 * (c : ℚ) / (t : ℚ)) : ℤ) : ℚ) ≤ 100 * (c : ℚ) / (t : ℚ) + 1 / 2 :=
    Int.floor_le _
  have hk2 : 100 * (c : ℚ) / (t : ℚ) + 1 / 2 <
      ((Math.round (100 * (c : ℚ) / (t : ℚ)) : ℤ) : ℚ) + 1 := Int.lt_floor_add_one _
  generalize Math.round (100 * (c : ℚ) / (t : ℚ)) = k at hk1 hk2 ⊢
  have hz : 100 * (c : ℚ) / (t : ℚ) + 1 / 2 = ((200 * c + t : ℕ) : ℚ) / ((2 * t : ℕ) : ℚ) := by
    push_cast
    field_simp
    ring
  have hM : (0 : ℚ) < ((2 * t : ℕ) : ℚ) := by push_cast; linarith
  rw [hz] at hk1 hk2
  rw [le_div_iff₀ hM] at hk1
  rw [div_lt_iff₀ hM] at hk2
  have i1 : k * ((2 * t : ℕ) : ℤ) ≤ ((200 * c + t : ℕ) : ℤ) := by exact_mod_cast hk1
  have i2 : ((200 * c + t : ℕ) : ℤ) < (k + 1) * ((2 * t : ℕ) : ℤ) := by exact_mod_cast hk2
  have hne : k * ((2 * t : ℕ) : ℤ) ≠ ((200 * c + t : ℕ) : ℤ) := by
    intro h
    apply htie
    have hdvd : ((2 * t : ℕ) : ℤ) ∣ ((200 * c + t : ℕ) : ℤ) := ⟨k, by rw [← h]; ring⟩
    exact Nat.mod_eq_zero_of_dvd (Int.natCast_dvd_natCast.mp hdvd)
  have i1s : k * ((2 * t : ℕ) : ℤ) + 1 ≤ ((200 * c + t : ℕ) : ℤ) := by omega
  have i2s : ((200 * c + t : ℕ) : ℤ) + 1 ≤ (k + 1) * ((2 * t : ℕ) : ℤ) := by omega
  have q1 : (k : ℚ) * (2 * (t : ℚ)) + 1 ≤ 200 * (c : ℚ) + (t : ℚ) := by exact_mod_cast i1s
  have q2 : 200 * (c : ℚ) + (t : ℚ) + 1 ≤ ((k : ℚ) + 1) * (2 * (t : ℚ)) := by
    exact_mod_cast i2s
  -- in terms of w = 1 / t
  have hw : (0 : ℚ) < 1 / (t : ℚ) := by positivity
  have hcq : (c : ℚ) ≤ 1099511627776 := by exact_mod_cast hc
  have hqw : (c : ℚ) / (t : ℚ) ≤ 1099511627776 * (1 / (t : ℚ)) := by
    rw [div_eq_mul_one_div]
    exact mul_le_mul_of_nonneg_right hcq hw.le
  have e2 : 100 * ((c : ℚ) / (t : ℚ)) + 1 / 2 = (200 * (c : ℚ) + (t : ℚ)) / (2 * (t : ℚ)) := by
    field_simp
    ring
  have r1 : (k : ℚ) + 1 / (t : ℚ) / 2 ≤ 100 * ((c : ℚ) / (t : ℚ)) + 1 / 2 := by
    have e : (k : ℚ) + 1 / (t : ℚ) / 2 = ((k : ℚ) * (2 * (t : ℚ)) + 1) / (2 * (t : ℚ)) := by
      field_simp
      ring
    rw [e, e2]
    exact div_le_div_of_nonneg_right q1 (by positivity)
  have r2 : 100 * ((c : ℚ) / (t : ℚ)) + 1 / 2 ≤ (k : ℚ) + 1 - 1 / (t : ℚ) / 2 := by
    have e : (k : ℚ) + 1 - 1 / (t : ℚ) / 2 =
        (((k : ℚ) + 1) * (2 * (t : ℚ)) - 1) / (2 * (t : ℚ)) := by
      field_simp
      ring
    rw [e, e2]
    exact div_le_div_of_nonneg_right (by linarith) (by positivity)
  unfold percentage Math.round
  rw [Int.floor_eq_iff]
  constructor <;> linarith [herr.1, herr.2]

/-! ### Uniqueness of the `(student, course)` key -/

theorem updateFirst_map_key {α β : Type} (key : α → β) (p : α → Bool) (y : α) :
    ∀ (l : List α) (x : α), l.find? p = some x → key y = key x →
      (updateFirst p (fun _ => y) l).map key = l.map key := by
  intro l
  induction l with
  | nil => intro x h; simp at h
  | cons a t ih =>
    intro x h hk
    by_cases hp : p a = true
    · simp [List.find?, hp] at h
      subst h
      simp [updateFirst, hp, hk]
    · have hp2 : p a = false := by simpa using hp
      simp [List.find?, hp2] at h
      simp [updateFirst, hp2, ih x h hk]

theorem save_pairs (s : Store) (x e : Enrollment)
    (hx : Enrollment.findById s e.id = some x)
    (hs : e.student = x.student) (hc : e.course = x.course) :
    (Enrollment.save s e).pairs = s.pairs := by
  unfold Enrollment.findById at hx
  unfold Enrollment.save Store.pairs
  simp only
  exact updateFirst_map_key (fun e => (e.student, e.course)) _ e s.enrollments x hx
    (by simp [hs, hc])

theorem insert_pairs_nodup (s s1 : Store) (e : Enrollment)
    (h : Enrollment.insert s e = some s1) (hu : s.pairs.Nodup) : s1.pairs.Nodup := by
  unfold Enrollment.insert at h
  split at h
  · simp at h
  · rename_i hany
    simp only [Option.some.injEq] at h
    subst h
    simp only [Store.pairs, List.map_append, List.map_cons, List.map_nil]
    rw [List.nodup_append]
    refine ⟨hu, List.nodup_singleton _, ?_⟩
    simp only [List.any_eq_true, not_exists, not_and] at hany
    intro a ha hb
    simp only [List.mem_singleton] at hb
    subst hb
    simp only [List.mem_map] at ha
    obtain ⟨x, hx, hxe⟩ := ha
    have := hany x hx
    simp only [Prod.mk.injEq] at hxe
    simp [hxe.1, hxe.2] at this

theorem pushBoth_enrollments (b : Bool) (s s2 : Store) (u c : ObjectId) (now : Date)
    (h : Enrollments.pushBoth b s u c now = some s2) : s2.enrollments = s.enrollments := by
  unfold Enrollments.pushBoth at h
  split at h
  · simp only [Option.some.injEq] at h
    subst h
    rfl
  · simp at h

theorem post_pairs_nodup (s : Store) (user : AuthUser) (body : Enrollments.EnrollBody)
    (now : Date) (hu : s.pairs.Nodup) : (Enrollments.post s user body now).store.pairs.Nodup := by
  unfold Enrollments.post
  split
  · split
    · exact hu
    · split
      · exact hu
      · split
        · exact hu
        · split
          · exact hu
          · simp only
            split
            · exact hu
            · rename_i s1 hins
              have h1 := insert_pairs_nodup s s1 _ hins hu
              split
              · exact h1
              · rename_i s2 hp
                have := pushBoth_enrollments _ _ _ _ _ _ hp
                simpa [Store.pairs, this] using h1
  · exact hu

theorem confirm_pairs_nodup (stripe : Stripe) (s : Store) (user : AuthUser)
    (body : Payments.ConfirmBody) (now : Date) (hu : s.pairs.Nodup) :
    (Payments.confirm stripe s user body now).store.pairs.Nodup := by
  unfold Payments.confirm
  split
  · exact hu
  · split
    · exact hu
    · simp only
      split
      · exact hu
      · split
        · exact hu
        · split
          · exact hu
          · split
            · exact hu
            · split
              · exact hu
              · rename_i s1 hins
                have h1 := insert_pairs_nodup s s1 _ hins hu
                split
                · exact h1
                · rename_i s2 hp
                  have := pushBoth_enrollments _ _ _ _ _ _ hp
                  simpa [Store.pairs, this] using h1

theorem recalculateProgress_student (e : Enrollment) (c : Option Course) (now : Date) :
    (Enrollments.recalculateProgress e c now).id = e.id ∧
    (Enrollments.recalculateProgress e c now).student = e.student ∧
    (Enrollments.recalculateProgress e c now).course = e.course := by
  unfold Enrollments.recalculateProgress
  cases c with
  | none => simp
  | some course =>
    simp only
    split <;> split <;> simp

theorem applyProgress_some (e e1 : Enrollment) (c : Option Course) (m : RawId) (b : Bool)
    (q : Option ℚ) (now : Date) (h : Enrollments.applyProgress e c m b q now = some e1) :
    ∃ l, Enrollments.updateCompletedModules e.progress.completedModules m b q now = some l ∧
      e1 = Enrollments.recalculateProgress
        { e with progress := { e.progress with completedModules := l, lastAccessed := now } }
        c now := by
  unfold Enrollments.applyProgress at h
  split at h
  · simp at h
  · rename_i l hl
    simp only [Option.some.injEq] at h
    exact ⟨l, hl, h.symm⟩

theorem applyProgress_of_some (e : Enrollment) (c : Option Course) (m : RawId) (b : Bool)
    (q : Option ℚ) (now : Date) (l : List CompletedModule)
    (h : Enrollments.updateCompletedModules e.progress.completedModules m b q now = some l) :
    Enrollments.applyProgress e c m b q now = some (Enrollments.recalculateProgress
        { e with progress := { e.progress with completedModules := l, lastAccessed := now } }
        c now) := by
  unfold Enrollments.applyProgress
  rw [h]

theorem applyProgress_student (e e1 : Enrollment) (c : Option Course) (m : RawId) (b : Bool)
    (q : Option ℚ) (now : Date) (h : Enrollments.applyProgress e c m b q now = some e1) :
    e1.id = e.id ∧ e1.student = e.student ∧ e1.course = e.course := by
  obtain ⟨l, _, rfl⟩ := applyProgress_some e e1 c m b q now h
  exact recalculateProgress_student _ c now

theorem findById_id (s : Store) (id : ObjectId) (e : Enrollment)
    (h : Enrollment.findById s id = some e) : e.id = id := by
  unfold Enrollment.findById at h
  have := List.find?_some h
  simpa using this

theorem putProgress_pairs (s : Store) (user : AuthUser) (id : ObjectId)
    (body : Enrollments.ProgressBody) (now : Date) :
    (Enrollments.putProgress s user id body now).store.pairs = s.pairs := by
  unfold Enrollments.putProgress
  split
  · split
    · rfl
    · rename_i e he
      split
      · rfl
      · split
        · rfl
        · rename_i e1 hap
          simp only
          obtain ⟨h1, h2, h3⟩ := applyProgress_student e e1 _ _ _ _ now hap
          apply save_pairs s e _ _ h2 h3
          rw [h1, findById_id s id e he]
          exact he
  · rfl

theorem delete_pairs (s : Store) (user : AuthUser) (id : ObjectId) :
    (Enrollments.delete s user id).store.pairs = s.pairs := by
  unfold Enrollments.delete
  split
  · rfl
  · rename_i e he
    split
    · rfl
    · simp only
      refine save_pairs s e { e with status := EnrollmentStatus.dropped } ?_ rfl rfl
      simp only
      rw [findById_id s id e he]
      exact he

theorem refund_pairs (stripe : Stripe) (s : Store) (user : AuthUser)
    (body : Payments.RefundBody) :
    (Payments.refund stripe s user body).store.pairs = s.pairs := by
  unfold Payments.refund
  split
  · rfl
  · split
    · rfl
    · split
      · rfl
      · rename_i e he
        split
        · rfl
        · split
          · rfl
          · split
            · rfl
            · simp only
              split
              · rfl
              · simp only
                refine save_pairs s e { e with
                  payment := { e.payment with paymentStatus := PaymentStatus.refunded }
                  status := EnrollmentStatus.dropped } ?_ rfl rfl
                simp only
                rw [findById_id _ _ e he]
                exact he

theorem run_pairs_nodup (s : Store) (op : Op) (hu : s.pairs.Nodup) :
    (op.run s).store.pairs.Nodup := by
  cases op with
  | requestEnrollment user body now => exact post_pairs_nodup s user body now hu
  | confirmEnrollment stripe user body now => exact confirm_pairs_nodup stripe s user body now hu
  | updateModuleProgress user id body now =>
    simp only [Op.run]; rw [putProgress_pairs]; exact hu
  | dropEnrollment user id => simp only [Op.run]; rw [delete_pairs]; exact hu
  | refundEnrollment stripe user body => simp only [Op.run]; rw [refund_pairs]; exact hu

theorem runOps_pairs_nodup (ops : List Op) :
    ∀ s : Store, s.pairs.Nodup → (runOps s ops).pairs.Nodup := by
  induction ops with
  | nil => intro s h; exact h
  | cons op t ih =>
    intro s h
    simp only [runOps, List.foldl_cons]
    exact ih _ (run_pairs_nodup s op h)

theorem filter_key_length_le_one {α β : Type} [DecidableEq β] (key : α → β) (k : β) :
    ∀ l : List α, (l.map key).Nodup → (l.filter (fun e => key e = k)).length ≤ 1 := by
  intro l
  induction l with
  | nil => intro _; simp
  | cons a t ih =>
    intro h
    rw [List.map_cons, List.nodup_cons] at h
    by_cases hk : key a = k
    · have hnil : t.filter (fun e => key e = k) = [] := by
        rw [List.filter_eq_nil_iff]
        intro x hx hxk
        simp only [decide_eq_true_eq] at hxk
        exact h.1 (List.mem_map.mpr ⟨x, hx, by rw [hxk, hk]⟩)
      simp [List.filter_cons, hk, hnil]
    · simpa [List.filter_cons, hk] using ih h.2

theorem live_le_one_of_nodup (s : Store) (hu : s.pairs.Nodup) (student course : ObjectId) :
    (liveEnrollments s student course).length ≤ 1 := by
  have h1 : (liveEnrollments s student course).length ≤
      (enrollmentsFor s student course).length := by
    unfold liveEnrollments enrollmentsFor
    rw [← List.countP_eq_length_filter, ← List.countP_eq_length_filter]
    apply List.countP_mono_left
    intro x _ hx
    simp only [decide_eq_true_eq] at hx ⊢
    exact ⟨hx.1, hx.2.1⟩
  have h2 : (enrollmentsFor s student course).length ≤ 1 := by
    have := filter_key_length_le_one (fun e : Enrollment => (e.student, e.course))
      (student, course) s.enrollments hu
    unfold enrollmentsFor
    simpa [Prod.ext_iff] using this
  exact le_trans h1 h2

/-! ### Reading back a saved document -/

theorem find_updateFirst_self {α : Type} (p : α → Bool) (y : α) (hy : p y = true) :
    ∀ (l : List α) (x : α), l.find? p = some x →
      (updateFirst p (fun _ => y) l).find? p = some y := by
  intro l
  induction l with
  | nil => intro x h; simp at h
  | cons a t ih =>
    intro x h
    by_cases hp : p a = true
    · simp [updateFirst, hp, List.find?, hy]
    · have hp2 : p a = false := by simpa using hp
      simp only [List.find?, hp2] at h
      simp [updateFirst, hp2, List.find?, ih x h]

theorem findById_save (s : Store) (x e : Enrollment)
    (hx : Enrollment.findById s e.id = some x) :
    Enrollment.findById (Enrollment.save s e) e.id = some e := by
  unfold Enrollment.findById at hx ⊢
  unfold Enrollment.save
  simp only
  exact find_updateFirst_self (fun x => decide (x.id = e.id)) e (by simp) s.enrollments x hx

theorem recalculateProgress_completedModules (e : Enrollment) (c : Option Course)
    (now : Date) :
    (Enrollments.recalculateProgress e c now).progress.completedModules =
      e.progress.completedModules := by
  unfold Enrollments.recalculateProgress
  cases c with
  | none => simp
  | some course =>
    simp only
    split <;> split <;> simp

theorem applyProgress_completedModules (e e1 : Enrollment) (c : Option Course) (m : RawId)
    (b : Bool) (q : Option ℚ) (now : Date)
    (h : Enrollments.applyProgress e c m b q now = some e1) :
    Enrollments.updateCompletedModules e.progress.completedModules m b q now =
      some e1.progress.completedModules := by
  obtain ⟨l, hl, rfl⟩ := applyProgress_some e e1 c m b q now h
  rw [recalculateProgress_completedModules]
  exact hl

theorem recalculateProgress_overallProgress (e : Enrollment) (course : Course) (now : Date)
    (hm : 0 < course.modules.length) :
    (Enrollments.recalculateProgress e (some course) now).progress.overallProgress =
      percentage e.progress.completedModules.length course.modules.length := by
  unfold Enrollments.recalculateProgress percentage
  simp only [gt_iff_lt, hm, if_true]
  split <;> simp

theorem applyProgress_overallProgress (e e1 : Enrollment) (course : Course) (m : RawId)
    (b : Bool) (q : Option ℚ) (now : Date) (hm : 0 < course.modules.length)
    (h : Enrollments.applyProgress e (some course) m b q now = some e1) :
    e1.progress.overallProgress =
      percentage e1.progress.completedModules.length course.modules.length := by
  obtain ⟨l, _, rfl⟩ := applyProgress_some e e1 (some course) m b q now h
  rw [recalculateProgress_overallProgress _ course now hm,
    recalculateProgress_completedModules]

theorem calculateProgress_overallProgress (e : Enrollment) (course : Course) (now : Date)
    (hm : 0 < course.modules.length) :
    (e.calculateProgress course now).progress.overallProgress =
      percentage e.progress.completedModules.length course.modules.length := by
  unfold Enrollment.calculateProgress percentage
  have h0 : ¬ course.modules.length = 0 := Nat.pos_iff_ne_zero.mp hm
  simp only [h0, if_false]
  split <;> simp

/-- When the completed identifiers are pairwise distinct and all belong to the
course, whose module identifiers are pairwise distinct too, the two set
cardinalities of the specification are the two list lengths of the code. -/
theorem specOverallProgress_of_subset (completed : List CompletedModule)
    (modules : List Module)
    (hnd : (completed.map (fun m => m.moduleId)).Nodup)
    (hsub : ∀ m ∈ completed, m.moduleId ∈ modules.map (fun x => x.id))
    (hmod : (modules.map (fun m => m.id)).Nodup) :
    specOverallProgress completed modules =
      Math.round (100 * ((completed.length : ℕ) : ℚ) / ((modules.length : ℕ) : ℚ)) := by
  unfold specOverallProgress
  have h1 : (completed.map (fun m => m.moduleId)).toFinset ∩
      (modules.map (fun m => m.id)).toFinset = (completed.map (fun m => m.moduleId)).toFinset := by
    apply Finset.inter_eq_left.mpr
    intro a ha
    simp only [List.mem_toFinset, List.mem_map] at ha ⊢
    obtain ⟨m, hm, rfl⟩ := ha
    simpa using hsub m hm
  rw [h1, List.toFinset_card_of_nodup hnd, List.toFinset_card_of_nodup hmod]
  simp only [List.length_map]

theorem find_updateFirst_other {α : Type} (p q : α → Bool) (y : α)
    (hq : ∀ x, q x = true → p x = false) (hy : p y = false) :
    ∀ l : List α, (updateFirst q (fun _ => y) l).find? p = l.find? p := by
  intro l
  induction l with
  | nil => rfl
  | cons a t ih =>
    by_cases hqa : q a = true
    · simp [updateFirst, hqa, List.find?, hy, hq a hqa]
    · have hqa2 : q a = false := by simpa using hqa
      simp only [updateFirst, hqa2, List.find?, ih]

theorem findById_save_other (s : Store) (e : Enrollment) (id : ObjectId) (h : e.id ≠ id) :
    Enrollment.findById (Enrollment.save s e) id = Enrollment.findById s id := by
  unfold Enrollment.findById Enrollment.save
  simp only
  apply find_updateFirst_other
  · intro x hx
    simp only [decide_eq_true_eq] at hx
    simp [hx, h]
  · simp [h]

/-- A progress request leaves a stored enrollment in place: either untouched or
replaced by the result of `applyProgress`. -/
theorem putProgress_findById (s : Store) (user : AuthUser) (j : ObjectId)
    (body : Enrollments.ProgressBody) (now : Date) (id : ObjectId) (e0 : Enrollment)
    (h0 : Enrollment.findById s id = some e0) :
    Enrollment.findById (Enrollments.putProgress s user j body now).store id = some e0 ∨
    ∃ c m b q e1, Enrollments.applyProgress e0 c m b q now = some e1 ∧
      Enrollment.findById (Enrollments.putProgress s user j body now).store id = some e1 := by
  unfold Enrollments.putProgress
  split
  · rename_i m b q _ _ _
    split
    · exact Or.inl h0
    · rename_i e he
      split
      · exact Or.inl h0
      · split
        · exact Or.inl h0
        · rename_i e1 hap
          simp only
          have hid := (applyProgress_student e e1 _ m b q now hap).1
          have hej := findById_id s j e he
          by_cases hji : j = id
          · subst hji
            have hee : e = e0 := by rw [he] at h0; exact Option.some.inj h0
            right
            refine ⟨Course.findById s e.course, m, b, q, e1, ?_, ?_⟩
            · rw [← hee]
              exact hap
            · have := findById_save s e e1 (by rw [hid, hej]; exact he)
              rw [hid, hej] at this
              exact this
          · left
            rw [findById_save_other _ _ _ (by rw [hid, hej]; exact hji)]
            exact h0
  · exact Or.inl h0

/-! ### Progress and certificates -/

theorem recalculateProgress_issued (e : Enrollment) (c : Option Course) (now : Date)
    (h : (Enrollments.recalculateProgress e c now).certificate.issued = true) :
    e.certificate.issued = true ∨
    ((Enrollments.recalculateProgress e c now).progress.overallProgress = 100 ∧
     (Enrollments.recalculateProgress e c now).status = EnrollmentStatus.completed) := by
  cases c with
  | none => left; simpa [Enrollments.recalculateProgress] using h
  | some course =>
    unfold Enrollments.recalculateProgress at h ⊢
    by_cases hm : course.modules.length > 0
    · simp only [hm, if_true] at h ⊢
      by_cases h100 : Math.round (Number.mul (Number.div
          (e.progress.completedModules.length : ℕ) (course.modules.length : ℕ)) 100) = 100
      · right
        simp only [h100, if_true]
        trivial
      · left
        simpa only [h100, if_false] using h
    · simp only [hm, if_false] at h ⊢
      by_cases h100 : e.progress.overallProgress = 100
      · right
        simp only [h100, if_true]
        trivial
      · left
        simpa only [h100, if_false] using h

theorem applyProgress_issued (e e1 : Enrollment) (c : Option Course) (m : RawId) (b : Bool)
    (q : Option ℚ) (now : Date) (hap : Enrollments.applyProgress e c m b q now = some e1)
    (h : e1.certificate.issued = true) :
    e.certificate.issued = true ∨
    (e1.progress.overallProgress = 100 ∧ e1.status = EnrollmentStatus.completed) := by
  obtain ⟨l, _, rfl⟩ := applyProgress_some e e1 c m b q now hap
  exact recalculateProgress_issued _ c now h

theorem runProgress_cons (s : Store) (c : ProgressCall) (t : List ProgressCall) :
    runProgress s (c :: t) =
      runProgress (Enrollments.putProgress s c.user c.id c.body c.now).store t := rfl

theorem issued_only_at_full_progress (calls : List ProgressCall) :
    ∀ (s : Store) (id : ObjectId) (e0 e : Enrollment),
      Enrollment.findById s id = some e0 → e0.certificate.issued = false →
      Enrollment.findById (runProgress s calls) id = some e → e.certificate.issued = true →
      ∃ k, 0 < k ∧ k ≤ calls.length ∧ ∃ ek,
        Enrollment.findById (runProgress s (calls.take k)) id = some ek ∧
        ek.progress.overallProgress = 100 ∧ ek.status = EnrollmentStatus.completed ∧
        ek.certificate.issued = true := by
  induction calls with
  | nil =>
    intro s id e0 e h0 hi he hiss
    simp only [runProgress, List.foldl_nil] at he
    rw [h0] at he
    cases he
    rw [hi] at hiss
    cases hiss
  | cons c t ih =>
    intro s id e0 e h0 hi he hiss
    rw [runProgress_cons] at he
    have step := putProgress_findById s c.user c.id c.body c.now id e0 h0
    have key : ∀ e1, Enrollment.findById
        (Enrollments.putProgress s c.user c.id c.body c.now).store id = some e1 →
        e1.certificate.issued = false →
        ∃ k, 0 < k ∧ k ≤ (c :: t).length ∧ ∃ ek,
          Enrollment.findById (runProgress s ((c :: t).take k)) id = some ek ∧
          ek.progress.overallProgress = 100 ∧ ek.status = EnrollmentStatus.completed ∧
          ek.certificate.issued = true := by
      intro e1 h1 hi1
      obtain ⟨k, hk0, hk1, ek, hek, hrest⟩ := ih _ id e1 e h1 hi1 he hiss
      refine ⟨k + 1, Nat.succ_pos k, by simpa using hk1, ek, ?_, hrest⟩
      rw [List.take_succ_cons, runProgress_cons]
      exact hek
    rcases step with h1 | ⟨cc, m, b, q, e1, hap, h1⟩
    · exact key e0 h1 hi
    · cases hiss1 : e1.certificate.issued with
      | false => exact key _ h1 hiss1
      | true =>
        rcases applyProgress_issued e0 e1 cc m b q c.now hap hiss1 with h | ⟨h100, hst⟩
        · rw [hi] at h; cases h
        · refine ⟨1, Nat.one_pos, by simp, _, ?_, h100, hst, hiss1⟩
          simp only [List.take_succ_cons, List.take_zero, runProgress_cons]
          exact h1

theorem findById_save_at (s : Store) (id : ObjectId) (x e : Enrollment)
    (hx : Enrollment.findById s id = some x) (hid : e.id = id) :
    Enrollment.findById (Enrollment.save s e) id = some e := by
  subst hid
  exact findById_save s x e hx

/-! ### Creating an enrollment -/

theorem findOne_none_any (s : Store) (u c : ObjectId) (h : Enrollment.findOne s u c = none)
    (e : Enrollment) (hs : e.student = u) (hc : e.course = c) :
    s.enrollments.any (fun x => x.student = e.student ∧ x.course = e.course) = false := by
  unfold Enrollment.findOne at h
  rw [List.find?_eq_none] at h
  rw [hs, hc]
  cases hany : s.enrollments.any (fun x => x.student = u ∧ x.course = c) with
  | false => rfl
  | true =>
    rw [List.any_eq_true] at hany
    obtain ⟨x, hx, hp⟩ := hany
    exact absurd hp (h x hx)

theorem findOne_none_enrollmentsFor (s : Store) (u c : ObjectId)
    (h : Enrollment.findOne s u c = none) : enrollmentsFor s u c = [] := by
  unfold Enrollment.findOne at h
  rw [List.find?_eq_none] at h
  unfold enrollmentsFor
  rw [List.filter_eq_nil_iff]
  exact h

/-- The enrollment document that `Payments.confirm` builds from the intent. -/
theorem confirm_creates (stripe : Stripe) (s : Store) (user : AuthUser)
    (body : Payments.ConfirmBody) (now : Date) (pi : PaymentIntent) (c : ObjectId)
    (course : Course)
    (hid : body.paymentIntentId ≠ "") (hc : body.courseId = some c)
    (hr : stripe.paymentIntentsRetrieve body.paymentIntentId = some pi)
    (hs : pi.status = "succeeded")
    (hcourse : Course.findById s c = some course)
    (hn : Enrollment.findOne s user.id c = none) :
    Payments.confirm stripe s user body now =
      ⟨serverError,
       { s with
           enrollments := s.enrollments ++ [confirmedEnrollment s user c pi now]
           nextId := s.nextId + 1 },
       [StripeCall.paymentIntentsRetrieve body.paymentIntentId]⟩ := by
  have hany := findOne_none_any s user.id c hn (confirmedEnrollment s user c pi now) rfl rfl
  unfold confirmedEnrollment at hany
  unfold Payments.confirm
  simp only [hc, hid, if_false, hr, hs, ne_eq, not_true_eq_false, hcourse, hn]
  simp only [Enrollment.insert, hany, Bool.false_eq_true, if_false, Enrollments.pushBoth,
    Payments.userBound, confirmedEnrollment]

theorem find_append_of_none {α : Type} (p : α → Bool) (l : List α) (y : α)
    (h : l.find? p = none) (hy : p y = true) : (l ++ [y]).find? p = some y := by
  rw [List.find?_append, h]
  simp [List.find?, hy]

/-- Without a stored enrollment for the pair, whatever `Payments.confirm` answers,
the stored enrollments are the old ones, followed by the confirmed one when the
request gets as far as `save()`. -/
theorem confirm_enrollments (stripe : Stripe) (s : Store) (user : AuthUser)
    (body : Payments.ConfirmBody) (now : Date) (pi : PaymentIntent) (c : ObjectId)
    (hc : body.courseId = some c)
    (hr : stripe.paymentIntentsRetrieve body.paymentIntentId = some pi)
    (hs : pi.status = "succeeded")
    (hn : Enrollment.findOne s user.id c = none) :
    (Payments.confirm stripe s user body now).store.enrollments = s.enrollments ∨
    (Payments.confirm stripe s user body now).store.enrollments =
      s.enrollments ++ [confirmedEnrollment s user c pi now] := by
  by_cases hid : body.paymentIntentId = ""
  · left
    unfold Payments.confirm
    simp only [hc, hid, if_true]
  · cases hcourse : Course.findById s c with
    | none =>
      left
      unfold Payments.confirm
      simp only [hc, hid, if_false, hr, hs, ne_eq, not_true_eq_false, hcourse]
    | some course =>
      right
      rw [confirm_creates stripe s user body now pi c course hid hc hr hs hcourse hn]

/-! ### Accepted progress requests -/

theorem courseFindById_save (s : Store) (e : Enrollment) (c : ObjectId) :
    Course.findById (Enrollment.save s e) c = Course.findById s c := rfl

/-- A well-formed progress request of the student of the enrollment, when the
document it leaves is valid, stores the result of `applyProgress` and answers
200. -/
theorem putProgress_accepted (s : Store) (user : AuthUser) (id : ObjectId) (m : RawId)
    (b : Bool) (q : Option ℚ) (now : Date) (e e1 : Enrollment)
    (he : Enrollment.findById s id = some e) (hu : e.student = user.id)
    (hap : Enrollments.applyProgress e (Course.findById s e.course) m b q now = some e1) :
    Enrollments.putProgress s user id ⟨some m, some b, some q⟩ now =
      ⟨⟨200, Body.withEnrollment "Progress updated successfully" (some e1)⟩,
        Enrollment.save s e1, []⟩ ∧
    Enrollment.findById (Enrollments.putProgress s user id ⟨some m, some b, some q⟩ now).store id =
      some e1 := by
  have h1 : Enrollments.putProgress s user id ⟨some m, some b, some q⟩ now =
      ⟨⟨200, Body.withEnrollment "Progress updated successfully" (some e1)⟩,
        Enrollment.save s e1, []⟩ := by
    unfold Enrollments.putProgress
    simp only [he, hu, ne_eq, not_true_eq_false, if_false, hap]
  refine ⟨h1, ?_⟩
  rw [h1]
  exact findById_save_at s id e _ he
    ((applyProgress_student e e1 _ m b q now hap).1.trans (findById_id s id e he))

/-- A well-formed progress request of the student of the enrollment that leaves
an invalid document is answered 500 and stores nothing. -/
theorem putProgress_invalid (s : Store) (user : AuthUser) (id : ObjectId) (m : RawId)
    (b : Bool) (q : Option ℚ) (now : Date) (e : Enrollment)
    (he : Enrollment.findById s id = some e) (hu : e.student = user.id)
    (hap : Enrollments.applyProgress e (Course.findById s e.course) m b q now = none) :
    Enrollments.putProgress s user id ⟨some m, some b, some q⟩ now = ⟨serverError, s, []⟩ := by
  unfold Enrollments.putProgress
  simp only [he, hu, ne_eq, not_true_eq_false, if_false, hap]

/-- The progress percentage is left as it was when the course is missing or
has no module. -/
theorem recalculateProgress_overallProgress_kept (e : Enrollment) (c : Option Course)
    (now : Date) (hc : ∀ course, c = some course → course.modules.length = 0) :
    (Enrollments.recalculateProgress e c now).progress.overallProgress =
      e.progress.overallProgress := by
  unfold Enrollments.recalculateProgress
  cases c with
  | none => rfl
  | some course =>
    have h0 := hc course rfl
    simp only [h0, gt_iff_lt, lt_self_iff_false, if_false]
    split <;> rfl

theorem applyProgress_overallProgress_kept (e e1 : Enrollment) (c : Option Course) (m : RawId)
    (b : Bool) (q : Option ℚ) (now : Date)
    (hc : ∀ course, c = some course → course.modules.length = 0)
    (hap : Enrollments.applyProgress e c m b q now = some e1) :
    e1.progress.overallProgress = e.progress.overallProgress := by
  obtain ⟨l, _, rfl⟩ := applyProgress_some e e1 c m b q now hap
  exact recalculateProgress_overallProgress_kept _ c now hc

/-! ### The certificate is never withdrawn -/

theorem recalculateProgress_issued_kept (e : Enrollment) (c : Option Course) (now : Date)
    (h : e.certificate.issued = true) :
    (Enrollments.recalculateProgress e c now).certificate.issued = true := by
  unfold Enrollments.recalculateProgress
  cases c with
  | none => exact h
  | some course =>
    simp only
    split <;> split <;> first | rfl | exact h

theorem applyProgress_issued_kept (e e1 : Enrollment) (c : Option Course) (m : RawId)
    (b : Bool) (q : Option ℚ) (now : Date) (h : e.certificate.issued = true)
    (hap : Enrollments.applyProgress e c m b q now = some e1) :
    e1.certificate.issued = true := by
  obtain ⟨l, _, rfl⟩ := applyProgress_some e e1 c m b q now hap
  exact recalculateProgress_issued_kept _ c now h

/-- Saving a document that was loaded by identifier, with its certificate still
issued if it was, keeps every issued certificate issued. -/
theorem findById_save_issued (s : Store) (j id : ObjectId) (x d e : Enrollment)
    (hx : Enrollment.findById s j = some x) (hid : d.id = x.id)
    (hd : x.certificate.issued = true → d.certificate.issued = true)
    (he : Enrollment.findById s id = some e) (hi : e.certificate.issued = true) :
    ∃ e1, Enrollment.findById (Enrollment.save s d) id = some e1 ∧
      e1.certificate.issued = true := by
  have hxj := findById_id s j x hx
  by_cases hji : j = id
  · subst hji
    have hxe : x = e := by rw [hx] at he; exact Option.some.inj he
    refine ⟨d, findById_save_at s j x d hx (hid.trans hxj), hd (hxe ▸ hi)⟩
  · refine ⟨e, ?_, hi⟩
    rw [findById_save_other s d id (by rw [hid, hxj]; exact hji)]
    exact he

theorem findById_of_append (s s1 : Store) (x : Enrollment) (id : ObjectId) (e : Enrollment)
    (h1 : s1.enrollments = s.enrollments ++ [x]) (he : Enrollment.findById s id = some e) :
    Enrollment.findById s1 id = some e := by
  unfold Enrollment.findById at he ⊢
  rw [h1, List.find?_append, he]
  rfl

theorem insert_enrollments (s s1 : Store) (x : Enrollment)
    (h : Enrollment.insert s x = some s1) : s1.enrollments = s.enrollments ++ [x] := by
  unfold Enrollment.insert at h
  split at h
  · simp at h
  · simp only [Option.some.injEq] at h
    subst h
    rfl

theorem findById_congr (s s1 : Store) (id : ObjectId) (h : s1.enrollments = s.enrollments) :
    Enrollment.findById s1 id = Enrollment.findById s id := by
  unfold Enrollment.findById
  rw [h]

theorem post_findById (s : Store) (user : AuthUser) (body : Enrollments.EnrollBody)
    (now : Date) (id : ObjectId) (e : Enrollment) (he : Enrollment.findById s id = some e) :
    Enrollment.findById (Enrollments.post s user body now).store id = some e := by
  unfold Enrollments.post
  split
  · split
    · exact he
    · split
      · exact he
      · split
        · exact he
        · split
          · exact he
          · simp only
            split
            · exact he
            · rename_i s1 hins
              have h1 := findById_of_append s s1 _ id e (insert_enrollments s s1 _ hins) he
              split
              · exact h1
              · rename_i s2 hp
                simp only
                rw [findById_congr s1 s2 id (pushBoth_enrollments _ _ _ _ _ _ hp)]
                exact h1
  · exact he

theorem confirm_findById (stripe : Stripe) (s : Store) (user : AuthUser)
    (body : Payments.ConfirmBody) (now : Date) (id : ObjectId) (e : Enrollment)
    (he : Enrollment.findById s id = some e) :
    Enrollment.findById (Payments.confirm stripe s user body now).store id = some e := by
  unfold Payments.confirm
  split
  · exact he
  · split
    · exact he
    · simp only
      split
      · exact he
      · split
        · exact he
        · split
          · exact he
          · split
            · exact he
            · split
              · exact he
              · rename_i s1 hins
                have h1 := findById_of_append s s1 _ id e (insert_enrollments s s1 _ hins) he
                split
                · exact h1
                · rename_i s2 hp
                  simp only
                  rw [findById_congr s1 s2 id (pushBoth_enrollments _ _ _ _ _ _ hp)]
                  exact h1

theorem delete_issued (s : Store) (user : AuthUser) (j id : ObjectId) (e : Enrollment)
    (he : Enrollment.findById s id = some e) (hi : e.certificate.issued = true) :
    ∃ e1, Enrollment.findById (Enrollments.delete s user j).store id = some e1 ∧
      e1.certificate.issued = true := by
  unfold Enrollments.delete
  split
  · exact ⟨e, he, hi⟩
  · rename_i x hx
    split
    · exact ⟨e, he, hi⟩
    · exact findById_save_issued s j id x _ e hx rfl (fun h => h) he hi

theorem refund_issued (stripe : Stripe) (s : Store) (user : AuthUser)
    (body : Payments.RefundBody) (id : ObjectId) (e : Enrollment)
    (he : Enrollment.findById s id = some e) (hi : e.certificate.issued = true) :
    ∃ e1, Enrollment.findById (Payments.refund stripe s user body).store id = some e1 ∧
      e1.certificate.issued = true := by
  unfold Payments.refund
  split
  · exact ⟨e, he, hi⟩
  · split
    · exact ⟨e, he, hi⟩
    · split
      · exact ⟨e, he, hi⟩
      · rename_i x hx
        split
        · exact ⟨e, he, hi⟩
        · split
          · exact ⟨e, he, hi⟩
          · split
            · exact ⟨e, he, hi⟩
            · simp only
              split
              · exact ⟨e, he, hi⟩
              · exact findById_save_issued s _ id x _ e hx rfl (fun h => h) he hi

theorem putProgress_issued (s : Store) (user : AuthUser) (j : ObjectId)
    (body : Enrollments.ProgressBody) (now : Date) (id : ObjectId) (e : Enrollment)
    (he : Enrollment.findById s id = some e) (hi : e.certificate.issued = true) :
    ∃ e1, Enrollment.findById (Enrollments.putProgress s user j body now).store id = some e1 ∧
      e1.certificate.issued = true := by
  rcases putProgress_findById s user j body now id e he with h | ⟨c, m, b, q, e1, hap, h⟩
  · exact ⟨e, h, hi⟩
  · exact ⟨e1, h, applyProgress_issued_kept e e1 c m b q now hi hap⟩

theorem run_issued (s : Store) (op : Op) (id : ObjectId) (e : Enrollment)
    (he : Enrollment.findById s id = some e) (hi : e.certificate.issued = true) :
    ∃ e1, Enrollment.findById (op.run s).store id = some e1 ∧
      e1.certificate.issued = true := by
  cases op with
  | requestEnrollment user body now => exact ⟨e, post_findById s user body now id e he, hi⟩
  | confirmEnrollment stripe user body now =>
    exact ⟨e, confirm_findById stripe s user body now id e he, hi⟩
  | updateModuleProgress user j body now => exact putProgress_issued s user j body now id e he hi
  | dropEnrollment user j => exact delete_issued s user j id e he hi
  | refundEnrollment stripe user body => exact refund_issued stripe s user body id e he hi

theorem runOps_issued (ops : List Op) : ∀ (s : Store) (id : ObjectId) (e : Enrollment),
    Enrollment.findById s id = some e → e.certificate.issued = true →
    ∃ e1, Enrollment.findById (runOps s ops) id = some e1 ∧ e1.certificate.issued = true := by
  induction ops with
  | nil => intro s id e he hi; exact ⟨e, he, hi⟩
  | cons op t ih =>
    intro s id e he hi
    obtain ⟨e1, h1, hi1⟩ := run_issued s op id e he hi
    simp only [runOps, List.foldl_cons]
    exact ih _ id e1 h1 hi1

/-! ### Completion and empty courses -/

/-- A well-formed progress request of the student of the enrollment is answered
200 exactly when the document it leaves is valid. -/
theorem putProgress_ok (s : Store) (user : AuthUser) (id : ObjectId) (m : RawId)
    (b : Bool) (q : Option ℚ) (now : Date) (e : Enrollment)
    (he : Enrollment.findById s id = some e) (hu : e.student = user.id)
    (h200 : (Enrollments.putProgress s user id ⟨some m, some b, some q⟩ now).response.status
      = 200) :
    ∃ e1, Enrollments.applyProgress e (Course.findById s e.course) m b q now = some e1 := by
  cases hap : Enrollments.applyProgress e (Course.findById s e.course) m b q now with
  | some e1 => exact ⟨e1, rfl⟩
  | none =>
    rw [putProgress_invalid s user id m b q now e he hu hap] at h200
    exact absurd h200 (by decide : (500 : ℕ) ≠ 200)

/-- On a course without modules the route keeps whatever percentage was stored,
while `calculateProgress` stores 0. -/
theorem progress_on_empty_course (s : Store) (user : AuthUser) (id : ObjectId)
    (m : RawId) (b : Bool) (q : Option ℚ) (now : Date) (e : Enrollment) (course : Course)
    (he : Enrollment.findById s id = some e) (hu : e.student = user.id)
    (hc : Course.findById s e.course = some course) (h0 : course.modules.length = 0)
    (h200 : (Enrollments.putProgress s user id ⟨some m, some b, some q⟩ now).response.status
      = 200) :
    ∃ e1, Enrollment.findById (Enrollments.putProgress s user id
        ⟨some m, some b, some q⟩ now).store id = some e1 ∧
      e1.progress.overallProgress = e.progress.overallProgress ∧
      (e1.calculateProgress course now).progress.overallProgress = 0 := by
  obtain ⟨e1, hap⟩ := putProgress_ok s user id m b q now e he hu h200
  refine ⟨e1, (putProgress_accepted s user id m b q now e e1 he hu hap).2, ?_, ?_⟩
  · rw [hc] at hap
    exact applyProgress_overallProgress_kept e e1 (some course) m b q now
      (by intro c h; cases h; exact h0) hap
  · unfold Enrollment.calculateProgress
    simp only [h0, if_true]
    split <;> rfl

/-- The completion step of `recalculateProgress` on a course with at least one
module: completed and certified exactly when the new percentage is 100. -/
theorem recalculateProgress_completion (e : Enrollment) (course : Course) (now : Date)
    (hm : 0 < course.modules.length) :
    ((Enrollments.recalculateProgress e (some course) now).progress.overallProgress = 100 →
      (Enrollments.recalculateProgress e (some course) now).status
          = EnrollmentStatus.completed ∧
        (Enrollments.recalculateProgress e (some course) now).certificate.issued = true) ∧
    ((Enrollments.recalculateProgress e (some course) now).progress.overallProgress ≠ 100 →
      (Enrollments.recalculateProgress e (some course) now).status = e.status ∧
        (Enrollments.recalculateProgress e (some course) now).certificate.issued
          = e.certificate.issued) := by
  have hp := recalculateProgress_overallProgress e course now hm
  constructor
  · intro h100
    rw [hp] at h100
    unfold Enrollments.recalculateProgress
    simp only [gt_iff_lt, hm, if_true]
    unfold percentage at h100
    rw [if_pos h100]
    exact ⟨rfl, rfl⟩
  · intro h100
    rw [hp] at h100
    unfold Enrollments.recalculateProgress
    simp only [gt_iff_lt, hm, if_true]
    unfold percentage at h100
    rw [if_neg h100]
    exact ⟨rfl, rfl⟩

/-- After an accepted progress request on a course with at least one module, an
active enrollment without certificate is completed and certified exactly when the
new percentage is 100. -/
theorem putProgress_completion (s : Store) (user : AuthUser) (id : ObjectId)
    (m : RawId) (b : Bool) (q : Option ℚ) (now : Date) (e : Enrollment) (course : Course)
    (he : Enrollment.findById s id = some e) (hu : e.student = user.id)
    (hc : Course.findById s e.course = some course) (hm : 0 < course.modules.length)
    (hs : e.status = EnrollmentStatus.active) (hi : e.certificate.issued = false)
    (h200 : (Enrollments.putProgress s user id ⟨some m, some b, some q⟩ now).response.status
      = 200) :
    ∃ e1, Enrollment.findById (Enrollments.putProgress s user id
        ⟨some m, some b, some q⟩ now).store id = some e1 ∧
      e1.progress.overallProgress =
        percentage e1.progress.completedModules.length course.modules.length ∧
      (e1.progress.overallProgress = 100 →
        e1.status = EnrollmentStatus.completed ∧ e1.certificate.issued = true) ∧
      (e1.progress.overallProgress ≠ 100 →
        e1.status = EnrollmentStatus.active ∧ e1.certificate.issued = false) := by
  obtain ⟨e1, hap⟩ := putProgress_ok s user id m b q now e he hu h200
  refine ⟨e1, (putProgress_accepted s user id m b q now e e1 he hu hap).2, ?_, ?_, ?_⟩
  · rw [hc] at hap
    exact applyProgress_overallProgress e e1 course m b q now hm hap
  · rw [hc] at hap
    obtain ⟨l, _, rfl⟩ := applyProgress_some e _ (some course) m b q now hap
    exact (recalculateProgress_completion _ course now hm).1
  · rw [hc] at hap
    obtain ⟨l, _, rfl⟩ := applyProgress_some e _ (some course) m b q now hap
    intro h100
    have := (recalculateProgress_completion _ course now hm).2 h100
    exact ⟨this.1.trans hs, this.2.trans hi⟩

/-! ### Refunds and drops -/

theorem refund_store_of_not_ok (stripe : Stripe) (s : Store) (user : AuthUser)
    (body : Payments.RefundBody)
    (h : (Payments.refund stripe s user body).response.status ≠ 200) :
    (Payments.refund stripe s user body).store = s := by
  unfold Payments.refund at h ⊢
  split
  · rfl
  · split
    · rfl
    · split
      · rfl
      · split
        · rfl
        · split
          · rfl
          · split
            · rfl
            · simp only
              split
              · rfl
              · rename_i id hid hreason x e he hstu hmeth hnot y r hr
                exfalso
                apply h
                simp only [hid, hreason, if_false, he, hstu, hmeth, hnot, hr]

/-! ### The two phases of RequestEnrollment -/

/-- The handler is its checks followed, when they pass, by its creation step,
both on the same database. -/
theorem post_eq_postRaced (s : Store) (user : AuthUser) (body : Enrollments.EnrollBody)
    (now : Date) : Enrollments.post s user body now = Enrollments.postRaced s s user body now := by
  unfold Enrollments.post Enrollments.postRaced Enrollments.postCheck Enrollments.postCreate
  cases hc : body.courseId with
  | none => simp
  | some raw =>
    cases ha : body.amount with
    | none => simp
    | some a =>
      simp only
      cases hr : raw.cast with
      | none => simp
      | some c =>
        simp only [Option.bind_eq_bind, Option.some_bind, hr]
        cases hf : Course.findById s c with
        | none => simp
        | some course =>
          simp only
          by_cases hp : course.isPublished = true
          · simp only [hp, not_true_eq_false, if_false]
            cases hone : Enrollment.findOne s user.id c with
            | none => simp
            | some x => simp
          · simp [hp]

theorem insert_none_of_exists (s : Store) (e : Enrollment)
    (h : ∃ x ∈ s.enrollments, x.student = e.student ∧ x.course = e.course) :
    Enrollment.insert s e = none := by
  unfold Enrollment.insert
  have : s.enrollments.any (fun x => x.student = e.student ∧ x.course = e.course) = true := by
    rw [List.any_eq_true]
    obtain ⟨x, hx, h1, h2⟩ := h
    exact ⟨x, hx, by simp [h1, h2]⟩
  rw [if_pos this]

/-! ### The amount of a payment intent -/

theorem currentPrice_nonneg (c : Course) (hp : 0 ≤ c.price) (hd : c.discount ≤ 100) :
    0 ≤ c.currentPrice := by
  unfold Course.currentPrice
  split
  · unfold Number.mul Number.sub Number.div
    apply toDouble_nonneg
    apply mul_nonneg hp
    apply toDouble_nonneg
    have h1 : toDouble (c.discount / 100) ≤ ((1 : ℤ) : ℚ) :=
      toDouble_le_int _ (by positivity) 1 (by norm_num)
        (by rw [Int.cast_one, div_le_one (by norm_num)]; exact hd)
    rw [Int.cast_one] at h1
    linarith
  · exact hp

theorem amount_nonneg (x : ℚ) (hx : 0 ≤ x) : 0 ≤ Math.round (Number.mul x 100) := by
  unfold Math.round Number.mul
  have := toDouble_nonneg (x * 100) (by positivity)
  exact Int.floor_nonneg.mpr (by linarith)

/-! ### The status after a drop -/

theorem recalculateProgress_status (e : Enrollment) (c : Option Course) (now : Date) :
    ((Enrollments.recalculateProgress e c now).status = e.status ∧
      ((Enrollments.recalculateProgress e c now).progress.overallProgress ≠ 100 ∨ c = none)) ∨
    ((Enrollments.recalculateProgress e c now).status = EnrollmentStatus.completed ∧
      (Enrollments.recalculateProgress e c now).progress.overallProgress = 100) := by
  cases c with
  | none => left; exact ⟨rfl, Or.inr rfl⟩
  | some course =>
    unfold Enrollments.recalculateProgress
    simp only
    by_cases hm : course.modules.length > 0
    · simp only [hm, if_true]
      by_cases h100 : Math.round (Number.mul (Number.div
          (e.progress.completedModules.length : ℕ) (course.modules.length : ℕ)) 100) = 100
      · right
        simp only [h100, if_true]
        trivial
      · left
        simp only [h100, if_false]
        exact ⟨trivial, Or.inl (fun h => h100 h)⟩
    · simp only [hm, if_false]
      by_cases h100 : e.progress.overallProgress = 100
      · right
        simp only [h100, if_true]
        trivial
      · left
        simp only [h100, if_false]
        exact ⟨trivial, Or.inl (fun h => h100 h)⟩

theorem applyProgress_status (e e1 : Enrollment) (c : Option Course) (m : RawId)
    (b : Bool) (q : Option ℚ) (now : Date)
    (hap : Enrollments.applyProgress e c m b q now = some e1) :
    (e1.status = e.status ∧ (e1.progress.overallProgress ≠ 100 ∨ c = none)) ∨
    (e1.status = EnrollmentStatus.completed ∧ e1.progress.overallProgress = 100) := by
  obtain ⟨l, _, rfl⟩ := applyProgress_some e e1 c m b q now hap
  exact recalculateProgress_status _ c now

/-- Saving a document that was loaded by identifier keeps, for every stored
enrollment, a property that the saved document inherits from the loaded one. -/
theorem findById_save_keeps (P : Enrollment → Prop) (s : Store) (j id : ObjectId)
    (x d e : Enrollment) (hx : Enrollment.findById s j = some x) (hid : d.id = x.id)
    (hd : P x → P d) (he : Enrollment.findById s id = some e) (hp : P e) :
    ∃ e1, Enrollment.findById (Enrollment.save s d) id = some e1 ∧ P e1 := by
  have hxj := findById_id s j x hx
  by_cases hji : j = id
  · subst hji
    have hxe : x = e := by rw [hx] at he; exact Option.some.inj he
    exact ⟨d, findById_save_at s j x d hx (hid.trans hxj), hd (hxe ▸ hp)⟩
  · refine ⟨e, ?_, hp⟩
    rw [findById_save_other s d id (by rw [hid, hxj]; exact hji)]
    exact he

theorem delete_keeps (P : Enrollment → Prop)
    (hP : ∀ x : Enrollment, P x → P { x with status := EnrollmentStatus.dropped })
    (s : Store) (user : AuthUser) (j id : ObjectId) (e : Enrollment)
    (he : Enrollment.findById s id = some e) (hp : P e) :
    ∃ e1, Enrollment.findById (Enrollments.delete s user j).store id = some e1 ∧ P e1 := by
  unfold Enrollments.delete
  split
  · exact ⟨e, he, hp⟩
  · rename_i x hx
    split
    · exact ⟨e, he, hp⟩
    · exact findById_save_keeps P s j id x _ e hx rfl (hP x) he hp

theorem refund_keeps (P : Enrollment → Prop)
    (hP : ∀ x : Enrollment, P x → P { x with
      payment := { x.payment with paymentStatus := PaymentStatus.refunded }
      status := EnrollmentStatus.dropped })
    (stripe : Stripe) (s : Store) (user : AuthUser) (body : Payments.RefundBody)
    (id : ObjectId) (e : Enrollment)
    (he : Enrollment.findById s id = some e) (hp : P e) :
    ∃ e1, Enrollment.findById (Payments.refund stripe s user body).store id = some e1 ∧
      P e1 := by
  unfold Payments.refund
  split
  · exact ⟨e, he, hp⟩
  · split
    · exact ⟨e, he, hp⟩
    · split
      · exact ⟨e, he, hp⟩
      · rename_i x hx
        split
        · exact ⟨e, he, hp⟩
        · split
          · exact ⟨e, he, hp⟩
          · split
            · exact ⟨e, he, hp⟩
            · simp only
              split
              · exact ⟨e, he, hp⟩
              · exact findById_save_keeps P s _ id x _ e hx rfl (hP x) he hp

theorem run_not_active (s : Store) (op : Op) (id : ObjectId) (e : Enrollment)
    (he : Enrollment.findById s id = some e) (hs : e.status ≠ EnrollmentStatus.active) :
    ∃ e1, Enrollment.findById (op.run s).store id = some e1 ∧
      e1.status ≠ EnrollmentStatus.active := by
  cases op with
  | requestEnrollment user body now => exact ⟨e, post_findById s user body now id e he, hs⟩
  | confirmEnrollment stripe user body now =>
    exact ⟨e, confirm_findById stripe s user body now id e he, hs⟩
  | updateModuleProgress user j body now =>
    rcases putProgress_findById s user j body now id e he with h | ⟨c, m, b, q, e1, hap, h⟩
    · exact ⟨e, h, hs⟩
    · refine ⟨e1, h, ?_⟩
      rcases applyProgress_status e e1 c m b q now hap with ⟨h1, _⟩ | ⟨h1, _⟩
      · rw [h1]; exact hs
      · rw [h1]; decide
  | dropEnrollment user j =>
    exact delete_keeps (fun x => x.status ≠ EnrollmentStatus.active)
      (fun _ _ => (by decide : EnrollmentStatus.dropped ≠ EnrollmentStatus.active))
      s user j id e he hs
  | refundEnrollment stripe user body =>
    exact refund_keeps (fun x => x.status ≠ EnrollmentStatus.active)
      (fun _ _ => (by decide : EnrollmentStatus.dropped ≠ EnrollmentStatus.active))
      stripe s user body id e he hs

theorem runOps_not_active (ops : List Op) : ∀ (s : Store) (id : ObjectId) (e : Enrollment),
    Enrollment.findById s id = some e → e.status ≠ EnrollmentStatus.active →
    ∃ e1, Enrollment.findById (runOps s ops) id = some e1 ∧
      e1.status ≠ EnrollmentStatus.active := by
  induction ops with
  | nil => intro s id e he hs; exact ⟨e, he, hs⟩
  | cons op t ih =>
    intro s id e he hs
    obtain ⟨e1, h1, hs1⟩ := run_not_active s op id e he hs
    simp only [runOps, List.foldl_cons]
    exact ih _ id e1 h1 hs1

/-! ### Rosters and enrolled sets -/

theorem updateFirst_map_key_of_kept {α β : Type} (key : α → β) (p : α → Bool) (f : α → α)
    (hkey : ∀ x, key (f x) = key x) (l : List α) :
    (updateFirst p f l).map key = l.map key := by
  induction l with
  | nil => rfl
  | cons a t ih =>
    unfold updateFirst
    split
    · simp [hkey]
    · simp [ih]

theorem mem_updateFirst_cases {α : Type} (key : α → ℕ) (f : α → α) (k : ℕ) (l : List α)
    (hnd : (l.map key).Nodup) (y : α)
    (hy : y ∈ updateFirst (fun x => decide (key x = k)) f l) :
    (∃ x ∈ l, key x = k ∧ y = f x) ∨ (y ∈ l ∧ key y ≠ k) := by
  induction l with
  | nil => simp [updateFirst] at hy
  | cons a t ih =>
    rw [List.map_cons, List.nodup_cons] at hnd
    unfold updateFirst at hy
    split at hy
    · rename_i hp
      have hak : key a = k := by simpa using hp
      rcases List.mem_cons.mp hy with h | h
      · exact Or.inl ⟨a, List.mem_cons_self _ _, hak, h⟩
      · refine Or.inr ⟨List.mem_cons_of_mem _ h, ?_⟩
        intro hyk
        exact hnd.1 (List.mem_map.mpr ⟨y, h, by rw [hyk, hak]⟩)
    · rename_i hp
      have hak : key a ≠ k := by simpa using hp
      rcases List.mem_cons.mp hy with h | h
      · exact Or.inr ⟨h ▸ List.mem_cons_self _ _, h ▸ hak⟩
      · rcases ih hnd.2 h with ⟨x, hx, hxk, hyx⟩ | ⟨hyt, hyk⟩
        · exact Or.inl ⟨x, List.mem_cons_of_mem _ hx, hxk, hyx⟩
        · exact Or.inr ⟨List.mem_cons_of_mem _ hyt, hyk⟩

theorem agree_updateFirst {α : Type} (key : α → ℕ) (items : α → List ℕ) (f : α → α)
    (k v : ℕ) (l : List α) (R R2 : ℕ → ℕ → Prop)
    (hitems : ∀ x, items (f x) = items x ++ [v])
    (hkey : ∀ x, key (f x) = key x)
    (hnd : (l.map key).Nodup)
    (hR2 : ∀ a b, R2 a b ↔ R a b ∨ (a = k ∧ b = v)) (hnew : ¬ R k v)
    (hinv : ∀ x ∈ l, ∀ b, (R (key x) b → (items x).count b = 1) ∧
      (¬ R (key x) b → (items x).count b = 0)) :
    ∀ y ∈ updateFirst (fun x => decide (key x = k)) f l, ∀ b,
      (R2 (key y) b → (items y).count b = 1) ∧
      (¬ R2 (key y) b → (items y).count b = 0) := by
  intro y hy b
  rcases mem_updateFirst_cases key f k l hnd y hy with ⟨x, hx, hxk, hyx⟩ | ⟨hyl, hyk⟩
  · subst hyx
    rw [hkey, hitems, List.count_append, hxk, hR2]
    have hx1 := (hinv x hx b)
    rw [hxk] at hx1
    by_cases hb : b = v
    · subst hb
      have h0 := hx1.2 hnew
      constructor
      · intro _
        rw [h0]
        simp
      · intro hn
        exact absurd (Or.inr ⟨rfl, rfl⟩) hn
    · have hc : List.count b [v] = 0 := by
        rw [List.count_eq_zero]
        simpa using hb
      rw [hc]
      constructor
      · rintro (h | ⟨_, h⟩)
        · rw [hx1.1 h]
        · exact absurd h hb
      · intro hn
        rw [hx1.2 (fun h => hn (Or.inl h))]
  · rw [hR2]
    have hy1 := hinv y hyl b
    constructor
    · rintro (h | ⟨h, _⟩)
      · exact hy1.1 h
      · exact absurd h hyk
    · intro hn
      exact hy1.2 (fun h => hn (Or.inl h))

theorem rostersAgree_of_eq (s t : Store) (hc : t.courses = s.courses)
    (hu : t.users = s.users) (hp : t.pairs = s.pairs) (h : s.rostersAgree) :
    t.rostersAgree := by
  unfold Store.rostersAgree at h ⊢
  rw [hc, hu, hp]
  exact h

theorem findOne_none_not_mem_pairs (s : Store) (u c : ObjectId)
    (h : Enrollment.findOne s u c = none) : (u, c) ∉ s.pairs := by
  unfold Enrollment.findOne at h
  rw [List.find?_eq_none] at h
  intro hm
  simp only [Store.pairs, List.mem_map, Prod.mk.injEq] at hm
  obtain ⟨x, hx, h1, h2⟩ := hm
  have := h x hx
  simp [h1, h2] at this

theorem mem_pairs_iff (s : Store) (u c : ObjectId) :
    (u, c) ∈ s.pairs ↔ ∃ e ∈ s.enrollments, e.student = u ∧ e.course = c := by
  simp only [Store.pairs, List.mem_map, Prod.mk.injEq]

theorem insert_eq (s s1 : Store) (x : Enrollment) (h : Enrollment.insert s x = some s1) :
    s1 = { s with enrollments := s.enrollments ++ [x], nextId := s.nextId + 1 } := by
  unfold Enrollment.insert at h
  split at h
  · simp at h
  · simp only [Option.some.injEq] at h
    exact h.symm

theorem pushed_rosters (s : Store) (e : Enrollment) (ec : EnrolledCourse)
    (es : EnrolledStudent) (hec : ec.course = e.course) (hes : es.student = e.student)
    (hnew : (e.student, e.course) ∉ s.pairs)
    (hc : (s.courses.map (fun c => c.id)).Nodup) (hu : (s.users.map (fun u => u.id)).Nodup)
    (h : s.rostersAgree) :
    ((Course.pushEnrolledStudent (User.pushEnrolledCourse
        { s with enrollments := s.enrollments ++ [e], nextId := s.nextId + 1 }
        e.student ec) e.course es).courses.map (fun c => c.id)).Nodup ∧
    ((Course.pushEnrolledStudent (User.pushEnrolledCourse
        { s with enrollments := s.enrollments ++ [e], nextId := s.nextId + 1 }
        e.student ec) e.course es).users.map (fun u => u.id)).Nodup ∧
    (Course.pushEnrolledStudent (User.pushEnrolledCourse
        { s with enrollments := s.enrollments ++ [e], nextId := s.nextId + 1 }
        e.student ec) e.course es).rostersAgree := by
  have hpairs : ∀ a b : ObjectId, (a, b) ∈ s.pairs ++ [(e.student, e.course)] ↔
      (a, b) ∈ s.pairs ∨ (a = e.student ∧ b = e.course) := by
    intro a b
    simp [List.mem_append]
  refine ⟨?_, ?_, ?_, ?_⟩
  · simp only [Course.pushEnrolledStudent, User.pushEnrolledCourse]
    refine (congrArg List.Nodup ?_).mpr hc
    exact updateFirst_map_key_of_kept _ _ _ (by intro x; rfl) _
  · simp only [Course.pushEnrolledStudent, User.pushEnrolledCourse]
    refine (congrArg List.Nodup ?_).mpr hu
    exact updateFirst_map_key_of_kept _ _ _ (by intro x; rfl) _
  · simp only [Course.pushEnrolledStudent, User.pushEnrolledCourse, Store.pairs,
      List.map_append, List.map_cons, List.map_nil]
    refine agree_updateFirst (fun c : Course => c.id) Course.rosterStudents
      (fun c => { c with enrolledStudents := c.enrolledStudents ++ [es] })
      e.course e.student s.courses (fun a b => (b, a) ∈ s.pairs)
      (fun a b => (b, a) ∈ s.pairs ++ [(e.student, e.course)]) ?_ (fun _ => rfl) hc ?_ hnew h.1
    · intro x
      simp [Course.rosterStudents, hes]
    · intro a b
      have := hpairs b a
      tauto
  · simp only [Course.pushEnrolledStudent, User.pushEnrolledCourse, Store.pairs,
      List.map_append, List.map_cons, List.map_nil]
    refine agree_updateFirst (fun u : User => u.id) User.enrolledCourseIds
      (fun u => { u with enrolledCourses := u.enrolledCourses ++ [ec] })
      e.student e.course s.users (fun a b => (a, b) ∈ s.pairs)
      (fun a b => (a, b) ∈ s.pairs ++ [(e.student, e.course)]) ?_ (fun _ => rfl) hu ?_ hnew h.2
    · intro x
      simp [User.enrolledCourseIds, hec]
    · intro a b
      exact hpairs a b

theorem post_rosters (s : Store) (user : AuthUser) (body : Enrollments.EnrollBody)
    (now : Date)
    (hc : (s.courses.map (fun c => c.id)).Nodup) (hu : (s.users.map (fun u => u.id)).Nodup)
    (h : s.rostersAgree) :
    ((Enrollments.post s user body now).store.courses.map (fun c => c.id)).Nodup ∧
    ((Enrollments.post s user body now).store.users.map (fun u => u.id)).Nodup ∧
    (Enrollments.post s user body now).store.rostersAgree := by
  unfold Enrollments.post
  split
  · split
    · exact ⟨hc, hu, h⟩
    · split
      · exact ⟨hc, hu, h⟩
      · split
        · exact ⟨hc, hu, h⟩
        · split
          · exact ⟨hc, hu, h⟩
          · rename_i hfind
            have hnew := findOne_none_not_mem_pairs s _ _ hfind
            simp only
            split
            · exact ⟨hc, hu, h⟩
            · rename_i s1 hins
              have hs1 := insert_eq s s1 _ hins
              subst hs1
              split
              · rename_i hp
                simp [Enrollments.pushBoth, Enrollments.userBound] at hp
              · rename_i s2 hp
                simp only [Enrollments.pushBoth, Enrollments.userBound, if_true,
                  Option.some.injEq] at hp
                subst hp
                exact pushed_rosters s _ _ _ rfl rfl hnew hc hu h
  · exact ⟨hc, hu, h⟩

theorem save_courses_users (s : Store) (e : Enrollment) :
    (Enrollment.save s e).courses = s.courses ∧ (Enrollment.save s e).users = s.users :=
  ⟨rfl, rfl⟩

theorem putProgress_courses_users (s : Store) (user : AuthUser) (id : ObjectId)
    (body : Enrollments.ProgressBody) (now : Date) :
    (Enrollments.putProgress s user id body now).store.courses = s.courses ∧
    (Enrollments.putProgress s user id body now).store.users = s.users := by
  unfold Enrollments.putProgress
  split
  · split
    · exact ⟨rfl, rfl⟩
    · split
      · exact ⟨rfl, rfl⟩
      · split
        · exact ⟨rfl, rfl⟩
        · exact ⟨rfl, rfl⟩
  · exact ⟨rfl, rfl⟩

theorem delete_courses_users (s : Store) (user : AuthUser) (id : ObjectId) :
    (Enrollments.delete s user id).store.courses = s.courses ∧
    (Enrollments.delete s user id).store.users = s.users := by
  unfold Enrollments.delete
  split
  · exact ⟨rfl, rfl⟩
  · split
    · exact ⟨rfl, rfl⟩
    · exact ⟨rfl, rfl⟩

theorem refund_courses_users (stripe : Stripe) (s : Store) (user : AuthUser)
    (body : Payments.RefundBody) :
    (Payments.refund stripe s user body).store.courses = s.courses ∧
    (Payments.refund stripe s user body).store.users = s.users := by
  unfold Payments.refund
  repeat (first | exact ⟨rfl, rfl⟩ | split | simp only)

theorem run_rosters (s : Store) (op : Op) (hop : op.isConfirm = false)
    (hc : (s.courses.map (fun c => c.id)).Nodup) (hu : (s.users.map (fun u => u.id)).Nodup)
    (h : s.rostersAgree) :
    ((op.run s).store.courses.map (fun c => c.id)).Nodup ∧
    ((op.run s).store.users.map (fun u => u.id)).Nodup ∧
    (op.run s).store.rostersAgree := by
  cases op with
  | requestEnrollment user body now => exact post_rosters s user body now hc hu h
  | confirmEnrollment stripe user body now => simp [Op.isConfirm] at hop
  | updateModuleProgress user id body now =>
    obtain ⟨h1, h2⟩ := putProgress_courses_users s user id body now
    simp only [Op.run]
    rw [h1, h2]
    exact ⟨hc, hu, rostersAgree_of_eq s _ h1 h2 (putProgress_pairs s user id body now) h⟩
  | dropEnrollment user id =>
    obtain ⟨h1, h2⟩ := delete_courses_users s user id
    simp only [Op.run]
    rw [h1, h2]
    exact ⟨hc, hu, rostersAgree_of_eq s _ h1 h2 (delete_pairs s user id) h⟩
  | refundEnrollment stripe user body =>
    obtain ⟨h1, h2⟩ := refund_courses_users stripe s user body
    simp only [Op.run]
    rw [h1, h2]
    exact ⟨hc, hu, rostersAgree_of_eq s _ h1 h2 (refund_pairs stripe s user body) h⟩

theorem runOps_rosters (ops : List Op) :
    ∀ s : Store, (∀ op ∈ ops, op.isConfirm = false) →
      (s.courses.map (fun c => c.id)).Nodup → (s.users.map (fun u => u.id)).Nodup →
      s.rostersAgree → (runOps s ops).rostersAgree := by
  induction ops with
  | nil => intro s _ _ _ h; exact h
  | cons op t ih =>
    intro s hops hc hu h
    simp only [runOps, List.foldl_cons]
    obtain ⟨h1, h2, h3⟩ := run_rosters s op (hops op (List.mem_cons_self _ _)) hc hu h
    exact ih _ (fun o ho => hops o (List.mem_cons_of_mem _ ho)) h1 h2 h3

theorem emptyStore_rosters (courses : List Course) (users : List User)
    (hc0 : ∀ c ∈ courses, c.enrolledStudents = [])
    (hu0 : ∀ u ∈ users, u.enrolledCourses = []) :
    (emptyStore courses users).rostersAgree := by
  constructor
  · intro c hc student
    have : (student, c.id) ∉ (emptyStore courses users).pairs := by
      simp [emptyStore, Store.pairs]
    refine ⟨fun hm => absurd hm this, fun _ => ?_⟩
    simp [Course.rosterStudents, hc0 c hc]
  · intro u hu course
    have : (u.id, course) ∉ (emptyStore courses users).pairs := by
      simp [emptyStore, Store.pairs]
    refine ⟨fun hm => absurd hm this, fun _ => ?_⟩
    simp [User.enrolledCourseIds, hu0 u hu]

/-! ### The claims -/

/-- C1: in every database reached from one without enrollments by a sequence of
RequestEnrollment, ConfirmEnrollment, UpdateModuleProgress, DropEnrollment and
RefundEnrollment requests handled one after the other, every student and course
have at most one enrollment whose status is active or completed. -/
theorem C1_at_most_one_live_enrollment (courses : List Course) (users : List User)
    (ops : List Op) (student course : ObjectId) :
    (liveEnrollments (runOps (emptyStore courses users) ops) student course).length ≤ 1 :=
  live_le_one_of_nodup _
    (runOps_pairs_nodup ops (emptyStore courses users) (by simp [emptyStore, Store.pairs]))
    student course

/-- C2 (as stated, refuted): student 7, enrolled in the two-module course 1, marks
module 30 complete, which is not a module of the course. The handler stores
overallProgress 50; the formula of the claim, which counts only completed modules
of the course, gives 0. -/
theorem C2_counterexample_foreign_module_counted :
    (Enrollment.findById
        (Enrollments.putProgress (Sample.enrolledIn 1) Sample.student7 0
          { moduleId := some (RawId.canonical 30), completed := some true } 9).store 0).map
      (fun e => (e.progress.overallProgress,
        specOverallProgress e.progress.completedModules Sample.course1.modules))
      = some (50, 0) := by
  decide!

/-- In double arithmetic an exact half can round down: on the forty-module
course 40, student 7 completes a 23rd module; `(23 / 40) * 100` evaluates to
57.49999999999999 and the handler stores 57, where round(100 × 23 / 40) is 58. -/
theorem overall_progress_23_of_40 :
    (Enrollment.findById
        (Enrollments.putProgress Sample.enrolledIn40 Sample.student7 0
          { moduleId := some (RawId.canonical 122), completed := some true } 9).store 0).map
      (fun e => (e.progress.completedModules.length, e.progress.overallProgress,
        specOverallProgress e.progress.completedModules Sample.course40.modules))
      = some (23, 57, 58) := by
  decide!

/-- C2 (amended): when UpdateModuleProgress is accepted for an enrollment whose
course has at least one module, the stored overallProgress is
`Math.round((n / total) * 100)` in double arithmetic, where `n` is the number of
entries of the completed-module list left by the update, every entry being
counted, and `total` the number of modules of the course; `calculateProgress`
computes the same number. It is the formula of the specification when the
completed identifiers are pairwise distinct modules of the course and
100 × n / total is not an exact half. -/
theorem C2_overall_progress_counts_every_entry (s : Store) (user : AuthUser) (id : ObjectId)
    (moduleId : RawId) (completed : Bool) (quizScore : Option ℚ) (now : Date)
    (e : Enrollment) (course : Course)
    (he : Enrollment.findById s id = some e) (hu : e.student = user.id)
    (hc : Course.findById s e.course = some course) (hm : 0 < course.modules.length)
    (hok : (Enrollments.putProgress s user id
        { moduleId := some moduleId, completed := some completed,
          quizScore := some quizScore } now).response.status = 200) :
    ∃ e1, Enrollment.findById (Enrollments.putProgress s user id
        { moduleId := some moduleId, completed := some completed,
          quizScore := some quizScore } now).store id = some e1 ∧
      Enrollments.updateCompletedModules
        e.progress.completedModules moduleId completed quizScore now =
          some e1.progress.completedModules ∧
      e1.progress.overallProgress =
        percentage e1.progress.completedModules.length course.modules.length ∧
      (e1.calculateProgress course now).progress.overallProgress =
        e1.progress.overallProgress ∧
      ((e1.progress.completedModules.map (fun m => m.moduleId)).Nodup →
        (∀ m ∈ e1.progress.completedModules, m.moduleId ∈ course.modules.map (fun x => x.id)) →
        (course.modules.map (fun m => m.id)).Nodup →
        e1.progress.completedModules.length ≤ 2 ^ 40 →
        (200 * e1.progress.completedModules.length + course.modules.length) %
          (2 * course.modules.length) ≠ 0 →
        e1.progress.overallProgress =
          specOverallProgress e1.progress.completedModules course.modules) := by
  obtain ⟨e1, hap⟩ := putProgress_ok s user id moduleId completed quizScore now e he hu hok
  have hput := (putProgress_accepted s user id moduleId completed quizScore now e e1 he hu hap).2
  rw [hc] at hap
  have hop := applyProgress_overallProgress e e1 course moduleId completed quizScore now hm hap
  have hcm := applyProgress_completedModules e e1 (some course) moduleId completed quizScore
    now hap
  refine ⟨e1, hput, hcm, hop, ?_, ?_⟩
  · rw [calculateProgress_overallProgress _ course now hm, hop]
  · intro hnd hsub hmod hlen htie
    rw [specOverallProgress_of_subset _ _ hnd hsub hmod, hop]
    exact percentage_eq_round _ _ hm hlen htie

/-- C2, witness: student 7 completes module 10 of the two-module course 1. -/
theorem C2_overall_progress_counts_every_entry_witness :
    ∃ e1, Enrollment.findById (Enrollments.putProgress (Sample.enrolledIn 1) Sample.student7 0
        { moduleId := some (RawId.canonical 10), completed := some true,
          quizScore := some none } 9).store 0 = some e1 ∧
      Enrollments.updateCompletedModules
        (Sample.enrollmentIn 1).progress.completedModules (RawId.canonical 10) true none 9 =
          some e1.progress.completedModules ∧
      e1.progress.overallProgress =
        percentage e1.progress.completedModules.length Sample.course1.modules.length ∧
      (e1.calculateProgress Sample.course1 9).progress.overallProgress =
        e1.progress.overallProgress ∧
      ((e1.progress.completedModules.map (fun m => m.moduleId)).Nodup →
        (∀ m ∈ e1.progress.completedModules,
          m.moduleId ∈ Sample.course1.modules.map (fun x => x.id)) →
        (Sample.course1.modules.map (fun m => m.id)).Nodup →
        e1.progress.completedModules.length ≤ 2 ^ 40 →
        (200 * e1.progress.completedModules.length + Sample.course1.modules.length) %
          (2 * Sample.course1.modules.length) ≠ 0 →
        e1.progress.overallProgress =
          specOverallProgress e1.progress.completedModules Sample.course1.modules) :=
  C2_overall_progress_counts_every_entry (Sample.enrolledIn 1) Sample.student7 0
    (RawId.canonical 10) true none 9
    (Sample.enrollmentIn 1) Sample.course1 rfl rfl rfl (by decide) (by decide!)

/-- C3 (as stated, refuted): on the one-module course 2, whose certificate flag is
on, student 7 completes module 10 and then marks it incomplete: the certificate
stays issued while overallProgress is back to 0. On the one-module course 3,
whose certificate flag is off, student 7 completes module 10: the certificate is
issued, although the virtual `isCertificateEligible` is false. -/
theorem C3_counterexample_issued_below_full_progress :
    (Sample.enrollmentIn 2).certificate.issued = false ∧
    (Enrollment.findById (runProgress (Sample.enrolledIn 2)
        [Sample.complete 10 6, Sample.uncomplete 10 7]) 0).map
      (fun e => (e.certificate.issued, e.progress.overallProgress)) = some (true, 0) ∧
    (Sample.enrollmentIn 3).certificate.issued = false ∧
    (Enrollment.findById (runProgress (Sample.enrolledIn 3) [Sample.complete 10 6]) 0).map
      (fun e => (e.certificate.issued, Sample.course3.certificate,
        e.isCertificateEligible Sample.course3)) = some (true, false, false) := by
  decide!

/-- C3 (amended): for an enrollment that starts with certificate.issued = false,
if certificate.issued = true after a sequence of UpdateModuleProgress requests,
then one request of the sequence left the enrollment with overallProgress = 100,
status completed and the certificate issued. -/
theorem C3_issued_implies_full_progress_was_reached (s : Store) (id : ObjectId)
    (e0 e : Enrollment) (calls : List ProgressCall)
    (h0 : Enrollment.findById s id = some e0) (hi : e0.certificate.issued = false)
    (he : Enrollment.findById (runProgress s calls) id = some e)
    (hiss : e.certificate.issued = true) :
    ∃ k, 0 < k ∧ k ≤ calls.length ∧ ∃ ek,
      Enrollment.findById (runProgress s (calls.take k)) id = some ek ∧
      ek.progress.overallProgress = 100 ∧ ek.status = EnrollmentStatus.completed ∧
      ek.certificate.issued = true :=
  issued_only_at_full_progress calls s id e0 e h0 hi he hiss

/-- C3, witness: on course 2 student 7 completes module 10, then marks it incomplete. -/
theorem C3_issued_implies_full_progress_was_reached_witness :
    ∃ k, 0 < k ∧ k ≤ [Sample.complete 10 6, Sample.uncomplete 10 7].length ∧ ∃ ek,
      Enrollment.findById (runProgress (Sample.enrolledIn 2)
        ([Sample.complete 10 6, Sample.uncomplete 10 7].take k)) 0 = some ek ∧
      ek.progress.overallProgress = 100 ∧ ek.status = EnrollmentStatus.completed ∧
      ek.certificate.issued = true :=
  C3_issued_implies_full_progress_was_reached (Sample.enrolledIn 2) 0 (Sample.enrollmentIn 2)
    { Sample.enrollmentIn 2 with
        progress := { completedModules := [], overallProgress := 0, lastAccessed := 7 }
        status := EnrollmentStatus.completed
        certificate := { issued := true, issuedAt := some 6 } }
    [Sample.complete 10 6, Sample.uncomplete 10 7] rfl rfl (by decide!) rfl

/-- C4 (as stated, refuted): student 7 confirms the succeeded intent `pi_1` for
course 1 twice. The first request is answered 500 and the second 400
`Already enrolled in this course`; neither returns an enrollment. -/
theorem C4_counterexample_second_confirm_rejected :
    ((Payments.confirm Sample.stripeOk Sample.fresh Sample.student7
        { paymentIntentId := "pi_1", courseId := some 1 } 5).response,
     (Payments.confirm Sample.stripeOk
        (Payments.confirm Sample.stripeOk Sample.fresh Sample.student7
          { paymentIntentId := "pi_1", courseId := some 1 } 5).store
        Sample.student7 { paymentIntentId := "pi_1", courseId := some 1 } 6).response)
      = (⟨500, Body.message "Server error"⟩,
         ⟨400, Body.message "Already enrolled in this course"⟩) := by
  decide!

/-- C4 (amended): when ConfirmEnrollment is invoked twice in sequence with the
same succeeded intent for a student and an existing course without a prior
enrollment, the second request is rejected with 400
`Already enrolled in this course` and changes nothing, and afterwards exactly one
enrollment exists for the pair: the one the first request stored, whose payment
record is that of the intent. -/
theorem C4_second_confirm_already_enrolled (stripe : Stripe) (s : Store) (user : AuthUser)
    (body : Payments.ConfirmBody) (now1 now2 : Date) (pi : PaymentIntent) (c : ObjectId)
    (course : Course)
    (hid : body.paymentIntentId ≠ "") (hc : body.courseId = some c)
    (hr : stripe.paymentIntentsRetrieve body.paymentIntentId = some pi)
    (hs : pi.status = "succeeded")
    (hcourse : Course.findById s c = some course)
    (hn : Enrollment.findOne s user.id c = none) :
    (Payments.confirm stripe (Payments.confirm stripe s user body now1).store user body
        now2).response = ⟨400, Body.message "Already enrolled in this course"⟩ ∧
    (Payments.confirm stripe (Payments.confirm stripe s user body now1).store user body
        now2).store = (Payments.confirm stripe s user body now1).store ∧
    enrollmentsFor (Payments.confirm stripe (Payments.confirm stripe s user body now1).store
        user body now2).store user.id c = [confirmedEnrollment s user c pi now1] := by
  rw [confirm_creates stripe s user body now1 pi c course hid hc hr hs hcourse hn]
  simp only
  have hfind : Enrollment.findOne
      { s with
          enrollments := s.enrollments ++ [confirmedEnrollment s user c pi now1]
          nextId := s.nextId + 1 } user.id c = some (confirmedEnrollment s user c pi now1) := by
    unfold Enrollment.findOne at hn ⊢
    exact find_append_of_none _ _ _ hn (by simp [confirmedEnrollment])
  have hcourse2 : Course.findById
      { s with
          enrollments := s.enrollments ++ [confirmedEnrollment s user c pi now1]
          nextId := s.nextId + 1 } c = some course := hcourse
  have h2 : Payments.confirm stripe
      { s with
          enrollments := s.enrollments ++ [confirmedEnrollment s user c pi now1]
          nextId := s.nextId + 1 } user body now2 =
      ⟨⟨400, Body.message "Already enrolled in this course"⟩,
       { s with
          enrollments := s.enrollments ++ [confirmedEnrollment s user c pi now1]
          nextId := s.nextId + 1 },
       [StripeCall.paymentIntentsRetrieve body.paymentIntentId]⟩ := by
    unfold Payments.confirm
    simp only [hc, hid, if_false, hr, hs, ne_eq, not_true_eq_false, hcourse2, hfind]
  rw [h2]
  refine ⟨rfl, rfl, ?_⟩
  have h0 := findOne_none_enrollmentsFor s user.id c hn
  unfold enrollmentsFor at h0 ⊢
  simp only [List.filter_append, h0, List.nil_append]
  simp [List.filter, confirmedEnrollment]

/-- C4, witness: student 7 confirms the intent `pi_1` for course 1 twice. -/
theorem C4_second_confirm_already_enrolled_witness :
    (Payments.confirm Sample.stripeOk (Payments.confirm Sample.stripeOk Sample.fresh
        Sample.student7 { paymentIntentId := "pi_1", courseId := some 1 } 5).store
        Sample.student7 { paymentIntentId := "pi_1", courseId := some 1 } 6).response
      = ⟨400, Body.message "Already enrolled in this course"⟩ ∧
    (Payments.confirm Sample.stripeOk (Payments.confirm Sample.stripeOk Sample.fresh
        Sample.student7 { paymentIntentId := "pi_1", courseId := some 1 } 5).store
        Sample.student7 { paymentIntentId := "pi_1", courseId := some 1 } 6).store
      = (Payments.confirm Sample.stripeOk Sample.fresh Sample.student7
          { paymentIntentId := "pi_1", courseId := some 1 } 5).store ∧
    enrollmentsFor (Payments.confirm Sample.stripeOk (Payments.confirm Sample.stripeOk
        Sample.fresh Sample.student7 { paymentIntentId := "pi_1", courseId := some 1 } 5).store
        Sample.student7 { paymentIntentId := "pi_1", courseId := some 1 } 6).store 7 1
      = [confirmedEnrollment Sample.fresh Sample.student7 1 Sample.succeededIntent 5] :=
  C4_second_confirm_already_enrolled Sample.stripeOk Sample.fresh Sample.student7
    { paymentIntentId := "pi_1", courseId := some 1 } 5 6 Sample.succeededIntent 1
    Sample.course1 (by decide) rfl rfl rfl rfl rfl

/-- C5: when RefundEnrollment succeeds, the stored enrollment has payment status
refunded and status dropped; any further RefundEnrollment request of the same
student for that enrollment makes no Stripe call and changes nothing, and with a
reason given it is answered 400 `Payment already refunded`. -/
theorem C5_refund_marks_refunded_and_blocks_second (stripe : Stripe) (s : Store)
    (user : AuthUser) (body : Payments.RefundBody)
    (hok : (Payments.refund stripe s user body).response.status = 200) :
    ∃ id e1, body.enrollmentId = some id ∧
      Enrollment.findById (Payments.refund stripe s user body).store id = some e1 ∧
      e1.payment.paymentStatus = PaymentStatus.refunded ∧
      e1.status = EnrollmentStatus.dropped ∧
      ∀ (stripe2 : Stripe) (reason2 : String),
        (Payments.refund stripe2 (Payments.refund stripe s user body).store user
          ⟨some id, reason2⟩).calls = [] ∧
        (Payments.refund stripe2 (Payments.refund stripe s user body).store user
          ⟨some id, reason2⟩).store = (Payments.refund stripe s user body).store ∧
        (reason2 ≠ "" →
          (Payments.refund stripe2 (Payments.refund stripe s user body).store user
            ⟨some id, reason2⟩).response = ⟨400, Body.message "Payment already refunded"⟩) := by
  unfold Payments.refund at hok
  split at hok
  · simp at hok
  · rename_i id hbid
    split at hok
    · simp at hok
    · rename_i hreason
      split at hok
      · simp at hok
      · rename_i e he
        split at hok
        · simp at hok
        · rename_i hstu
          split at hok
          · simp at hok
          · rename_i hmeth
            split at hok
            · simp at hok
            · rename_i hnot
              simp only at hok
              split at hok
              · simp [serverError] at hok
              · rename_i r hr
                have heid := findById_id s id e he
                have hstu2 : e.student = user.id := by simpa using hstu
                have hout : Payments.refund stripe s user body =
                    ⟨⟨200, Body.withRefund "Refund processed successfully" r.id
                        (Number.div r.amount 100) r.status⟩,
                      Enrollment.save s { e with
                        payment := { e.payment with paymentStatus := PaymentStatus.refunded }
                        status := EnrollmentStatus.dropped },
                      [StripeCall.refundsCreate (e.payment.transactionId.getD "") e.id
                        body.reason]⟩ := by
                  unfold Payments.refund
                  simp only [hbid, hreason, if_false, he, hstu, hmeth, hnot, hr]
                have hfind : Enrollment.findById (Enrollment.save s { e with
                      payment := { e.payment with paymentStatus := PaymentStatus.refunded }
                      status := EnrollmentStatus.dropped }) id =
                    some { e with
                      payment := { e.payment with paymentStatus := PaymentStatus.refunded }
                      status := EnrollmentStatus.dropped } := by
                  exact findById_save_at s id e _ he heid
                rw [hout]
                refine ⟨id, _, hbid, hfind, rfl, rfl, ?_⟩
                intro stripe2 reason2
                unfold Payments.refund
                simp only [hfind]
                by_cases hr2 : reason2 = ""
                · simp [hr2]
                · simp only [hr2, if_false, hstu2, ne_eq, not_true_eq_false, hmeth, hnot,
                    if_true, true_and]
                  intro _
                  trivial

/-- C5, witness: student 7 is refunded for course 1 and asks once more. -/
theorem C5_refund_marks_refunded_and_blocks_second_witness :
    (Payments.refund Sample.stripeOk (Sample.enrolledIn 1) Sample.student7
        ⟨some 0, "changed my mind"⟩).response.status = 200 ∧
    (Payments.refund Sample.stripeOk
        (Payments.refund Sample.stripeOk (Sample.enrolledIn 1) Sample.student7
          ⟨some 0, "changed my mind"⟩).store Sample.student7 ⟨some 0, "once more"⟩).response
      = ⟨400, Body.message "Payment already refunded"⟩ := by
  have hok : (Payments.refund Sample.stripeOk (Sample.enrolledIn 1) Sample.student7
      ⟨some 0, "changed my mind"⟩).response.status = 200 := by decide!
  obtain ⟨id, e1, hid, _, _, _, h⟩ := C5_refund_marks_refunded_and_blocks_second
    Sample.stripeOk (Sample.enrolledIn 1) Sample.student7 ⟨some 0, "changed my mind"⟩ hok
  cases hid
  exact ⟨hok, (h Sample.stripeOk "once more").2.2 (by decide)⟩

/-- C6 (as stated, refuted): student 7 has dropped the only enrollment in the
published course 1, so no active or completed enrollment exists for the pair;
RequestEnrollment is answered 400 `Already enrolled in this course` and stores
nothing. -/
theorem C6_counterexample_dropped_blocks_reenrollment :
    liveEnrollments Sample.droppedFrom1 7 1 = [] ∧
    Enrollments.post Sample.droppedFrom1 Sample.student7
        ⟨some (RawId.canonical 1), some 20⟩ 9 =
      ⟨⟨400, Body.message "Already enrolled in this course"⟩, Sample.droppedFrom1, []⟩ := by
  decide!

/-- C6 (amended): RequestEnrollment for a published course is answered 400
`Already enrolled in this course` if and only if an enrollment of any status,
dropped included, already exists for the (student, course) pair; the rejected
request stores nothing, so a dropped enrollment blocks re-enrollment. -/
theorem C6_already_enrolled_iff_any_enrollment (s : Store) (user : AuthUser)
    (raw : RawId) (courseId : ObjectId) (amount : ℚ) (now : Date) (course : Course)
    (hraw : raw.cast = some courseId)
    (hc : Course.findById s courseId = some course) (hp : course.isPublished = true) :
    ((Enrollments.post s user ⟨some raw, some amount⟩ now).response =
        ⟨400, Body.message "Already enrolled in this course"⟩ ↔
      ∃ e ∈ s.enrollments, e.student = user.id ∧ e.course = courseId) ∧
    ((Enrollments.post s user ⟨some raw, some amount⟩ now).response =
        ⟨400, Body.message "Already enrolled in this course"⟩ →
      (Enrollments.post s user ⟨some raw, some amount⟩ now).store = s) := by
  unfold Enrollments.post
  simp only [hraw, hc, hp, not_true_eq_false, if_false]
  cases hf : Enrollment.findOne s user.id courseId with
  | some e =>
    simp only [true_iff, implies_true, and_true]
    unfold Enrollment.findOne at hf
    refine ⟨e, List.mem_of_find?_eq_some hf, ?_⟩
    simpa using List.find?_some hf
  | none =>
    have hnone : ¬ ∃ e ∈ s.enrollments, e.student = user.id ∧ e.course = courseId := by
      unfold Enrollment.findOne at hf
      rw [List.find?_eq_none] at hf
      rintro ⟨e, he, h1, h2⟩
      exact hf e he (by simp [h1, h2])
    simp only [hnone, iff_false]
    have hne : ∀ o : Outcome, o.response.status ≠ 400 →
        ¬ o.response = ⟨400, Body.message "Already enrolled in this course"⟩ := by
      intro o h1 h2
      rw [h2] at h1
      exact h1 rfl
    have hstatus : (match Enrollment.insert s
          { id := s.nextId, student := user.id, course := courseId, enrolledAt := now,
            progress := { lastAccessed := now },
            payment := { amount := amount, currency := "USD",
                         paymentStatus := PaymentStatus.completed } } with
        | none => (⟨serverError, s, []⟩ : Outcome)
        | some s1 =>
          match Enrollments.pushBoth Enrollments.userBound s1 user.id courseId now with
          | none => ⟨serverError, s1, []⟩
          | some s2 =>
            ⟨⟨201, Body.withEnrollment "Successfully enrolled in course"
                (Enrollment.findById s2 s.nextId)⟩, s2, []⟩).response.status ≠ 400 := by
      split
      · simp [serverError]
      · split
        · simp [serverError]
        · simp
    have := hne _ hstatus
    exact ⟨this, fun h => absurd h this⟩

/-- C6, witness: student 7 requests course 1 again after dropping it. -/
theorem C6_already_enrolled_iff_any_enrollment_witness :
    ((Enrollments.post Sample.droppedFrom1 Sample.student7
          ⟨some (RawId.canonical 1), some 20⟩ 9).response =
        ⟨400, Body.message "Already enrolled in this course"⟩ ↔
      ∃ e ∈ Sample.droppedFrom1.enrollments, e.student = Sample.student7.id ∧ e.course = 1) ∧
    ((Enrollments.post Sample.droppedFrom1 Sample.student7
          ⟨some (RawId.canonical 1), some 20⟩ 9).response =
        ⟨400, Body.message "Already enrolled in this course"⟩ →
      (Enrollments.post Sample.droppedFrom1 Sample.student7
          ⟨some (RawId.canonical 1), some 20⟩ 9).store =
        Sample.droppedFrom1) :=
  C6_already_enrolled_iff_any_enrollment Sample.droppedFrom1 Sample.student7
    (RawId.canonical 1) 1 20 9 Sample.course1 rfl rfl rfl

/-- C7: for a succeeded intent with amount `a` in minor units, currency `c` and
identifier `t`, and any request body, when no enrollment exists for the pair
every enrollment of the pair stored after ConfirmEnrollment has payment amount
`a / 100` (the double nearest to the quotient, within `2 ^ (-53)` of it
relatively), currency `c`, payment status completed and transaction identifier
`t`; such an enrollment is stored when the body names the intent and the course
exists; and the outcome is the same whatever amount the body declares. -/
theorem C7_confirm_stores_provider_payment (stripe : Stripe) (s : Store) (user : AuthUser)
    (body : Payments.ConfirmBody) (now : Date) (pi : PaymentIntent) (c : ObjectId)
    (hc : body.courseId = some c)
    (hr : stripe.paymentIntentsRetrieve body.paymentIntentId = some pi)
    (hs : pi.status = "succeeded")
    (hn : Enrollment.findOne s user.id c = none) :
    (∀ e ∈ (Payments.confirm stripe s user body now).store.enrollments,
      e.student = user.id → e.course = c →
        e.payment.amount = Number.div pi.amount 100 ∧ e.payment.currency = pi.currency ∧
        e.payment.paymentStatus = PaymentStatus.completed ∧
        e.payment.transactionId = some pi.id ∧
        (0 ≤ pi.amount →
          |e.payment.amount - pi.amount / 100| ≤ pi.amount / 100 * (2 : ℚ) ^ (-53 : ℤ))) ∧
    (body.paymentIntentId ≠ "" → (Course.findById s c).isSome →
      ∃ e ∈ (Payments.confirm stripe s user body now).store.enrollments,
        e.student = user.id ∧ e.course = c) ∧
    (∀ declared : Option ℚ,
      Payments.confirm stripe s user { body with amount := declared } now =
        Payments.confirm stripe s user body now) := by
  have hold : ∀ e ∈ s.enrollments, ¬ (e.student = user.id ∧ e.course = c) := by
    unfold Enrollment.findOne at hn
    rw [List.find?_eq_none] at hn
    intro e he
    simpa using hn e he
  refine ⟨?_, ?_, ?_⟩
  · intro e he h1 h2
    rcases confirm_enrollments stripe s user body now pi c hc hr hs hn with h | h
    · rw [h] at he
      exact absurd ⟨h1, h2⟩ (hold e he)
    · rw [h, List.mem_append] at he
      rcases he with he | he
      · exact absurd ⟨h1, h2⟩ (hold e he)
      · rw [List.mem_singleton] at he
        subst he
        refine ⟨rfl, rfl, rfl, rfl, fun h0 => ?_⟩
        exact toDouble_rel_error (pi.amount / 100) (by positivity)
  · intro hid hcourse
    obtain ⟨course, hcourse⟩ := Option.isSome_iff_exists.mp hcourse
    rw [confirm_creates stripe s user body now pi c course hid hc hr hs hcourse hn]
    exact ⟨confirmedEnrollment s user c pi now, by simp, rfl, rfl⟩
  · intro declared
    rfl

/-- C7, witness: the intent `pi_1` of 1999 cents, the body declaring an amount of 1. -/
theorem C7_confirm_stores_provider_payment_witness :
    (∀ e ∈ (Payments.confirm Sample.stripeOk Sample.fresh Sample.student7
        { paymentIntentId := "pi_1", courseId := some 1, amount := some 1 } 5).store.enrollments,
      e.student = Sample.student7.id → e.course = 1 →
        e.payment.amount = Number.div 1999 100 ∧ e.payment.currency = "usd" ∧
        e.payment.paymentStatus = PaymentStatus.completed ∧
        e.payment.transactionId = some "pi_1" ∧
        ((0 : ℚ) ≤ 1999 →
          |e.payment.amount - 1999 / 100| ≤ 1999 / 100 * (2 : ℚ) ^ (-53 : ℤ))) ∧
    (∃ e ∈ (Payments.confirm Sample.stripeOk Sample.fresh Sample.student7
        { paymentIntentId := "pi_1", courseId := some 1, amount := some 1 } 5).store.enrollments,
      e.student = Sample.student7.id ∧ e.course = 1) :=
  ⟨(C7_confirm_stores_provider_payment Sample.stripeOk Sample.fresh Sample.student7
      { paymentIntentId := "pi_1", courseId := some 1, amount := some 1 } 5
      Sample.succeededIntent 1 rfl rfl rfl rfl).1,
   (C7_confirm_stores_provider_payment Sample.stripeOk Sample.fresh Sample.student7
      { paymentIntentId := "pi_1", courseId := some 1, amount := some 1 } 5
      Sample.succeededIntent 1 rfl rfl rfl rfl).2.1 (by decide) rfl⟩

/-- C8 (the code at the failing input): student 7 confirms the succeeded intent
`pi_1` for the existing course 1 without a prior enrollment. The enrollment is
stored, then the request fails with 500: neither the roster of the course nor the
enrolled set of the student changes. The same enrollment requested through
RequestEnrollment is answered 201 and appears in both. -/
theorem C8_confirm_fails_after_save :
    (Payments.confirm Sample.stripeOk Sample.fresh Sample.student7
        { paymentIntentId := "pi_1", courseId := some 1 } 5).response = serverError ∧
    (Payments.confirm Sample.stripeOk Sample.fresh Sample.student7
        { paymentIntentId := "pi_1", courseId := some 1 } 5).store.courses
      = Sample.fresh.courses ∧
    (Payments.confirm Sample.stripeOk Sample.fresh Sample.student7
        { paymentIntentId := "pi_1", courseId := some 1 } 5).store.users = Sample.fresh.users ∧
    (enrollmentsFor (Payments.confirm Sample.stripeOk Sample.fresh Sample.student7
        { paymentIntentId := "pi_1", courseId := some 1 } 5).store 7 1).length = 1 ∧
    (Enrollments.post Sample.fresh Sample.student7
        ⟨some (RawId.canonical 1), some 20⟩ 5).response.status = 201 ∧
    ((Course.findById (Enrollments.post Sample.fresh Sample.student7
        ⟨some (RawId.canonical 1), some 20⟩ 5).store
        1).map (fun c => c.enrolledStudents.map (fun r => r.student))) = some [7] ∧
    (Enrollments.post Sample.fresh Sample.student7
        ⟨some (RawId.canonical 1), some 20⟩ 5).store.users
      = [{ id := 7, enrolledCourses := [⟨1, 5⟩] }] := by
  decide!

/-- C9: when the intent retrieved for a well-formed ConfirmEnrollment request has
a status other than `succeeded`, the request is answered 400
`Payment not completed` and the database is left as it was: no enrollment is
created, and rosters and enrolled sets are unchanged. -/
theorem C9_confirm_rejects_unsucceeded_intent (stripe : Stripe) (s : Store) (user : AuthUser)
    (body : Payments.ConfirmBody) (now : Date) (pi : PaymentIntent) (c : ObjectId)
    (hid : body.paymentIntentId ≠ "") (hc : body.courseId = some c)
    (hr : stripe.paymentIntentsRetrieve body.paymentIntentId = some pi)
    (hs : pi.status ≠ "succeeded") :
    Payments.confirm stripe s user body now =
      ⟨⟨400, Body.message "Payment not completed"⟩, s,
       [StripeCall.paymentIntentsRetrieve body.paymentIntentId]⟩ := by
  unfold Payments.confirm
  simp only [hc, hid, if_false, hr, hs, ne_eq, not_false_eq_true, if_true]

/-- C9, witness: the intent `pi_1` still requires an action. -/
theorem C9_confirm_rejects_unsucceeded_intent_witness :
    Payments.confirm Sample.stripePending Sample.fresh Sample.student7
        { paymentIntentId := "pi_1", courseId := some 1 } 5 =
      ⟨⟨400, Body.message "Payment not completed"⟩, Sample.fresh,
       [StripeCall.paymentIntentsRetrieve "pi_1"]⟩ :=
  C9_confirm_rejects_unsucceeded_intent Sample.stripePending Sample.fresh Sample.student7
    { paymentIntentId := "pi_1", courseId := some 1 } 5
    { id := "pi_1", status := "requires_action", amount := 1999, currency := "usd" } 1
    (by decide) rfl rfl (by decide)

/-- C10 (as stated, refuted): student 7 requests the course identifier `abc`,
which is not empty, is no ObjectId and names no course. `Course.findById` throws
a `CastError` and the request is answered 500 `Server error`, which is neither
the 404 `Course not found` nor the 400 `Course is not published` of an
unavailable course. -/
theorem C10_counterexample_malformed_course_id :
    Enrollments.post Sample.fresh Sample.student7 ⟨some (RawId.malformed "abc"), some 20⟩ 5 =
      ⟨⟨500, Body.message "Server error"⟩, Sample.fresh, []⟩ ∧
    (Enrollments.post Sample.fresh Sample.student7
        ⟨some (RawId.malformed "abc"), some 20⟩ 5).response ≠
      ⟨404, Body.message "Course not found"⟩ ∧
    (Enrollments.post Sample.fresh Sample.student7
        ⟨some (RawId.malformed "abc"), some 20⟩ 5).response ≠
      ⟨400, Body.message "Course is not published"⟩ := by
  decide!

/-- C10 (amended): a RequestEnrollment whose course identifier is an ObjectId
(in any spelling) that names no course is answered 404 `Course not found`, and
400 `Course is not published` when it names a course that is not published; a
course identifier that is no ObjectId is answered 500 `Server error`. In the
three cases the database is left as it was: no enrollment is created, and
rosters and enrolled sets are unchanged. -/
theorem C10_request_rejects_unavailable_course (s : Store) (user : AuthUser)
    (raw : RawId) (amount : ℚ) (now : Date)
    (h : ∀ courseId course, raw.cast = some courseId →
      Course.findById s courseId = some course → course.isPublished = false) :
    (Enrollments.post s user ⟨some raw, some amount⟩ now).store = s ∧
    (∀ courseId, raw.cast = some courseId → Course.findById s courseId = none →
      (Enrollments.post s user ⟨some raw, some amount⟩ now).response =
        ⟨404, Body.message "Course not found"⟩) ∧
    (∀ courseId, raw.cast = some courseId → (Course.findById s courseId).isSome →
      (Enrollments.post s user ⟨some raw, some amount⟩ now).response =
        ⟨400, Body.message "Course is not published"⟩) ∧
    (raw.cast = none →
      (Enrollments.post s user ⟨some raw, some amount⟩ now).response =
        ⟨500, Body.message "Server error"⟩) := by
  unfold Enrollments.post
  cases hr : raw.cast with
  | none => simp [hr, serverError]
  | some courseId =>
    cases hc : Course.findById s courseId with
    | none => simp [hr, hc]
    | some course =>
      have := h courseId course hr hc
      simp [hr, hc, this]

/-- C10, witness: the unpublished course 4, the missing course 99, the latter
also spelled in upper case, and the identifier `abc`. -/
theorem C10_request_rejects_unavailable_course_witness :
    (Enrollments.post Sample.fresh Sample.student7
        ⟨some (RawId.canonical 4), some 20⟩ 5).store = Sample.fresh ∧
    (Enrollments.post Sample.fresh Sample.student7
        ⟨some (RawId.canonical 4), some 20⟩ 5).response =
      ⟨400, Body.message "Course is not published"⟩ ∧
    (Enrollments.post Sample.fresh Sample.student7
        ⟨some (RawId.respelled 99), some 20⟩ 5).store = Sample.fresh ∧
    (Enrollments.post Sample.fresh Sample.student7
        ⟨some (RawId.respelled 99), some 20⟩ 5).response =
      ⟨404, Body.message "Course not found"⟩ ∧
    (Enrollments.post Sample.fresh Sample.student7
        ⟨some (RawId.malformed "abc"), some 20⟩ 5).store = Sample.fresh ∧
    (Enrollments.post Sample.fresh Sample.student7
        ⟨some (RawId.malformed "abc"), some 20⟩ 5).response =
      ⟨500, Body.message "Server error"⟩ :=
  ⟨(C10_request_rejects_unavailable_course Sample.fresh Sample.student7 (RawId.canonical 4)
      20 5 (by intro c course hr hc; cases hr; cases hc; rfl)).1,
   (C10_request_rejects_unavailable_course Sample.fresh Sample.student7 (RawId.canonical 4)
      20 5 (by intro c course hr hc; cases hr; cases hc; rfl)).2.2.1 4 rfl rfl,
   (C10_request_rejects_unavailable_course Sample.fresh Sample.student7 (RawId.respelled 99)
      20 5 (by intro c course hr hc; cases hr; cases hc)).1,
   (C10_request_rejects_unavailable_course Sample.fresh Sample.student7 (RawId.respelled 99)
      20 5 (by intro c course hr hc; cases hr; cases hc)).2.1 99 rfl rfl,
   (C10_request_rejects_unavailable_course Sample.fresh Sample.student7
      (RawId.malformed "abc") 20 5 (by intro c course hr; cases hr)).1,
   (C10_request_rejects_unavailable_course Sample.fresh Sample.student7
      (RawId.malformed "abc") 20 5 (by intro c course hr; cases hr)).2.2.2 rfl⟩

/-- C11 (the code at the failing input): student 7 is enrolled in the two-module
course 1 with no completed module and reports module 10 complete twice, once
with the identifier as `toString()` prints it (`A`) and once with its digits in
upper case (`B`). After `A` then `B` the test of line 165 finds no entry equal to
`B`, a second entry for module 10 is pushed, and two entries of two modules give
overallProgress 100, status completed and a certificate; after `B` then `A` the
entry pushed for `B` equals `A`, one entry is stored and overallProgress is 50. -/
theorem C11_spelling_breaks_commutation :
    (Enrollment.findById (runProgress (Sample.enrolledIn 1)
        [Sample.complete 10 6, Sample.completeUpper 10 7]) 0).map
      (fun e => (e.progress.completedModules.map (fun m => m.moduleId),
        e.progress.overallProgress, e.status, e.certificate.issued))
      = some ([10, 10], 100, EnrollmentStatus.completed, true) ∧
    (Enrollment.findById (runProgress (Sample.enrolledIn 1)
        [Sample.completeUpper 10 6, Sample.complete 10 7]) 0).map
      (fun e => (e.progress.completedModules.map (fun m => m.moduleId),
        e.progress.overallProgress, e.status, e.certificate.issued))
      = some ([10], 50, EnrollmentStatus.active, false) := by
  decide!

/-- C12 (the code at the failing input): student 7, enrolled in the two-module
course 1, sends the same request twice: module 10 complete, the digits of the
identifier in upper case. The first request stores one entry for module 10; the
second finds no entry whose `toString()` equals the upper-case string and pushes
a second entry for module 10. Marking module 10 incomplete with the upper-case
string removes nothing. -/
theorem C12_respelled_update_adds_duplicate :
    (Enrollment.findById (runProgress (Sample.enrolledIn 1)
        [Sample.completeUpper 10 6]) 0).map
      (fun e => e.progress.completedModules.map (fun m => (m.moduleId, m.completedAt)))
      = some [(10, 6)] ∧
    (Enrollment.findById (runProgress (Sample.enrolledIn 1)
        [Sample.completeUpper 10 6, Sample.completeUpper 10 7]) 0).map
      (fun e => e.progress.completedModules.map (fun m => (m.moduleId, m.completedAt)))
      = some [(10, 6), (10, 7)] ∧
    (Enrollment.findById (runProgress (Sample.enrolledIn 1)
        [Sample.complete 10 6, Sample.uncompleteUpper 10 7]) 0).map
      (fun e => e.progress.completedModules.map (fun m => (m.moduleId, m.completedAt)))
      = some [(10, 6)] := by
  decide!

/-- C13: once an enrollment has certificate.issued = true, it is still stored with
certificate.issued = true after any sequence of requests, be they
UpdateModuleProgress (marking modules incomplete included), DropEnrollment or
RefundEnrollment, or RequestEnrollment and ConfirmEnrollment. -/
theorem C13_certificate_never_unissued (s : Store) (id : ObjectId) (e : Enrollment)
    (ops : List Op) (he : Enrollment.findById s id = some e)
    (hi : e.certificate.issued = true) :
    ∃ e1, Enrollment.findById (runOps s ops) id = some e1 ∧ e1.certificate.issued = true :=
  runOps_issued ops s id e he hi

/-- C13, witness: the certified student 7 of course 2 marks module 10 incomplete,
drops the enrollment and is refunded. -/
theorem C13_certificate_never_unissued_witness :
    ∃ e1, Enrollment.findById (runOps Sample.certifiedIn2
        [Op.updateModuleProgress Sample.student7 0
           ⟨some (RawId.canonical 10), some false, some none⟩ 8,
         Op.dropEnrollment Sample.student7 0,
         Op.refundEnrollment Sample.stripeOk Sample.student7 ⟨some 0, "no longer needed"⟩])
        0 = some e1 ∧ e1.certificate.issued = true :=
  C13_certificate_never_unissued Sample.certifiedIn2 0 _ _ rfl rfl

/-- C14 (the code at the failing input): course 5 has no module any more, and the
enrollment of student 7 still carries the percentage 50. Student 7 marks module
10 incomplete: the route stores the emptied list and keeps overallProgress 50,
where the claim says 0; `calculateProgress` on the stored document gives 0. -/
theorem C14_stale_progress_on_empty_course :
    Sample.course5.modules.length = 0 ∧
    (Enrollment.findById
        (Enrollments.putProgress Sample.enrolledIn5 Sample.student7 0
          ⟨some (RawId.canonical 10), some false, some none⟩ 9).store 0).map
      (fun e => (e.progress.completedModules.length, e.progress.overallProgress,
        (e.calculateProgress Sample.course5 9).progress.overallProgress))
      = some (0, 50, 0) := by
  decide!

/-- C15: for an active enrollment without certificate and a course with at least
one module, after an accepted UpdateModuleProgress the enrollment is completed
with certificate.issued = true if the recomputed overallProgress is 100, and is
still active with certificate.issued = false otherwise. On the four-module course
6, completing modules 1 and 3 gives overallProgress 50 with status active, and
completing modules 2 and 4 as well gives overallProgress 100, status completed
and certificate.issued true. -/
theorem C15_completed_exactly_at_full_progress :
    (∀ (s : Store) (user : AuthUser) (id : ObjectId) (m : RawId) (b : Bool) (q : Option ℚ)
        (now : Date) (e : Enrollment) (course : Course),
      Enrollment.findById s id = some e → e.student = user.id →
      Course.findById s e.course = some course → 0 < course.modules.length →
      e.status = EnrollmentStatus.active → e.certificate.issued = false →
      (Enrollments.putProgress s user id ⟨some m, some b, some q⟩ now).response.status = 200 →
      ∃ e1, Enrollment.findById (Enrollments.putProgress s user id
          ⟨some m, some b, some q⟩ now).store id = some e1 ∧
        e1.progress.overallProgress =
          percentage e1.progress.completedModules.length course.modules.length ∧
        (e1.progress.overallProgress = 100 →
          e1.status = EnrollmentStatus.completed ∧ e1.certificate.issued = true) ∧
        (e1.progress.overallProgress ≠ 100 →
          e1.status = EnrollmentStatus.active ∧ e1.certificate.issued = false)) ∧
    (Enrollment.findById (runProgress Sample.enrolledIn6
        [Sample.complete 1 6, Sample.complete 3 7]) 0).map
      (fun e => (e.progress.overallProgress, e.status, e.certificate.issued))
      = some (50, EnrollmentStatus.active, false) ∧
    (Enrollment.findById (runProgress Sample.enrolledIn6
        [Sample.complete 1 6, Sample.complete 3 7, Sample.complete 2 8,
         Sample.complete 4 9]) 0).map
      (fun e => (e.progress.overallProgress, e.status, e.certificate.issued))
      = some (100, EnrollmentStatus.completed, true) := by
  refine ⟨?_, by decide!, by decide!⟩
  intro s user id m b q now e course he hu hc hm hs hi hok
  exact putProgress_completion s user id m b q now e course he hu hc hm hs hi hok

/-- C15, witness: student 7 completes module 1 of the four-module course 6. -/
theorem C15_completed_exactly_at_full_progress_witness :
    ∃ e1, Enrollment.findById (Enrollments.putProgress Sample.enrolledIn6 Sample.student7 0
        ⟨some (RawId.canonical 1), some true, some none⟩ 6).store 0 = some e1 ∧
      e1.progress.overallProgress =
        percentage e1.progress.completedModules.length Sample.course6.modules.length ∧
      (e1.progress.overallProgress = 100 →
        e1.status = EnrollmentStatus.completed ∧ e1.certificate.issued = true) ∧
      (e1.progress.overallProgress ≠ 100 →
        e1.status = EnrollmentStatus.active ∧ e1.certificate.issued = false) :=
  C15_completed_exactly_at_full_progress.1 Sample.enrolledIn6 Sample.student7 0
    (RawId.canonical 1) true none 6
    (Sample.enrollmentIn 6) Sample.course6 rfl rfl rfl (by decide) rfl rfl (by decide!)

/-- C16: whenever RefundEnrollment is not answered 200, the database is left as it
was, so the enrollment keeps its status and its payment status; and it is not
answered 200 when the requester is not the student of the enrollment, when the
payment method is not stripe or the transaction identifier is missing, when the
payment is already refunded, or when the refund call to Stripe fails. -/
theorem C16_failed_refund_changes_nothing (stripe : Stripe) (s : Store) (user : AuthUser)
    (id : ObjectId) (reason : String) (e : Enrollment)
    (he : Enrollment.findById s id = some e)
    (hcause : e.student ≠ user.id ∨ e.payment.paymentMethod ≠ "stripe" ∨
      Payments.truthy e.payment.transactionId = false ∨
      e.payment.paymentStatus = PaymentStatus.refunded ∨
      stripe.refundsCreate (e.payment.transactionId.getD "") e.id reason = none) :
    (Payments.refund stripe s user ⟨some id, reason⟩).response.status ≠ 200 ∧
    (Payments.refund stripe s user ⟨some id, reason⟩).store = s ∧
    Enrollment.findById (Payments.refund stripe s user ⟨some id, reason⟩).store id = some e := by
  have hne : (Payments.refund stripe s user ⟨some id, reason⟩).response.status ≠ 200 := by
    unfold Payments.refund
    simp only [he]
    split
    · exact (by decide : (400 : ℕ) ≠ 200)
    · split
      · exact (by decide : (403 : ℕ) ≠ 200)
      · rename_i hstu
        split
        · exact (by decide : (400 : ℕ) ≠ 200)
        · rename_i hmeth
          split
          · exact (by decide : (400 : ℕ) ≠ 200)
          · rename_i hnot
            split
            · exact (by decide : (500 : ℕ) ≠ 200)
            · rename_i r hr
              exfalso
              rcases hcause with h | h | h | h | h
              · exact hstu h
              · exact hmeth (Or.inl h)
              · exact hmeth (Or.inr (by simp [h]))
              · exact hnot h
              · rw [h] at hr; cases hr
  have hst := refund_store_of_not_ok stripe s user ⟨some id, reason⟩ hne
  exact ⟨hne, hst, by rw [hst]; exact he⟩

/-- C16, witness: student 7 asks for a refund that Stripe rejects. -/
theorem C16_failed_refund_changes_nothing_witness :
    (Payments.refund Sample.stripePending (Sample.enrolledIn 1) Sample.student7
        ⟨some 0, "changed my mind"⟩).response.status ≠ 200 ∧
    (Payments.refund Sample.stripePending (Sample.enrolledIn 1) Sample.student7
        ⟨some 0, "changed my mind"⟩).store = Sample.enrolledIn 1 ∧
    Enrollment.findById (Payments.refund Sample.stripePending (Sample.enrolledIn 1)
        Sample.student7 ⟨some 0, "changed my mind"⟩).store 0 = some (Sample.enrollmentIn 1) :=
  C16_failed_refund_changes_nothing Sample.stripePending (Sample.enrolledIn 1) Sample.student7
    0 "changed my mind" (Sample.enrollmentIn 1) rfl (Or.inr (Or.inr (Or.inr (Or.inr rfl))))

/-- C17: DropEnrollment on a stored enrollment is answered 403 `Not authorized`,
the database left as it was, when the requester is neither the student of the
enrollment nor an admin; otherwise it is answered 200 and the enrollment is
stored with status dropped and every other field, payment status included, as it
was, the other enrollments, the courses and the users being untouched. -/
theorem C17_drop_sets_status_only (s : Store) (user : AuthUser) (id : ObjectId)
    (e : Enrollment) (he : Enrollment.findById s id = some e) :
    (e.student ≠ user.id ∧ user.role ≠ "admin" →
      Enrollments.delete s user id = ⟨⟨403, Body.message "Not authorized"⟩, s, []⟩) ∧
    (e.student = user.id ∨ user.role = "admin" →
      (Enrollments.delete s user id).response =
        ⟨200, Body.message "Enrollment dropped successfully"⟩ ∧
      Enrollment.findById (Enrollments.delete s user id).store id =
        some { e with status := EnrollmentStatus.dropped } ∧
      (∀ j, j ≠ id → Enrollment.findById (Enrollments.delete s user id).store j =
        Enrollment.findById s j) ∧
      (Enrollments.delete s user id).store.courses = s.courses ∧
      (Enrollments.delete s user id).store.users = s.users) := by
  have heid := findById_id s id e he
  constructor
  · intro h
    unfold Enrollments.delete
    simp only [he]
    rw [if_pos h]
  · intro h
    have hn : ¬ (e.student ≠ user.id ∧ user.role ≠ "admin") := by
      rintro ⟨h1, h2⟩
      rcases h with h | h
      · exact h1 h
      · exact h2 h
    have hout : Enrollments.delete s user id =
        ⟨⟨200, Body.message "Enrollment dropped successfully"⟩,
          Enrollment.save s { e with status := EnrollmentStatus.dropped }, []⟩ := by
      unfold Enrollments.delete
      simp only [he, hn, if_false]
    rw [hout]
    refine ⟨rfl, findById_save_at s id e _ he heid, ?_, rfl, rfl⟩
    intro j hj
    exact findById_save_other s _ j (by simp only; rw [heid]; exact fun h => hj h.symm)

/-- C17, witness: student 7 drops the enrollment in course 1. -/
theorem C17_drop_sets_status_only_witness :
    (Enrollments.delete (Sample.enrolledIn 1) Sample.student7 0).response =
      ⟨200, Body.message "Enrollment dropped successfully"⟩ ∧
    Enrollment.findById (Enrollments.delete (Sample.enrolledIn 1) Sample.student7 0).store 0 =
      some { Sample.enrollmentIn 1 with status := EnrollmentStatus.dropped } ∧
    (Enrollments.delete (Sample.enrolledIn 1) { id := 8 } 0) =
      ⟨⟨403, Body.message "Not authorized"⟩, Sample.enrolledIn 1, []⟩ :=
  ⟨((C17_drop_sets_status_only (Sample.enrolledIn 1) Sample.student7 0
      (Sample.enrollmentIn 1) rfl).2 (Or.inl rfl)).1,
   ((C17_drop_sets_status_only (Sample.enrolledIn 1) Sample.student7 0
      (Sample.enrollmentIn 1) rfl).2 (Or.inl rfl)).2.1,
   (C17_drop_sets_status_only (Sample.enrolledIn 1) { id := 8 } 0
      (Sample.enrollmentIn 1) rfl).1 ⟨by decide, by decide⟩⟩

/-- C18 (as stated, refuted): two requests of student 7 for course 1 both pass the
pre-check on the database without enrollments. The creation step of the first
stores the enrollment; the creation step of the second, run on the database the
first left, is answered 500 `Server error`, not 400
`Already enrolled in this course`, and stores nothing. -/
theorem C18_counterexample_duplicate_key_is_server_error :
    Enrollments.postCheck Sample.fresh Sample.student7 ⟨some (RawId.canonical 1), some 20⟩
      = none ∧
    Enrollments.postRaced Sample.fresh
        (Enrollments.post Sample.fresh Sample.student7
          ⟨some (RawId.canonical 1), some 20⟩ 5).store
        Sample.student7 ⟨some (RawId.canonical 1), some 20⟩ 6 =
      ⟨⟨500, Body.message "Server error"⟩,
        (Enrollments.post Sample.fresh Sample.student7
          ⟨some (RawId.canonical 1), some 20⟩ 5).store, []⟩ := by
  decide!

/-- C18 (amended): when the pre-check of RequestEnrollment finds no enrollment
and the database reached by `save()` holds one for the (student, course) pair,
the unique index rejects the insert and the request is answered 500
`Server error`; nothing is stored, so no duplicate is created. -/
theorem C18_rejected_insert_is_server_error (before atSave : Store) (user : AuthUser)
    (raw : RawId) (courseId : ObjectId) (amount : ℚ) (now : Date)
    (hraw : raw.cast = some courseId)
    (hcheck : Enrollments.postCheck before user ⟨some raw, some amount⟩ = none)
    (hdup : ∃ x ∈ atSave.enrollments, x.student = user.id ∧ x.course = courseId) :
    Enrollments.postRaced before atSave user ⟨some raw, some amount⟩ now =
      ⟨⟨500, Body.message "Server error"⟩, atSave, []⟩ := by
  unfold Enrollments.postRaced
  simp only [hcheck, Option.bind_eq_bind, Option.some_bind, hraw]
  unfold Enrollments.postCreate
  simp only
  rw [insert_none_of_exists atSave _ hdup]
  rfl

/-- C18, witness: the loser of the two requests of student 7 for course 1. -/
theorem C18_rejected_insert_is_server_error_witness :
    Enrollments.postRaced Sample.fresh (Sample.enrolledIn 1) Sample.student7
        ⟨some (RawId.canonical 1), some 20⟩ 6 =
      ⟨⟨500, Body.message "Server error"⟩, Sample.enrolledIn 1, []⟩ :=
  C18_rejected_insert_is_server_error Sample.fresh (Sample.enrolledIn 1) Sample.student7
    (RawId.canonical 1) 1 20 6 rfl
    (by decide!) ⟨Sample.enrollmentIn 1, by simp [Sample.enrolledIn], rfl, rfl⟩

/-- C19 (as stated, refuted): Stripe posts the signed event
`payment_intent.succeeded` of student 7 and course 1, for which no enrollment
exists. The application leaves the database without enrollment for the pair,
whereas ConfirmEnrollment for the same intent stores one. In the application
`express.json()` has parsed the body before the route runs, `constructEvent`
throws and the answer is 400; the route on its own, given the bytes of the
request, finds the signature valid, answers 200 and stores nothing either. -/
theorem C19_counterexample_webhook_creates_nothing :
    Sample.stripeLive.webhooksConstructEvent Sample.successEvent "t=1,v1=5257a8" "whsec_1" =
      Except.ok { type := "payment_intent.succeeded"
                  object := { Sample.succeededIntent with
                    metadataCourseId := some 1, metadataStudentId := some 7 } } ∧
    enrollmentsFor Sample.fresh 7 1 = [] ∧
    App.postPaymentsWebhook Sample.stripeLive Sample.fresh Sample.successEvent
        "t=1,v1=5257a8" "whsec_1" =
      ⟨⟨400, Body.text
          "Webhook Error: Webhook payload must be provided as a string or a Buffer"⟩,
        Sample.fresh,
        [StripeCall.webhooksConstructEvent ReqBody.parsed "t=1,v1=5257a8" "whsec_1"]⟩ ∧
    enrollmentsFor (App.postPaymentsWebhook Sample.stripeLive Sample.fresh Sample.successEvent
      "t=1,v1=5257a8" "whsec_1").store 7 1 = [] ∧
    Payments.webhook Sample.stripeLive Sample.fresh none Sample.successEvent
        "t=1,v1=5257a8" "whsec_1" =
      ⟨⟨200, Body.received⟩, Sample.fresh,
        [StripeCall.webhooksConstructEvent (ReqBody.buffer Sample.successEvent)
          "t=1,v1=5257a8" "whsec_1"]⟩ ∧
    (enrollmentsFor (Payments.confirm Sample.stripeLive Sample.fresh Sample.student7
        { paymentIntentId := "pi_1", courseId := some 1 } 5).store 7 1).length = 1 :=
  ⟨rfl, by decide!, by decide!, by decide!, by decide!, by decide!⟩

/-- C19 (amended): for every webhook request, the signature-valid event of type
payment succeeded whose metadata references a (course, student) pair without
enrollment included, HandleWebhookEvent leaves the database as it was, so no
enrollment for the pair exists afterwards. This holds for the application and
for the route on its own, whatever was left in the body before it. -/
theorem C19_webhook_changes_nothing (stripe : Stripe) (s : Store) (body : Option ReqBody)
    (bytes sig endpointSecret : String) (student course : ObjectId)
    (hnone : enrollmentsFor s student course = []) :
    (App.postPaymentsWebhook stripe s bytes sig endpointSecret).store = s ∧
    enrollmentsFor (App.postPaymentsWebhook stripe s bytes sig endpointSecret).store
      student course = [] ∧
    (Payments.webhook stripe s body bytes sig endpointSecret).store = s ∧
    enrollmentsFor (Payments.webhook stripe s body bytes sig endpointSecret).store
      student course = [] := by
  have key : ∀ b : Option ReqBody,
      (Payments.webhook stripe s b bytes sig endpointSecret).store = s := by
    intro b
    unfold Payments.webhook
    simp only
    split
    · rfl
    · split
      · rfl
      · split <;> rfl
  have happ : (App.postPaymentsWebhook stripe s bytes sig endpointSecret).store = s :=
    key _
  refine ⟨happ, ?_, key body, ?_⟩
  · rw [happ]
    exact hnone
  · rw [key body]
    exact hnone

/-- C19, witness: the signed success event of student 7 for course 1. -/
theorem C19_webhook_changes_nothing_witness :
    (App.postPaymentsWebhook Sample.stripeLive Sample.fresh Sample.successEvent
      "t=1,v1=5257a8" "whsec_1").store = Sample.fresh ∧
    enrollmentsFor (App.postPaymentsWebhook Sample.stripeLive Sample.fresh Sample.successEvent
      "t=1,v1=5257a8" "whsec_1").store 7 1 = [] :=
  ⟨(C19_webhook_changes_nothing Sample.stripeLive Sample.fresh none Sample.successEvent
      "t=1,v1=5257a8" "whsec_1" 7 1 (by decide!)).1,
   (C19_webhook_changes_nothing Sample.stripeLive Sample.fresh none Sample.successEvent
      "t=1,v1=5257a8" "whsec_1" 7 1 (by decide!)).2.1⟩

/-- C20 (as stated, refuted): for course 8, whose price is 0, and for course 9,
discounted by 100 percent, the computed amount is 0 and the handler still calls
`stripe.paymentIntents.create`, with amount 0. -/
theorem C20_counterexample_zero_amount_reaches_stripe :
    Math.round (Number.mul Sample.course8.currentPrice 100) = 0 ∧
    (Payments.createPaymentIntent Sample.stripeLive Sample.priced Sample.student7
        ⟨some 8⟩).calls = [StripeCall.paymentIntentsCreate 0 "usd" 8 7 "Free course"] ∧
    Math.round (Number.mul Sample.course9.currentPrice 100) = 0 ∧
    (Payments.createPaymentIntent Sample.stripeLive Sample.priced Sample.student7
        ⟨some 9⟩).calls = [StripeCall.paymentIntentsCreate 0 "usd" 9 7 "Given away"] := by
  decide!

/-- C20 (amended): for a published course in which the student is not enrolled,
creating a payment intent calls the provider once, with the amount
`Math.round(currentPrice * 100)`, and changes nothing in the database; no local
check precedes the call, whatever the amount. The amount is an integer, and it is
not negative when the price is not negative and the discount is at most 100. -/
theorem C20_intent_amount_is_rounded_price (stripe : Stripe) (s : Store) (user : AuthUser)
    (courseId : ObjectId) (course : Course)
    (hc : Course.findById s courseId = some course) (hp : course.isPublished = true)
    (hn : Enrollment.findOne s user.id courseId = none) :
    (Payments.createPaymentIntent stripe s user ⟨some courseId⟩).calls =
      [StripeCall.paymentIntentsCreate (Math.round (Number.mul course.currentPrice 100)) "usd"
        courseId user.id course.title] ∧
    (Payments.createPaymentIntent stripe s user ⟨some courseId⟩).store = s ∧
    (0 ≤ course.price → course.discount ≤ 100 →
      0 ≤ Math.round (Number.mul course.currentPrice 100)) := by
  refine ⟨?_, ?_, fun h1 h2 => amount_nonneg _ (currentPrice_nonneg course h1 h2)⟩
  · unfold Payments.createPaymentIntent
    simp only [hc, hp, not_true_eq_false, if_false, hn]
    split <;> rfl
  · unfold Payments.createPaymentIntent
    simp only [hc, hp, not_true_eq_false, if_false, hn]
    split <;> rfl

/-- C20, witness: student 7 asks for an intent for course 1, priced 20. -/
theorem C20_intent_amount_is_rounded_price_witness :
    (Payments.createPaymentIntent Sample.stripeLive Sample.fresh Sample.student7
        ⟨some 1⟩).calls =
      [StripeCall.paymentIntentsCreate (Math.round (Number.mul Sample.course1.currentPrice 100))
        "usd" 1 Sample.student7.id Sample.course1.title] ∧
    (Payments.createPaymentIntent Sample.stripeLive Sample.fresh Sample.student7
        ⟨some 1⟩).store = Sample.fresh ∧
    (0 : ℤ) ≤ Math.round (Number.mul Sample.course1.currentPrice 100) :=
  ⟨(C20_intent_amount_is_rounded_price Sample.stripeLive Sample.fresh Sample.student7 1
      Sample.course1 rfl rfl rfl).1,
   (C20_intent_amount_is_rounded_price Sample.stripeLive Sample.fresh Sample.student7 1
      Sample.course1 rfl rfl rfl).2.1,
   (C20_intent_amount_is_rounded_price Sample.stripeLive Sample.fresh Sample.student7 1
      Sample.course1 rfl rfl rfl).2.2 (by decide!) (by decide!)⟩

/-- C21 (as stated, refuted): student 7 has dropped the enrollment in the
two-module course 1 and then completes modules 10 and 20: the second request
stores overallProgress 100 and changes the status from dropped to completed. -/
theorem C21_counterexample_dropped_becomes_completed :
    (Enrollment.findById Sample.droppedFrom1 0).map (fun e => e.status)
      = some EnrollmentStatus.dropped ∧
    (Enrollment.findById (runProgress Sample.droppedFrom1
        [Sample.complete 10 6, Sample.complete 20 7]) 0).map
      (fun e => (e.status, e.progress.overallProgress))
      = some (EnrollmentStatus.completed, 100) := by
  decide!

/-- C21 (amended): for a stored enrollment whose status is dropped, DropEnrollment
and RefundEnrollment leave the status dropped; UpdateModuleProgress leaves it
dropped unless the overallProgress it stores is 100, in which case the status
becomes completed; and after any sequence of requests the status is not active. -/
theorem C21_dropped_never_active_again (s : Store) (id : ObjectId) (e : Enrollment)
    (he : Enrollment.findById s id = some e) (hs : e.status = EnrollmentStatus.dropped) :
    (∀ (user : AuthUser) (j : ObjectId),
      ∃ e1, Enrollment.findById (Enrollments.delete s user j).store id = some e1 ∧
        e1.status = EnrollmentStatus.dropped) ∧
    (∀ (stripe : Stripe) (user : AuthUser) (body : Payments.RefundBody),
      ∃ e1, Enrollment.findById (Payments.refund stripe s user body).store id = some e1 ∧
        e1.status = EnrollmentStatus.dropped) ∧
    (∀ (user : AuthUser) (j : ObjectId) (body : Enrollments.ProgressBody) (now : Date),
      ∃ e1, Enrollment.findById (Enrollments.putProgress s user j body now).store id
          = some e1 ∧
        (e1.status = EnrollmentStatus.dropped ∨
          (e1.status = EnrollmentStatus.completed ∧ e1.progress.overallProgress = 100))) ∧
    (∀ ops : List Op,
      ∃ e1, Enrollment.findById (runOps s ops) id = some e1 ∧
        e1.status ≠ EnrollmentStatus.active) := by
  refine ⟨?_, ?_, ?_, ?_⟩
  · intro user j
    exact delete_keeps (fun x => x.status = EnrollmentStatus.dropped)
      (fun _ _ => rfl) s user j id e he hs
  · intro stripe user body
    exact refund_keeps (fun x => x.status = EnrollmentStatus.dropped)
      (fun _ _ => rfl) stripe s user body id e he hs
  · intro user j body now
    rcases putProgress_findById s user j body now id e he with h | ⟨c, m, b, q, e1, hap, h⟩
    · exact ⟨e, h, Or.inl hs⟩
    · refine ⟨e1, h, ?_⟩
      rcases applyProgress_status e e1 c m b q now hap with ⟨h1, _⟩ | ⟨h1, h2⟩
      · exact Or.inl (h1.trans hs)
      · exact Or.inr ⟨h1, h2⟩
  · intro ops
    exact runOps_not_active ops s id e he (by rw [hs]; decide)

/-- C21, witness: the dropped enrollment of student 7 in course 1, dropped once
more. -/
theorem C21_dropped_never_active_again_witness :
    ∃ e1, Enrollment.findById (Enrollments.delete Sample.droppedFrom1 Sample.student7 0).store
        0 = some e1 ∧ e1.status = EnrollmentStatus.dropped :=
  (C21_dropped_never_active_again Sample.droppedFrom1 0
    { Sample.enrollmentIn 1 with status := EnrollmentStatus.dropped } rfl rfl).1
    Sample.student7 0

/-- C22 (the code at the failing input): student 7 is freshly enrolled in course
2, whose only module is 10, and reports module 10 complete twice, first with the
identifier as `toString()` prints it, then with its digits in upper case. The
test of line 165 compares strings, finds no entry equal to the upper-case string
and pushes module 10 again: the list holds two entries with the same module
identifier, each a module of the course, and the recomputed overallProgress is
200. -/
theorem C22_respelled_module_is_stored_twice :
    (Sample.enrollmentIn 2).progress.completedModules = [] ∧
    Sample.course2.modules.map (fun m => m.id) = [10] ∧
    (Enrollment.findById (runProgress (Sample.enrolledIn 2)
        [Sample.complete 10 6, Sample.completeUpper 10 7]) 0).map
      (fun e => (e.progress.completedModules.map (fun m => m.moduleId),
        e.progress.overallProgress))
      = some ([10, 10], 200) := by
  decide!

/-- C23: from a database of courses and users with distinct identifiers, empty
rosters, empty enrolled sets and no enrollment, after any sequence of
RequestEnrollment, UpdateModuleProgress, DropEnrollment and RefundEnrollment
requests (no ConfirmEnrollment), a student is exactly once in the
enrolledStudents roster of a course when an enrollment of any status exists for
the pair and not at all otherwise, and likewise a course in the enrolledCourses
of a user. -/
theorem C23_rosters_match_enrollments (courses : List Course) (users : List User)
    (ops : List Op)
    (hc : (courses.map (fun c => c.id)).Nodup) (hu : (users.map (fun u => u.id)).Nodup)
    (hc0 : ∀ c ∈ courses, c.enrolledStudents = [])
    (hu0 : ∀ u ∈ users, u.enrolledCourses = [])
    (hops : ∀ op ∈ ops, op.isConfirm = false) :
    (∀ c ∈ (runOps (emptyStore courses users) ops).courses, ∀ student : ObjectId,
      ((∃ e ∈ (runOps (emptyStore courses users) ops).enrollments,
          e.student = student ∧ e.course = c.id) →
        (c.enrolledStudents.map (fun r => r.student)).count student = 1) ∧
      ((¬ ∃ e ∈ (runOps (emptyStore courses users) ops).enrollments,
          e.student = student ∧ e.course = c.id) →
        (c.enrolledStudents.map (fun r => r.student)).count student = 0)) ∧
    (∀ u ∈ (runOps (emptyStore courses users) ops).users, ∀ course : ObjectId,
      ((∃ e ∈ (runOps (emptyStore courses users) ops).enrollments,
          e.student = u.id ∧ e.course = course) →
        (u.enrolledCourses.map (fun r => r.course)).count course = 1) ∧
      ((¬ ∃ e ∈ (runOps (emptyStore courses users) ops).enrollments,
          e.student = u.id ∧ e.course = course) →
        (u.enrolledCourses.map (fun r => r.course)).count course = 0)) := by
  have h := runOps_rosters ops (emptyStore courses users) hops hc hu
    (emptyStore_rosters courses users hc0 hu0)
  constructor
  · intro c hcm student
    have h1 := h.1 c hcm student
    rw [mem_pairs_iff] at h1
    exact h1
  · intro u hum course
    have h1 := h.2 u hum course
    rw [mem_pairs_iff] at h1
    exact h1

/-- C23, witness: student 7 enrolls in course 1, completes a module and drops
the course; the dropped enrollment keeps the student once in the roster of
course 1 and course 1 once in the enrolled set of the student, and the student
is in no roster of course 2. -/
theorem C23_rosters_match_enrollments_witness :
    ((({ Sample.course1 with enrolledStudents := [{ student := 7, enrolledAt := 5 }] }
        : Course).enrolledStudents.map (fun r => r.student)).count 7 = 1 ∧
      (Sample.course2.enrolledStudents.map (fun r => r.student)).count 7 = 0) ∧
    ((({ id := 7, enrolledCourses := [{ course := 1, enrolledAt := 5 }] }
        : User).enrolledCourses.map (fun r => r.course)).count 1 = 1) :=
  ⟨⟨((C23_rosters_match_enrollments Sample.courses [{ id := 7 }] Sample.enrollThenDrop
        (by decide) (by decide) (by decide!) (by decide!) (by decide)).1
      { Sample.course1 with enrolledStudents := [{ student := 7, enrolledAt := 5 }] }
      (by decide!) 7).1
      ⟨{ Sample.enrollmentIn 1 with
          progress := { completedModules := [{ moduleId := 10, completedAt := 6 }]
                        overallProgress := 50, lastAccessed := 6 }
          payment := { amount := 20, currency := "USD",
                       paymentStatus := PaymentStatus.completed }
          status := EnrollmentStatus.dropped }, by decide!, rfl, rfl⟩,
    ((C23_rosters_match_enrollments Sample.courses [{ id := 7 }] Sample.enrollThenDrop
        (by decide) (by decide) (by decide!) (by decide!) (by decide)).1
      Sample.course2 (by decide!) 7).2 (by decide!)⟩,
   ((C23_rosters_match_enrollments Sample.courses [{ id := 7 }] Sample.enrollThenDrop
        (by decide) (by decide) (by decide!) (by decide!) (by decide)).2
      { id := 7, enrolledCourses := [{ course := 1, enrolledAt := 5 }] }
      (by decide!) 1).1
      ⟨{ Sample.enrollmentIn 1 with
          progress := { completedModules := [{ moduleId := 10, completedAt := 6 }]
                        overallProgress := 50, lastAccessed := 6 }
          payment := { amount := 20, currency := "USD",
                       paymentStatus := PaymentStatus.completed }
          status := EnrollmentStatus.dropped }, by decide!, rfl, rfl⟩⟩

end LearnHub
